import Mathlib

/-! Page-file storage manager (`storage_mgr.c`).

A shallow embedding of the storage manager: the C functions become total
functions over an explicit disk, the handle record and the buffer the caller
passes in.  The C `int` arithmetic is two's complement on 32 bits, `long` is
wide enough for every file offset.  The standard-library calls are modelled
on a disk of named byte sequences:

* a read transfers the bytes that are present from the stream position on
  (no spurious read failure);
* a seek to an absolute offset fails exactly when the offset is negative, a
  seek to the end never fails;
* how many bytes a write gets through, and whether `fopen`, `calloc`,
  `fflush` and `fclose` succeed, is decided by the operating system and is
  an input of every operation (`OsEnv`).
-/

namespace StorageMgr

/-- The page size, `#define PAGE_SIZE 4096`. -/
def PAGE_SIZE : Nat := 4096

/-- One `char` of a file or of a page buffer. -/
abbrev Byte := Fin 256

/-- Modelled from the spec: the result codes of `dberror.h`, which is not
among the sources.  The spec's error kinds are `FileUnavailable`
(`RC_FILE_NOT_FOUND`), `HandleNotInitialized` (`RC_FILE_HANDLE_NOT_INIT`),
`WriteFailed` (`RC_WRITE_FAILED`) and `PageOutOfRange`
(`RC_READ_NON_EXISTING_PAGE`), a closed enumeration next to success. -/
inductive RC where
  | RC_OK
  | RC_FILE_NOT_FOUND
  | RC_FILE_HANDLE_NOT_INIT
  | RC_WRITE_FAILED
  | RC_READ_NON_EXISTING_PAGE
  deriving DecidableEq, Repr

open RC

/-- The value a C `int` holds after an arithmetic step whose mathematical
result is `x` (32 bits, two's complement). -/
def toInt32 (x : Int) : Int := (x + 2147483648) % 4294967296 - 2147483648

/-- The disk: the content of every file that exists, by path. -/
abbrev Disk := String → Option (List Byte)

/-- The disk with the file at `p` replaced by (or created with) content `c`. -/
def Disk.store (d : Disk) (p : String) (c : List Byte) : Disk :=
  fun q => if q = p then some c else d q

/-- An open stdio stream (`FILE`): the file it is bound to and its position. -/
structure FILE where
  path : String
  pos : Nat
  deriving DecidableEq, Repr

/-- Modelled from the spec: the handle record `SM_FileHandle` of
`storage_mgr.h`, which is not among the sources: the path, the page count,
the current position and the backing resource (`NULL` when closed). -/
structure SM_FileHandle where
  fileName : String
  totalNumPages : Int
  curPagePos : Int
  mgmtInfo : Option FILE
  deriving DecidableEq, Repr

/-- What the operating system decides during one call: whether `fopen` and
`calloc` succeed, how many bytes `fwrite` gets through at most, and whether
`fflush` and `fclose` succeed. -/
structure OsEnv where
  fopenOk : Bool
  callocOk : Bool
  fwriteCount : Nat
  fflushOk : Bool
  fcloseOk : Bool
  deriving DecidableEq, Repr

/-- Result of an operation that takes no page buffer: the result code, the
handle object afterwards (`none` for a `NULL` pointer) and the disk. -/
structure Outcome where
  rc : RC
  fHandle : Option SM_FileHandle
  disk : Disk

/-- Result of an operation on a page buffer: as `Outcome`, with the content
of the caller's buffer afterwards. -/
structure PageOutcome where
  rc : RC
  fHandle : Option SM_FileHandle
  memPage : List Byte
  disk : Disk

/-! ## The standard-library calls -/

/-- `fseek(file, offset, SEEK_SET)`: `none` when it fails (negative offset). -/
def fseekSet (file : FILE) (offset : Int) : Option FILE :=
  if offset < 0 then none else some { file with pos := offset.toNat }

/-- `fseek(file, 0, SEEK_END)`. -/
def fseekEnd (file : FILE) (d : Disk) : FILE :=
  { file with pos := ((d file.path).getD []).length }

/-- The bytes `fread(buf, 1, n, file)` transfers: those present from the
stream position on, at most `n`. -/
def freadData (n : Nat) (file : FILE) (d : Disk) : List Byte :=
  (((d file.path).getD []).drop file.pos).take n

/-- The buffer after `data` has been read into its beginning. -/
def fillBuffer (memPage data : List Byte) : List Byte :=
  data ++ memPage.drop data.length

/-- The bytes `fwrite(buf, 1, n, file)` transfers: the beginning of the
buffer, as far as the operating system lets the write get. -/
def fwriteData (memPage : List Byte) (n : Nat) (e : OsEnv) : List Byte :=
  memPage.take (min n e.fwriteCount)

/-- File content after `data` is written at offset `pos`; a gap between the
old end of the file and `pos` reads as zero bytes. -/
def overwrite (c : List Byte) (pos : Nat) (data : List Byte) : List Byte :=
  c.take pos ++ List.replicate (pos - c.length) 0 ++ data ++ c.drop (pos + data.length)

/-- The disk after `fwrite` has transferred `data` through `file`; nothing
changes when no byte got through or the file is gone. -/
def fwriteDisk (data : List Byte) (file : FILE) (d : Disk) : Disk :=
  match d file.path with
  | none => d
  | some c => if data.length = 0 then d else d.store file.path (overwrite c file.pos data)

/-- The count `fwrite` returns. -/
def fwriteResult (data : List Byte) (file : FILE) (d : Disk) : Nat :=
  match d file.path with
  | none => 0
  | some _ => data.length

/-- The stream after a transfer of `n` bytes. -/
def advance (file : FILE) (n : Nat) : FILE :=
  { file with pos := file.pos + n }

/-! ## The operations of `storage_mgr.c` -/

/-- `createPageFile`: a new file of one zero page.  No handle is involved:
the result is the result code and the disk. -/
def createPageFile (fileName : String) (e : OsEnv) (d : Disk) : RC × Disk :=
  if e.fopenOk = false then (RC_FILE_NOT_FOUND, d)
  else
    let d1 := d.store fileName []
    let file : FILE := { path := fileName, pos := 0 }
    if e.callocOk = false then (RC_WRITE_FAILED, d1)
    else
      let emptyPage : List Byte := List.replicate PAGE_SIZE 0
      let data := fwriteData emptyPage PAGE_SIZE e
      let written := fwriteResult data file d1
      let d2 := fwriteDisk data file d1
      if written ≠ PAGE_SIZE then (RC_WRITE_FAILED, d2)
      else (RC_OK, d2)

/-- `openPageFile`: binds the handle to an existing file. -/
def openPageFile (fileName : String) (fHandle : SM_FileHandle) (e : OsEnv) (d : Disk) :
    Outcome :=
  match (if e.fopenOk = true then d fileName else none) with
  | none => ⟨RC_FILE_NOT_FOUND, some fHandle, d⟩
  | some c =>
    let fileSize : Int := (c.length : Int)
    let totalPages : Int := toInt32 (fileSize / (PAGE_SIZE : Int))
    ⟨RC_OK, some { fileName := fileName, totalNumPages := totalPages, curPagePos := 0,
                   mgmtInfo := some { path := fileName, pos := 0 } }, d⟩

/-- `closePageFile`. -/
def closePageFile (fHandle : Option SM_FileHandle) (e : OsEnv) (d : Disk) : Outcome :=
  match fHandle with
  | none => ⟨RC_FILE_HANDLE_NOT_INIT, none, d⟩
  | some h =>
    match h.mgmtInfo with
    | none => ⟨RC_FILE_HANDLE_NOT_INIT, some h, d⟩
    | some _ =>
      if e.fcloseOk = false then ⟨RC_FILE_NOT_FOUND, some h, d⟩
      else ⟨RC_OK, some { h with mgmtInfo := none }, d⟩

/-- `readBlock`. -/
def readBlock (pageNum : Int) (fHandle : Option SM_FileHandle) (memPage : List Byte)
    (d : Disk) : PageOutcome :=
  match fHandle with
  | none => ⟨RC_FILE_HANDLE_NOT_INIT, none, memPage, d⟩
  | some h =>
    match h.mgmtInfo with
    | none => ⟨RC_FILE_HANDLE_NOT_INIT, some h, memPage, d⟩
    | some file =>
      if pageNum < 0 ∨ pageNum ≥ h.totalNumPages then
        ⟨RC_READ_NON_EXISTING_PAGE, some h, memPage, d⟩
      else
        let offset : Int := toInt32 (pageNum * (PAGE_SIZE : Int))
        match fseekSet file offset with
        | none => ⟨RC_READ_NON_EXISTING_PAGE, some h, memPage, d⟩
        | some file1 =>
          let data := freadData PAGE_SIZE file1 d
          let bytesRead := data.length
          let file2 := advance file1 bytesRead
          if bytesRead ≠ PAGE_SIZE then
            ⟨RC_READ_NON_EXISTING_PAGE, some { h with mgmtInfo := some file2 },
              fillBuffer memPage data, d⟩
          else
            ⟨RC_OK, some { h with curPagePos := pageNum, mgmtInfo := some file2 },
              fillBuffer memPage data, d⟩

/-- `getBlockPos`. -/
def getBlockPos (fHandle : Option SM_FileHandle) : Int :=
  match fHandle with
  | none => -1
  | some h => h.curPagePos

/-- `readFirstBlock`. -/
def readFirstBlock (fHandle : Option SM_FileHandle) (memPage : List Byte) (d : Disk) :
    PageOutcome :=
  readBlock 0 fHandle memPage d

/-- `readPreviousBlock`. -/
def readPreviousBlock (fHandle : Option SM_FileHandle) (memPage : List Byte) (d : Disk) :
    PageOutcome :=
  match fHandle with
  | none => ⟨RC_FILE_HANDLE_NOT_INIT, none, memPage, d⟩
  | some h =>
    let prevPage := toInt32 (h.curPagePos - 1)
    if prevPage < 0 then ⟨RC_READ_NON_EXISTING_PAGE, some h, memPage, d⟩
    else readBlock prevPage (some h) memPage d

/-- `readCurrentBlock`. -/
def readCurrentBlock (fHandle : Option SM_FileHandle) (memPage : List Byte) (d : Disk) :
    PageOutcome :=
  match fHandle with
  | none => ⟨RC_FILE_HANDLE_NOT_INIT, none, memPage, d⟩
  | some h => readBlock h.curPagePos (some h) memPage d

/-- `readNextBlock`. -/
def readNextBlock (fHandle : Option SM_FileHandle) (memPage : List Byte) (d : Disk) :
    PageOutcome :=
  match fHandle with
  | none => ⟨RC_FILE_HANDLE_NOT_INIT, none, memPage, d⟩
  | some h =>
    let nextPage := toInt32 (h.curPagePos + 1)
    if nextPage ≥ h.totalNumPages then ⟨RC_READ_NON_EXISTING_PAGE, some h, memPage, d⟩
    else readBlock nextPage (some h) memPage d

/-- `readLastBlock`. -/
def readLastBlock (fHandle : Option SM_FileHandle) (memPage : List Byte) (d : Disk) :
    PageOutcome :=
  match fHandle with
  | none => ⟨RC_FILE_HANDLE_NOT_INIT, none, memPage, d⟩
  | some h =>
    let lastPage := toInt32 (h.totalNumPages - 1)
    if lastPage < 0 then ⟨RC_READ_NON_EXISTING_PAGE, some h, memPage, d⟩
    else readBlock lastPage (some h) memPage d

/-- `writeBlock`. -/
def writeBlock (pageNum : Int) (fHandle : Option SM_FileHandle) (memPage : List Byte)
    (e : OsEnv) (d : Disk) : PageOutcome :=
  match fHandle with
  | none => ⟨RC_FILE_HANDLE_NOT_INIT, none, memPage, d⟩
  | some h =>
    match h.mgmtInfo with
    | none => ⟨RC_FILE_HANDLE_NOT_INIT, some h, memPage, d⟩
    | some file =>
      if pageNum < 0 ∨ pageNum ≥ h.totalNumPages then
        ⟨RC_WRITE_FAILED, some h, memPage, d⟩
      else
        let offset : Int := toInt32 (pageNum * (PAGE_SIZE : Int))
        match fseekSet file offset with
        | none => ⟨RC_WRITE_FAILED, some h, memPage, d⟩
        | some file1 =>
          let data := fwriteData memPage PAGE_SIZE e
          let bytesWritten := fwriteResult data file1 d
          let d1 := fwriteDisk data file1 d
          let file2 := advance file1 bytesWritten
          if bytesWritten ≠ PAGE_SIZE then
            ⟨RC_WRITE_FAILED, some { h with mgmtInfo := some file2 }, memPage, d1⟩
          else
            ⟨RC_OK, some { h with curPagePos := pageNum, mgmtInfo := some file2 },
              memPage, d1⟩

/-- `writeCurrentBlock`. -/
def writeCurrentBlock (fHandle : Option SM_FileHandle) (memPage : List Byte)
    (e : OsEnv) (d : Disk) : PageOutcome :=
  match fHandle with
  | none => ⟨RC_FILE_HANDLE_NOT_INIT, none, memPage, d⟩
  | some h => writeBlock h.curPagePos (some h) memPage e d

/-- `appendEmptyBlock`. -/
def appendEmptyBlock (fHandle : Option SM_FileHandle) (e : OsEnv) (d : Disk) : Outcome :=
  match fHandle with
  | none => ⟨RC_FILE_HANDLE_NOT_INIT, none, d⟩
  | some h =>
    match h.mgmtInfo with
    | none => ⟨RC_FILE_HANDLE_NOT_INIT, some h, d⟩
    | some file =>
      if e.callocOk = false then ⟨RC_WRITE_FAILED, some h, d⟩
      else
        let emptyPage : List Byte := List.replicate PAGE_SIZE 0
        let file1 := fseekEnd file d
        let data := fwriteData emptyPage PAGE_SIZE e
        let bytesWritten := fwriteResult data file1 d
        let d1 := fwriteDisk data file1 d
        let file2 := advance file1 bytesWritten
        if bytesWritten ≠ PAGE_SIZE then
          ⟨RC_WRITE_FAILED, some { h with mgmtInfo := some file2 }, d1⟩
        else
          ⟨RC_OK, some { h with totalNumPages := toInt32 (h.totalNumPages + 1),
                                mgmtInfo := some file2 }, d1⟩

/-- The loop of `ensureCapacity`: `k` iterations are left, the loop counter
is `i`, and `envs i` is what the operating system decides in iteration `i`. -/
def appendLoop : Nat → Nat → Option SM_FileHandle → (Nat → OsEnv) → Disk → Outcome
  | 0, _, fHandle, _, d => ⟨RC_OK, fHandle, d⟩
  | k + 1, i, fHandle, envs, d =>
    let result := appendEmptyBlock fHandle (envs i) d
    if result.rc ≠ RC_OK then result
    else appendLoop k (i + 1) result.fHandle envs result.disk

/-- `ensureCapacity`. -/
def ensureCapacity (numberOfPages : Int) (fHandle : Option SM_FileHandle)
    (envs : Nat → OsEnv) (d : Disk) : Outcome :=
  match fHandle with
  | none => ⟨RC_FILE_HANDLE_NOT_INIT, none, d⟩
  | some h =>
    match h.mgmtInfo with
    | none => ⟨RC_FILE_HANDLE_NOT_INIT, some h, d⟩
    | some _ =>
      if h.totalNumPages ≥ numberOfPages then ⟨RC_OK, some h, d⟩
      else
        let pagesToAdd := toInt32 (numberOfPages - h.totalNumPages)
        appendLoop pagesToAdd.toNat 0 (some h) envs d

/-! ## Evaluation on small inputs -/

/-- An operating system that lets every call succeed. -/
def okEnv : OsEnv :=
  { fopenOk := true, callocOk := true, fwriteCount := 4096, fflushOk := true, fcloseOk := true }

/-- An empty disk. -/
def emptyDisk : Disk := fun _ => none

/-- An operating system that cuts every write short after 100 bytes. -/
def shortEnv : OsEnv :=
  { fopenOk := true, callocOk := true, fwriteCount := 100, fflushOk := true, fcloseOk := true }

/-- A handle that was never opened. -/
def blankHandle : SM_FileHandle :=
  { fileName := "", totalNumPages := 0, curPagePos := 0, mgmtInfo := none }

/-- A page of zero bytes. -/
def zeroPage : List Byte := List.replicate PAGE_SIZE 0

/-- A page whose bytes are all 7. -/
def sevenPage : List Byte := List.replicate PAGE_SIZE 7

/-- A disk whose only file, `f`, is one zero page. -/
def demoDisk : Disk := emptyDisk.store "f" zeroPage

/-- The stream `openPageFile` yields on `demoDisk`. -/
def demoFile : FILE := { path := "f", pos := 0 }

/-- The handle `openPageFile` yields on `demoDisk`. -/
def demoHandle : SM_FileHandle :=
  { fileName := "f", totalNumPages := 1, curPagePos := 0, mgmtInfo := some demoFile }

/-- A disk whose only file, `big`, holds 524289 zero pages (2 GiB and one page). -/
def bigDisk : Disk := emptyDisk.store "big" (List.replicate (PAGE_SIZE * 524289) 0)

/-- The handle `openPageFile` yields on `bigDisk`. -/
def bigHandle : SM_FileHandle :=
  { fileName := "big", totalNumPages := 524289, curPagePos := 0,
    mgmtInfo := some { path := "big", pos := 0 } }

/-- A disk whose only file, `f`, is the single byte 1: not a whole page. -/
def tailDisk : Disk := emptyDisk.store "f" [1]

/-- The page count and the current position of a handle, the two fields the
operations keep the books in (`none` for a `NULL` pointer). -/
def counters (fHandle : Option SM_FileHandle) : Option (Int × Int) :=
  fHandle.map fun h => (h.totalNumPages, h.curPagePos)

/-! ## Sequences of calls -/

/-- A caller's loop of `k` consecutive `readNextBlock` calls on the same
handle and buffer, left at the first call that does not return `RC_OK`. -/
def readNextLoop : Nat → Option SM_FileHandle → List Byte → Disk → PageOutcome
  | 0, fHandle, memPage, d => ⟨RC_OK, fHandle, memPage, d⟩
  | k + 1, fHandle, memPage, d =>
    let result := readNextBlock fHandle memPage d
    if result.rc ≠ RC_OK then result
    else readNextLoop k result.fHandle result.memPage result.disk

/-- One call on a handle, with the arguments the caller passes and what the
operating system decides during the call. -/
inductive Op where
  | readBlock (pageNum : Int) (memPage : List Byte)
  | readFirstBlock (memPage : List Byte)
  | readPreviousBlock (memPage : List Byte)
  | readCurrentBlock (memPage : List Byte)
  | readNextBlock (memPage : List Byte)
  | readLastBlock (memPage : List Byte)
  | writeBlock (pageNum : Int) (memPage : List Byte) (e : OsEnv)
  | writeCurrentBlock (memPage : List Byte) (e : OsEnv)
  | appendEmptyBlock (e : OsEnv)
  | ensureCapacity (numberOfPages : Int) (envs : Nat → OsEnv)
  | closePageFile (e : OsEnv)

/-- A page operation seen as an operation without buffer. -/
def PageOutcome.toOutcome (r : PageOutcome) : Outcome := ⟨r.rc, r.fHandle, r.disk⟩

/-- The call `op` made on the handle `fHandle` over the disk `d`. -/
def Op.call (op : Op) (fHandle : Option SM_FileHandle) (d : Disk) : Outcome :=
  match op with
  | .readBlock pageNum memPage => (StorageMgr.readBlock pageNum fHandle memPage d).toOutcome
  | .readFirstBlock memPage => (StorageMgr.readFirstBlock fHandle memPage d).toOutcome
  | .readPreviousBlock memPage => (StorageMgr.readPreviousBlock fHandle memPage d).toOutcome
  | .readCurrentBlock memPage => (StorageMgr.readCurrentBlock fHandle memPage d).toOutcome
  | .readNextBlock memPage => (StorageMgr.readNextBlock fHandle memPage d).toOutcome
  | .readLastBlock memPage => (StorageMgr.readLastBlock fHandle memPage d).toOutcome
  | .writeBlock pageNum memPage e =>
    (StorageMgr.writeBlock pageNum fHandle memPage e d).toOutcome
  | .writeCurrentBlock memPage e => (StorageMgr.writeCurrentBlock fHandle memPage e d).toOutcome
  | .appendEmptyBlock e => StorageMgr.appendEmptyBlock fHandle e d
  | .ensureCapacity numberOfPages envs => StorageMgr.ensureCapacity numberOfPages fHandle envs d
  | .closePageFile e => StorageMgr.closePageFile fHandle e d

/-- A finite sequence of calls made one after the other on the same handle,
from the outcome `s` of the call before them; the result code is that of the
last call. -/
def run : List Op → Outcome → Outcome
  | [], s => s
  | op :: ops, s => run ops (op.call s.fHandle s.disk)

/-- A page write that stores all `PAGE_SIZE` bytes or fails storing none. -/
def atomicWrite (e : OsEnv) : Prop := e.fwriteCount = 0 ∨ PAGE_SIZE ≤ e.fwriteCount

/-- The arguments of a call are what their C types say: an `int` is within
32 bits and a page buffer that is written from holds `PAGE_SIZE` bytes. -/
def Op.typed : Op → Prop
  | .writeBlock _ memPage _ => memPage.length = PAGE_SIZE
  | .writeCurrentBlock memPage _ => memPage.length = PAGE_SIZE
  | .ensureCapacity numberOfPages _ =>
    -2147483648 ≤ numberOfPages ∧ numberOfPages < 2147483648
  | _ => True

/-- The call is a `readBlock` or a `writeBlock`, made directly or through a
relative or current operation. -/
def Op.positioned : Op → Prop
  | .appendEmptyBlock _ => False
  | .ensureCapacity _ _ => False
  | .closePageFile _ => False
  | _ => True

/-- Every page write of the call is atomic. -/
def Op.atomic : Op → Prop
  | .writeBlock _ _ e => atomicWrite e
  | .writeCurrentBlock _ e => atomicWrite e
  | .appendEmptyBlock e => atomicWrite e
  | .ensureCapacity _ envs => ∀ j, atomicWrite (envs j)
  | _ => True

/-- An upper bound of the page count after the calls `ops`, from a page
count of at most `t`: every append may add a page, every `ensureCapacity(n)`
may raise the count to `n`. -/
def pageBound : List Op → Int → Int
  | [], t => t
  | .appendEmptyBlock _ :: ops, t => pageBound ops (t + 1)
  | .ensureCapacity numberOfPages _ :: ops, t => pageBound ops (max t numberOfPages)
  | _ :: ops, t => pageBound ops t

/-- The file at `path` is as long as the handle's page count says, and the
handle, while open, is bound to that file. -/
def SizeInv (path : String) (fHandle : Option SM_FileHandle) (d : Disk) : Prop :=
  ∃ h c, fHandle = some h ∧ d path = some c ∧
    (c.length : Int) = 4096 * h.totalNumPages ∧
    ∀ file, h.mgmtInfo = some file → file.path = path

/-- The current position is the index of a page: `0 ≤ curPagePos` and
`curPagePos ≤ totalNumPages - 1`. -/
def PosInv (fHandle : Option SM_FileHandle) : Prop :=
  ∃ h, fHandle = some h ∧ 0 ≤ h.curPagePos ∧ h.curPagePos ≤ h.totalNumPages - 1

/-- The page count of a handle (`0` for a `NULL` pointer). -/
def pageCount (fHandle : Option SM_FileHandle) : Int :=
  match fHandle with
  | none => 0
  | some h => h.totalNumPages

/-! ## More small and large inputs -/

/-- The operating system lets the first two calls succeed and cuts the
writes of the later ones short. -/
def failAfterTwo : Nat → OsEnv := fun i => if i < 2 then okEnv else shortEnv

/-- An operating system under which a write stores nothing. -/
def noWriteEnv : OsEnv :=
  { fopenOk := true, callocOk := true, fwriteCount := 0, fflushOk := true, fcloseOk := true }

/-- An operating system that lets every call succeed except `fflush`. -/
def noFlushEnv : OsEnv :=
  { fopenOk := true, callocOk := true, fwriteCount := 4096, fflushOk := false,
    fcloseOk := true }

/-- A disk whose only file, `f`, is two zero pages. -/
def twoPageDisk : Disk := emptyDisk.store "f" (zeroPage ++ zeroPage)

/-- The handle `openPageFile` yields on `twoPageDisk`. -/
def twoPageHandle : SM_FileHandle :=
  { fileName := "f", totalNumPages := 2, curPagePos := 0, mgmtInfo := some demoFile }

/-- The stream `openPageFile` yields on `bigDisk`. -/
def bigFile : FILE := { path := "big", pos := 0 }

/-- The handle on `bigDisk` when the current position is page 524287. -/
def bigHandleAt : SM_FileHandle :=
  { fileName := "big", totalNumPages := 524289, curPagePos := 524287,
    mgmtInfo := some bigFile }

/-- A disk whose only file, `huge`, holds 1048577 zero pages (4 GiB and one
page). -/
def hugeDisk : Disk := emptyDisk.store "huge" (List.replicate (PAGE_SIZE * 1048577) 0)

/-- The stream `openPageFile` yields on `hugeDisk`. -/
def hugeFile : FILE := { path := "huge", pos := 0 }

/-- The handle `openPageFile` yields on `hugeDisk`. -/
def hugeHandle : SM_FileHandle :=
  { fileName := "huge", totalNumPages := 1048577, curPagePos := 0,
    mgmtInfo := some hugeFile }

/-- The handle on `hugeDisk` when the current position is page 1048576. -/
def hugeHandleAt : SM_FileHandle :=
  { fileName := "huge", totalNumPages := 1048577, curPagePos := 1048576,
    mgmtInfo := some hugeFile }

/-- The outcome of `createPageFile`, `openPageFile` and `m` appends on the
path `f` of an empty disk, under an operating system that lets every call
succeed. -/
def freshAfterAppends (m : Nat) : Outcome :=
  appendLoop m 0
    (openPageFile "f" blankHandle okEnv (createPageFile "f" okEnv emptyDisk).2).fHandle
    (fun _ => okEnv)
    (openPageFile "f" blankHandle okEnv (createPageFile "f" okEnv emptyDisk).2).disk

/-- A disk whose only file, `max`, holds 2147483647 zero pages, the largest
page count an `int` can hold. -/
def maxDisk : Disk := emptyDisk.store "max" (List.replicate (PAGE_SIZE * 2147483647) 0)

/-- The stream `openPageFile` yields on `maxDisk`. -/
def maxFile : FILE := { path := "max", pos := 0 }

/-- The handle `openPageFile` yields on `maxDisk`. -/
def maxHandle : SM_FileHandle :=
  { fileName := "max", totalNumPages := 2147483647, curPagePos := 0,
    mgmtInfo := some maxFile }

/-- A disk whose only file, `e`, is empty. -/
def emptyFileDisk : Disk := emptyDisk.store "e" []

/-- The handle that was opened on the empty file `e` and closed again. -/
def closedEmptyHandle : SM_FileHandle :=
  { fileName := "e", totalNumPages := 0, curPagePos := 0, mgmtInfo := none }


/-! ## Arithmetic and list facts -/

theorem PAGE_SIZE_eq : PAGE_SIZE = 4096 := rfl

theorem toInt32_of_range (x : Int) (h0 : -2147483648 ≤ x) (h1 : x < 2147483648) :
    toInt32 x = x := by
  unfold toInt32
  omega

theorem toInt32_range (x : Int) : -2147483648 ≤ toInt32 x ∧ toInt32 x < 2147483648 := by
  unfold toInt32
  omega

theorem toInt32_congr (x : Int) : ∃ m : Int, toInt32 x = x + m * 4294967296 := by
  refine ⟨-((x + 2147483648) / 4294967296), ?_⟩
  unfold toInt32
  omega

theorem offset_small (i : Int) (h0 : 0 ≤ i) (h1 : i < 524288) :
    toInt32 (i * (PAGE_SIZE : Int)) = i * 4096 := by
  rw [PAGE_SIZE_eq]
  exact toInt32_of_range _ (by omega) (by omega)

theorem overwrite_prefix_length (c : List Byte) (pos : Nat) :
    (c.take pos ++ List.replicate (pos - c.length) (0 : Byte)).length = pos := by
  simp only [List.length_append, List.length_take, List.length_replicate]
  omega

theorem drop_take_overwrite (c : List Byte) (pos : Nat) (data : List Byte) :
    ((overwrite c pos data).drop pos).take data.length = data := by
  unfold overwrite
  rw [List.append_assoc, List.drop_left' (overwrite_prefix_length c pos), List.take_left]

theorem overwrite_at_end (c data : List Byte) : overwrite c c.length data = c ++ data := by
  simp [overwrite]

theorem store_same (d : Disk) (p : String) (c : List Byte) : d.store p c p = some c := by
  simp [Disk.store]

theorem store_other (d : Disk) (p q : String) (c : List Byte) (h : q ≠ p) :
    d.store p c q = d q := by
  simp [Disk.store, h]

theorem fwriteData_full (memPage : List Byte) (e : OsEnv)
    (hlen : (fwriteData memPage PAGE_SIZE e).length = PAGE_SIZE) :
    fwriteData memPage PAGE_SIZE e = memPage.take PAGE_SIZE := by
  unfold fwriteData at *
  rw [List.length_take] at hlen
  have : min PAGE_SIZE e.fwriteCount = PAGE_SIZE := by omega
  rw [this]

theorem fwriteData_of_ok (memPage : List Byte) (e : OsEnv) (he : PAGE_SIZE ≤ e.fwriteCount) :
    fwriteData memPage PAGE_SIZE e = memPage.take PAGE_SIZE := by
  unfold fwriteData
  rw [Nat.min_eq_left he]

theorem fwriteData_zero_page (e : OsEnv) (he : PAGE_SIZE ≤ e.fwriteCount) :
    fwriteData (List.replicate PAGE_SIZE 0) PAGE_SIZE e = List.replicate PAGE_SIZE 0 := by
  rw [fwriteData_of_ok _ e he]
  exact List.take_of_length_le (by simp)

theorem fwriteData_short (memPage : List Byte) (e : OsEnv) (he : e.fwriteCount < PAGE_SIZE) :
    (fwriteData memPage PAGE_SIZE e).length ≠ PAGE_SIZE := by
  unfold fwriteData
  rw [List.length_take]
  omega

theorem fillBuffer_full (buf2 data : List Byte) (h : buf2.length ≤ data.length) :
    fillBuffer buf2 data = data := by
  simp [fillBuffer, List.drop_eq_nil_of_le h]

theorem zeroPage_length : zeroPage.length = PAGE_SIZE := by
  simp [zeroPage]

theorem sevenPage_length : sevenPage.length = PAGE_SIZE := by
  simp [sevenPage]

/-! ## What `writeBlock` and `readBlock` do -/

/-- A `writeBlock` that returns `RC_OK` went through every check, and its
result is the page stored at the offset the code computed. -/
theorem writeBlock_ok_inv (i : Int) (fHandle : Option SM_FileHandle) (buf : List Byte)
    (e : OsEnv) (d : Disk) (hw : (writeBlock i fHandle buf e d).rc = RC_OK) :
    ∃ h file c, fHandle = some h ∧ h.mgmtInfo = some file ∧ d file.path = some c ∧
      0 ≤ i ∧ i < h.totalNumPages ∧ 0 ≤ toInt32 (i * (PAGE_SIZE : Int)) ∧
      (fwriteData buf PAGE_SIZE e).length = PAGE_SIZE ∧
      writeBlock i fHandle buf e d =
        ⟨RC_OK,
          some { h with
            curPagePos := i,
            mgmtInfo := some ⟨file.path, (toInt32 (i * (PAGE_SIZE : Int))).toNat + PAGE_SIZE⟩ },
          buf,
          d.store file.path
            (overwrite c (toInt32 (i * (PAGE_SIZE : Int))).toNat (fwriteData buf PAGE_SIZE e))⟩ := by
  unfold writeBlock at hw ⊢
  cases fHandle with
  | none => simp at hw
  | some h =>
    cases hm : h.mgmtInfo with
    | none => simp [hm] at hw
    | some file =>
      simp only [hm] at hw ⊢
      by_cases hr : i < 0 ∨ i ≥ h.totalNumPages
      · simp [hr] at hw
      · simp only [hr, if_false] at hw ⊢
        by_cases ho : toInt32 (i * (PAGE_SIZE : Int)) < 0
        · simp [fseekSet, ho] at hw
        · simp only [fseekSet, ho, if_false] at hw ⊢
          cases hd : d file.path with
          | none => simp [fwriteResult, hd, PAGE_SIZE_eq] at hw
          | some c =>
            simp only [fwriteResult, hd] at hw ⊢
            by_cases hl : (fwriteData buf PAGE_SIZE e).length = PAGE_SIZE
            · refine ⟨h, file, c, rfl, hm, hd, by omega, by omega, by omega, hl, ?_⟩
              have hne : PAGE_SIZE ≠ 0 := by decide
              simp [hl, fwriteDisk, hd, advance, hne]
            · simp [hl] at hw

/-- The write succeeds when the handle is open on an existing file, the index
is in range, the offset did not wrap to a negative value, the buffer holds a
page and the operating system lets the whole page through. -/
theorem writeBlock_ok_of (i : Int) (h : SM_FileHandle) (file : FILE) (buf c : List Byte)
    (e : OsEnv) (d : Disk) (hm : h.mgmtInfo = some file) (hd : d file.path = some c)
    (h0 : 0 ≤ i) (h1 : i < h.totalNumPages) (ho : 0 ≤ toInt32 (i * (PAGE_SIZE : Int)))
    (hbuf : PAGE_SIZE ≤ buf.length) (he : PAGE_SIZE ≤ e.fwriteCount) :
    (writeBlock i (some h) buf e d).rc = RC_OK := by
  have hr : ¬ (i < 0 ∨ i ≥ h.totalNumPages) := by omega
  have hneg : ¬ toInt32 (i * (PAGE_SIZE : Int)) < 0 := by omega
  have hl : (fwriteData buf PAGE_SIZE e).length = PAGE_SIZE := by
    rw [fwriteData_of_ok buf e he, List.length_take]
    omega
  simp [writeBlock, hm, hr, fseekSet, hneg, fwriteResult, hd, hl]

/-- The read succeeds when `PAGE_SIZE` bytes are present at the offset the
code computed; the result is spelled out. -/
theorem readBlock_ok_of_data (i : Int) (h : SM_FileHandle) (file : FILE)
    (buf2 : List Byte) (d : Disk) (c data : List Byte)
    (hm : h.mgmtInfo = some file) (hd : d file.path = some c)
    (h0 : 0 ≤ i) (h1 : i < h.totalNumPages) (ho : 0 ≤ toInt32 (i * (PAGE_SIZE : Int)))
    (hdata : (c.drop (toInt32 (i * (PAGE_SIZE : Int))).toNat).take PAGE_SIZE = data)
    (hlen : data.length = PAGE_SIZE) :
    readBlock i (some h) buf2 d =
      ⟨RC_OK,
        some { h with
          curPagePos := i,
          mgmtInfo := some ⟨file.path, (toInt32 (i * (PAGE_SIZE : Int))).toNat + PAGE_SIZE⟩ },
        fillBuffer buf2 data, d⟩ := by
  have hr : ¬ (i < 0 ∨ i ≥ h.totalNumPages) := by omega
  have hneg : ¬ toInt32 (i * (PAGE_SIZE : Int)) < 0 := by omega
  simp [readBlock, hm, hr, fseekSet, hneg, freadData, hd, hdata, hlen, advance]

/-- An index outside `[0, totalNumPages)` is refused by `readBlock` on an open
handle, and nothing changes. -/
theorem readBlock_out_of_range (i : Int) (h : SM_FileHandle) (file : FILE)
    (buf : List Byte) (d : Disk) (hm : h.mgmtInfo = some file)
    (hr : i < 0 ∨ i ≥ h.totalNumPages) :
    readBlock i (some h) buf d = ⟨RC_READ_NON_EXISTING_PAGE, some h, buf, d⟩ := by
  simp [readBlock, hm, hr]

/-- On a file of `t` full pages, an index in range whose byte offset fits a
32-bit `int` is read: the code is `RC_OK`, the position is the index and the
buffer holds the bytes of that page. -/
theorem readBlock_in_range (i : Int) (h : SM_FileHandle) (file : FILE)
    (buf c : List Byte) (d : Disk) (t : Nat)
    (hm : h.mgmtInfo = some file) (hd : d file.path = some c)
    (hc : c.length = PAGE_SIZE * t) (ht : h.totalNumPages = (t : Int))
    (h0 : 0 ≤ i) (h1 : i < (t : Int)) (hs : i < 524288) (hbuf : buf.length = PAGE_SIZE) :
    (readBlock i (some h) buf d).rc = RC_OK ∧
    getBlockPos (readBlock i (some h) buf d).fHandle = i ∧
    (readBlock i (some h) buf d).memPage = (c.drop (PAGE_SIZE * i.toNat)).take PAGE_SIZE := by
  have hoff := offset_small i h0 hs
  have hnat : (toInt32 (i * (PAGE_SIZE : Int))).toNat = PAGE_SIZE * i.toNat := by
    rw [hoff, PAGE_SIZE_eq]
    omega
  have hlen : ((c.drop (PAGE_SIZE * i.toNat)).take PAGE_SIZE).length = PAGE_SIZE := by
    rw [List.length_take, List.length_drop, hc, PAGE_SIZE_eq]
    omega
  have hrd := readBlock_ok_of_data i h file buf d c _ hm hd h0 (by omega) (by omega)
    (by rw [hnat]) hlen
  rw [hrd]
  exact ⟨rfl, rfl, fillBuffer_full _ _ (by omega)⟩


/-! ## Write/read round trip -/

/-- C1: when `writeBlock(i, h, buf)` with a page-sized buffer returns `RC_OK`,
the `readBlock(i, h, buf2)` that follows immediately returns `RC_OK` and
leaves in the page-sized `buf2` exactly the bytes of `buf`. -/
theorem writeBlock_readBlock_roundtrip (i : Int) (fHandle : Option SM_FileHandle)
    (buf buf2 : List Byte) (e : OsEnv) (d : Disk)
    (hbuf : buf.length = PAGE_SIZE) (hbuf2 : buf2.length = PAGE_SIZE)
    (hw : (writeBlock i fHandle buf e d).rc = RC_OK) :
    (readBlock i (writeBlock i fHandle buf e d).fHandle buf2
        (writeBlock i fHandle buf e d).disk).rc = RC_OK ∧
    (readBlock i (writeBlock i fHandle buf e d).fHandle buf2
        (writeBlock i fHandle buf e d).disk).memPage = buf := by
  obtain ⟨h, file, c, rfl, hm, hd, h0, h1, ho, hl, heq⟩ :=
    writeBlock_ok_inv i fHandle buf e d hw
  have hdat : fwriteData buf PAGE_SIZE e = buf := by
    rw [fwriteData_full buf e hl, List.take_of_length_le (le_of_eq hbuf)]
  rw [heq, hdat]
  have hrd := readBlock_ok_of_data i
    { h with
      curPagePos := i,
      mgmtInfo := some ⟨file.path, (toInt32 (i * (PAGE_SIZE : Int))).toNat + PAGE_SIZE⟩ }
    ⟨file.path, (toInt32 (i * (PAGE_SIZE : Int))).toNat + PAGE_SIZE⟩ buf2
    (d.store file.path (overwrite c (toInt32 (i * (PAGE_SIZE : Int))).toNat buf))
    (overwrite c (toInt32 (i * (PAGE_SIZE : Int))).toNat buf) buf rfl (store_same _ _ _)
    h0 h1 ho (by rw [← hbuf]; exact drop_take_overwrite _ _ _) hbuf
  simp only [hrd]
  exact ⟨trivial, fillBuffer_full _ _ (by omega)⟩

/-- C1 at a concrete input: page 0 of a one-page file is overwritten with
sevens and read back into a zeroed buffer. -/
theorem writeBlock_readBlock_roundtrip_witness :
    (readBlock 0 (writeBlock 0 (some demoHandle) sevenPage okEnv demoDisk).fHandle zeroPage
        (writeBlock 0 (some demoHandle) sevenPage okEnv demoDisk).disk).rc = RC_OK ∧
    (readBlock 0 (writeBlock 0 (some demoHandle) sevenPage okEnv demoDisk).fHandle zeroPage
        (writeBlock 0 (some demoHandle) sevenPage okEnv demoDisk).disk).memPage = sevenPage :=
  writeBlock_readBlock_roundtrip 0 (some demoHandle) sevenPage zeroPage okEnv demoDisk
    sevenPage_length zeroPage_length
    (writeBlock_ok_of 0 demoHandle ⟨"f", 0⟩ sevenPage zeroPage okEnv demoDisk rfl
      (store_same _ _ _) (by decide) (by decide) (by decide)
      (le_of_eq sevenPage_length.symm) (by decide))

/-! ## The range check of `readBlock` -/

/-- C2, evaluated at the failing input: the file `big` holds 524289 full pages
and the handle says so, index 524288 is in range, and `readBlock` refuses it
with `RC_READ_NON_EXISTING_PAGE`, leaving the handle as it was: the `int`
product `524288 * 4096` wraps to a negative offset and the seek fails. -/
theorem readBlock_large_index_fails :
    bigDisk "big" = some (List.replicate (PAGE_SIZE * 524289) 0) ∧
    (List.replicate (PAGE_SIZE * 524289) (0 : Byte)).length = PAGE_SIZE * 524289 ∧
    bigHandle.totalNumPages = 524289 ∧
    toInt32 (524288 * (PAGE_SIZE : Int)) = -2147483648 ∧
    readBlock 524288 (some bigHandle) zeroPage bigDisk =
      ⟨RC_READ_NON_EXISTING_PAGE, some bigHandle, zeroPage, bigDisk⟩ := by
  refine ⟨store_same _ _ _, List.length_replicate _ _, rfl, by decide, ?_⟩
  have ho : toInt32 (524288 * (PAGE_SIZE : Int)) = -2147483648 := by decide
  simp [readBlock, bigHandle, fseekSet, ho]


/-! ## A freshly created file -/

/-- A `createPageFile` that returns `RC_OK` leaves one page of zero bytes at
the path and no other file touched. -/
theorem createPageFile_ok_inv (fileName : String) (e : OsEnv) (d : Disk)
    (hc : (createPageFile fileName e d).1 = RC_OK) :
    (createPageFile fileName e d).2 fileName = some (List.replicate PAGE_SIZE 0) := by
  unfold createPageFile at hc ⊢
  by_cases hf : e.fopenOk = false
  · simp [hf] at hc
  · by_cases ha : e.callocOk = false
    · simp [hf, ha] at hc
    · simp only [hf, ha, if_false, fwriteResult, store_same] at hc ⊢
      by_cases hl : (fwriteData (List.replicate PAGE_SIZE 0) PAGE_SIZE e).length = PAGE_SIZE
      · have hdat := fwriteData_full _ e hl
        rw [List.take_of_length_le (by simp)] at hdat
        have hne : PAGE_SIZE ≠ 0 := by decide
        simp [hdat, fwriteDisk, store_same, hne, overwrite]
      · simp [hl] at hc

/-- The creation succeeds when the operating system lets every call succeed. -/
theorem createPageFile_ok_of (fileName : String) (e : OsEnv) (d : Disk)
    (hf : e.fopenOk = true) (ha : e.callocOk = true) (he : PAGE_SIZE ≤ e.fwriteCount) :
    (createPageFile fileName e d).1 = RC_OK := by
  simp [createPageFile, hf, ha, fwriteResult, store_same, fwriteData_zero_page e he]

/-- What `openPageFile` yields on an existing file. -/
theorem openPageFile_ok_of (fileName : String) (fHandle : SM_FileHandle) (e : OsEnv)
    (d : Disk) (c : List Byte) (hf : e.fopenOk = true) (hd : d fileName = some c) :
    openPageFile fileName fHandle e d =
      ⟨RC_OK,
        some { fileName := fileName,
               totalNumPages := toInt32 ((c.length : Int) / (PAGE_SIZE : Int)),
               curPagePos := 0, mgmtInfo := some { path := fileName, pos := 0 } }, d⟩ := by
  simp [openPageFile, hf, hd]

/-- An `openPageFile` that returns `RC_OK` found the file. -/
theorem openPageFile_ok_inv (fileName : String) (fHandle : SM_FileHandle) (e : OsEnv)
    (d : Disk) (ho : (openPageFile fileName fHandle e d).rc = RC_OK) :
    e.fopenOk = true ∧ ∃ c, d fileName = some c := by
  unfold openPageFile at ho
  by_cases hf : e.fopenOk = true
  · cases hd : d fileName with
    | none => simp [hf, hd] at ho
    | some c => exact ⟨hf, c, rfl⟩
  · simp [hf] at ho

theorem pages_of_length (t : Nat) (ht : (t : Int) < 2147483648) :
    toInt32 (((PAGE_SIZE * t : Nat) : Int) / (PAGE_SIZE : Int)) = t := by
  rw [PAGE_SIZE_eq]
  have h : ((4096 * t : Nat) : Int) / ((4096 : Nat) : Int) = t := by omega
  rw [h]
  exact toInt32_of_range _ (by omega) ht

/-- C3: after `createPageFile(path)` returns `RC_OK` the file at the path is
exactly `PAGE_SIZE` zero bytes; the `openPageFile` that follows (the operating
system granting the open) returns `RC_OK` with `totalNumPages = 1` and
`curPagePos = 0`; and `readBlock(0)` on that handle returns `RC_OK` and a
buffer of `PAGE_SIZE` zero bytes. -/
theorem createPageFile_fresh (path : String) (e1 e2 : OsEnv) (d : Disk)
    (h0 : SM_FileHandle) (buf : List Byte)
    (hc : (createPageFile path e1 d).1 = RC_OK) (hopen : e2.fopenOk = true)
    (hbuf : buf.length = PAGE_SIZE) :
    (createPageFile path e1 d).2 path = some (List.replicate PAGE_SIZE 0) ∧
    (List.replicate PAGE_SIZE (0 : Byte)).length = 4096 ∧
    (openPageFile path h0 e2 (createPageFile path e1 d).2).rc = RC_OK ∧
    (∃ h, (openPageFile path h0 e2 (createPageFile path e1 d).2).fHandle = some h ∧
      h.totalNumPages = 1 ∧ h.curPagePos = 0) ∧
    (readBlock 0 (openPageFile path h0 e2 (createPageFile path e1 d).2).fHandle buf
      (openPageFile path h0 e2 (createPageFile path e1 d).2).disk).rc = RC_OK ∧
    (readBlock 0 (openPageFile path h0 e2 (createPageFile path e1 d).2).fHandle buf
      (openPageFile path h0 e2 (createPageFile path e1 d).2).disk).memPage =
        List.replicate PAGE_SIZE 0 := by
  have hd := createPageFile_ok_inv path e1 d hc
  have ho := openPageFile_ok_of path h0 e2 _ _ hopen hd
  have hone : toInt32 (((List.replicate PAGE_SIZE (0 : Byte)).length : Int) / (PAGE_SIZE : Int))
      = 1 := by
    rw [List.length_replicate]
    decide
  rw [hone] at ho
  have hrd := readBlock_in_range 0
    { fileName := path, totalNumPages := 1, curPagePos := 0,
      mgmtInfo := some { path := path, pos := 0 } }
    ⟨path, 0⟩ buf _ _ 1 rfl hd (by simp) rfl (by decide) (by decide) (by decide) hbuf
  rw [ho]
  refine ⟨hd, by rw [List.length_replicate, PAGE_SIZE_eq], rfl, ⟨_, rfl, rfl, rfl⟩, hrd.1, ?_⟩
  rw [hrd.2.2]
  simp

/-- C3 at a concrete input: the file `f` is created on an empty disk. -/
theorem createPageFile_fresh_witness :
    (createPageFile "f" okEnv emptyDisk).2 "f" = some (List.replicate PAGE_SIZE 0) ∧
    (List.replicate PAGE_SIZE (0 : Byte)).length = 4096 ∧
    (openPageFile "f" blankHandle okEnv (createPageFile "f" okEnv emptyDisk).2).rc = RC_OK ∧
    (∃ h, (openPageFile "f" blankHandle okEnv (createPageFile "f" okEnv emptyDisk).2).fHandle
        = some h ∧ h.totalNumPages = 1 ∧ h.curPagePos = 0) ∧
    (readBlock 0 (openPageFile "f" blankHandle okEnv (createPageFile "f" okEnv emptyDisk).2).fHandle
      sevenPage
      (openPageFile "f" blankHandle okEnv (createPageFile "f" okEnv emptyDisk).2).disk).rc
        = RC_OK ∧
    (readBlock 0 (openPageFile "f" blankHandle okEnv (createPageFile "f" okEnv emptyDisk).2).fHandle
      sevenPage
      (openPageFile "f" blankHandle okEnv (createPageFile "f" okEnv emptyDisk).2).disk).memPage
        = List.replicate PAGE_SIZE 0 :=
  createPageFile_fresh "f" okEnv okEnv emptyDisk blankHandle sevenPage
    (createPageFile_ok_of "f" okEnv emptyDisk rfl rfl (by decide)) rfl sevenPage_length


/-! ## `appendEmptyBlock` -/

/-- An `appendEmptyBlock` that returns `RC_OK` ran on an open handle whose
file exists, put one zero page behind the last byte of the file and counted
the page. -/
theorem appendEmptyBlock_ok_inv (fHandle : Option SM_FileHandle) (e : OsEnv) (d : Disk)
    (ha : (appendEmptyBlock fHandle e d).rc = RC_OK) :
    ∃ h file c, fHandle = some h ∧ h.mgmtInfo = some file ∧ d file.path = some c ∧
      appendEmptyBlock fHandle e d =
        ⟨RC_OK,
          some { h with
            totalNumPages := toInt32 (h.totalNumPages + 1),
            mgmtInfo := some ⟨file.path, c.length + PAGE_SIZE⟩ },
          d.store file.path (c ++ List.replicate PAGE_SIZE 0)⟩ := by
  unfold appendEmptyBlock at ha ⊢
  cases fHandle with
  | none => simp at ha
  | some h =>
    cases hm : h.mgmtInfo with
    | none => simp [hm] at ha
    | some file =>
      simp only [hm] at ha ⊢
      by_cases hcal : e.callocOk = false
      · simp [hcal] at ha
      · simp only [hcal, if_false] at ha ⊢
        cases hd : d file.path with
        | none =>
          have hne : (0 : Nat) ≠ PAGE_SIZE := by decide
          simp [fwriteResult, fseekEnd, hd, hne] at ha
        | some c =>
          simp only [fwriteResult, fseekEnd, hd] at ha ⊢
          by_cases hl : (fwriteData (List.replicate PAGE_SIZE 0) PAGE_SIZE e).length = PAGE_SIZE
          · have hdat := fwriteData_full _ e hl
            rw [List.take_of_length_le (by simp)] at hdat
            have hne : PAGE_SIZE ≠ 0 := by decide
            refine ⟨h, file, c, rfl, hm, hd, ?_⟩
            simp [hdat, fwriteDisk, hd, hne, advance, overwrite_at_end]
          · simp [hl] at ha

/-- The append succeeds on an open handle whose file exists when the
operating system lets the allocation and the whole write through. -/
theorem appendEmptyBlock_ok_of (h : SM_FileHandle) (file : FILE) (c : List Byte)
    (e : OsEnv) (d : Disk) (hm : h.mgmtInfo = some file) (hd : d file.path = some c)
    (hcal : e.callocOk = true) (he : PAGE_SIZE ≤ e.fwriteCount) :
    appendEmptyBlock (some h) e d =
      ⟨RC_OK,
        some { h with
          totalNumPages := toInt32 (h.totalNumPages + 1),
          mgmtInfo := some ⟨file.path, c.length + PAGE_SIZE⟩ },
        d.store file.path (c ++ List.replicate PAGE_SIZE 0)⟩ := by
  have hne : PAGE_SIZE ≠ 0 := by decide
  simp [appendEmptyBlock, hm, hcal, fwriteResult, fseekEnd, hd, fwriteData_zero_page e he,
    fwriteDisk, hne, advance, overwrite_at_end]

/-- What `readLastBlock` does on a handle whose page count is positive. -/
theorem readLastBlock_eq (h : SM_FileHandle) (buf : List Byte) (d : Disk)
    (h0 : 0 < h.totalNumPages) (h1 : h.totalNumPages ≤ 2147483648) :
    readLastBlock (some h) buf d = readBlock (h.totalNumPages - 1) (some h) buf d := by
  have hl : toInt32 (h.totalNumPages - 1) = h.totalNumPages - 1 :=
    toInt32_of_range _ (by omega) (by omega)
  have hn : ¬ h.totalNumPages - 1 < 0 := by omega
  simp [readLastBlock, hl, hn]

/-- C4 as stated fails: the file `f` holds the single byte 1, `openPageFile`
counts zero pages, `appendEmptyBlock` returns `RC_OK` and counts one page, and
the last page `readLastBlock` then reads starts with the byte 1: it is not a
page of zero bytes. -/
theorem appendEmptyBlock_partial_tail_not_zero :
    (openPageFile "f" blankHandle okEnv tailDisk).rc = RC_OK ∧
    (appendEmptyBlock (openPageFile "f" blankHandle okEnv tailDisk).fHandle okEnv
      (openPageFile "f" blankHandle okEnv tailDisk).disk).rc = RC_OK ∧
    (readLastBlock
      (appendEmptyBlock (openPageFile "f" blankHandle okEnv tailDisk).fHandle okEnv
        (openPageFile "f" blankHandle okEnv tailDisk).disk).fHandle zeroPage
      (appendEmptyBlock (openPageFile "f" blankHandle okEnv tailDisk).fHandle okEnv
        (openPageFile "f" blankHandle okEnv tailDisk).disk).disk).rc = RC_OK ∧
    (readLastBlock
      (appendEmptyBlock (openPageFile "f" blankHandle okEnv tailDisk).fHandle okEnv
        (openPageFile "f" blankHandle okEnv tailDisk).disk).fHandle zeroPage
      (appendEmptyBlock (openPageFile "f" blankHandle okEnv tailDisk).fHandle okEnv
        (openPageFile "f" blankHandle okEnv tailDisk).disk).disk).memPage
      ≠ List.replicate PAGE_SIZE 0 := by
  have ho := openPageFile_ok_of "f" blankHandle okEnv tailDisk [1] rfl (store_same _ _ _)
  have hz : toInt32 ((([1] : List Byte).length : Int) / (PAGE_SIZE : Int)) = 0 := by decide
  rw [hz] at ho
  have ha := appendEmptyBlock_ok_of
    { fileName := "f", totalNumPages := 0, curPagePos := 0,
      mgmtInfo := some { path := "f", pos := 0 } }
    ⟨"f", 0⟩ [1] okEnv tailDisk rfl (store_same _ _ _) rfl (by decide)
  have h1 : toInt32 ((0 : Int) + 1) = 1 := by decide
  simp only [h1] at ha
  have hlen : ((([1] : List Byte) ++ List.replicate PAGE_SIZE 0).drop
      (toInt32 (0 * (PAGE_SIZE : Int))).toNat).take PAGE_SIZE
        = 1 :: List.replicate (PAGE_SIZE - 1) 0 := by
    have hzero : (toInt32 (0 * (PAGE_SIZE : Int))).toNat = 0 := by decide
    have key : ∀ n : Nat, List.take (n + 1) ((1 : Byte) :: List.replicate (n + 1) 0)
        = 1 :: List.replicate n 0 := by
      intro n
      rw [List.take_succ_cons, List.take_replicate, Nat.min_eq_left (Nat.le_succ n)]
    rw [hzero, List.drop_zero, List.singleton_append]
    exact key (PAGE_SIZE - 1)
  have hrd := readBlock_ok_of_data 0
    { fileName := "f", totalNumPages := 1, curPagePos := 0,
      mgmtInfo := some ⟨"f", ([1] : List Byte).length + PAGE_SIZE⟩ }
    ⟨"f", ([1] : List Byte).length + PAGE_SIZE⟩ zeroPage
    (tailDisk.store "f" ([1] ++ List.replicate PAGE_SIZE 0))
    ([1] ++ List.replicate PAGE_SIZE 0) (1 :: List.replicate (PAGE_SIZE - 1) 0)
    rfl (store_same _ _ _) (by decide) (by decide) (by decide) hlen
    (by rw [List.length_cons, List.length_replicate]; decide)
  have hlast := readLastBlock_eq
    { fileName := "f", totalNumPages := 1, curPagePos := 0,
      mgmtInfo := some ⟨"f", ([1] : List Byte).length + PAGE_SIZE⟩ }
    zeroPage (tailDisk.store "f" ([1] ++ List.replicate PAGE_SIZE 0)) (by decide) (by decide)
  have hsub : ((1 : Int) - 1) = 0 := by decide
  simp only [hsub] at hlast
  rw [ho]
  simp only [ha, hlast, hrd]
  refine ⟨trivial, trivial, trivial, ?_⟩
  intro hcontra
  have hh := congrArg List.head? hcontra
  rw [fillBuffer_full _ _ (by rw [zeroPage_length, List.length_cons, List.length_replicate]; decide)]
    at hh
  have hp : PAGE_SIZE = (PAGE_SIZE - 1) + 1 := by decide
  rw [hp, List.replicate_succ] at hh
  simp at hh


/-- C4, amended: on a file of `t` full pages (`t < 524288`, so that every page
offset fits a 32-bit `int`), for the handle `openPageFile` returns, an
`appendEmptyBlock` that returns `RC_OK` has increased `totalNumPages` from `t`
to `t + 1`, has left the old bytes in place with `PAGE_SIZE` zero bytes behind
them, and both `readBlock(totalNumPages - 1)` and `readLastBlock` then return
`RC_OK` and a page of zero bytes. -/
theorem appendEmptyBlock_post (path : String) (h0 : SM_FileHandle) (e1 e : OsEnv)
    (d : Disk) (c buf : List Byte) (t : Nat)
    (hd : d path = some c) (hc : c.length = PAGE_SIZE * t) (ht : t < 524288)
    (hopen : (openPageFile path h0 e1 d).rc = RC_OK)
    (ha : (appendEmptyBlock (openPageFile path h0 e1 d).fHandle e
      (openPageFile path h0 e1 d).disk).rc = RC_OK)
    (hbuf : buf.length = PAGE_SIZE) :
    ∃ h h1, (openPageFile path h0 e1 d).fHandle = some h ∧
      (appendEmptyBlock (openPageFile path h0 e1 d).fHandle e
        (openPageFile path h0 e1 d).disk).fHandle = some h1 ∧
      h.totalNumPages = t ∧ h1.totalNumPages = h.totalNumPages + 1 ∧
      (appendEmptyBlock (openPageFile path h0 e1 d).fHandle e
        (openPageFile path h0 e1 d).disk).disk path = some (c ++ List.replicate PAGE_SIZE 0) ∧
      (readBlock (h1.totalNumPages - 1) (some h1) buf
        (appendEmptyBlock (openPageFile path h0 e1 d).fHandle e
          (openPageFile path h0 e1 d).disk).disk).rc = RC_OK ∧
      (readBlock (h1.totalNumPages - 1) (some h1) buf
        (appendEmptyBlock (openPageFile path h0 e1 d).fHandle e
          (openPageFile path h0 e1 d).disk).disk).memPage = List.replicate PAGE_SIZE 0 ∧
      (readLastBlock (some h1) buf
        (appendEmptyBlock (openPageFile path h0 e1 d).fHandle e
          (openPageFile path h0 e1 d).disk).disk).rc = RC_OK ∧
      (readLastBlock (some h1) buf
        (appendEmptyBlock (openPageFile path h0 e1 d).fHandle e
          (openPageFile path h0 e1 d).disk).disk).memPage = List.replicate PAGE_SIZE 0 := by
  have hfo := (openPageFile_ok_inv path h0 e1 d hopen).1
  have ho := openPageFile_ok_of path h0 e1 d c hfo hd
  rw [hc, pages_of_length t (by omega)] at ho
  rw [ho] at ha ⊢
  obtain ⟨h, file, c1, hh, hm, hd1, hres⟩ := appendEmptyBlock_ok_inv _ e d ha
  have hh2 := (Option.some.inj hh).symm
  subst hh2
  have hfile : file = ⟨path, 0⟩ := (Option.some.inj hm).symm
  subst hfile
  have hcc : c1 = c := by
    have := hd1.symm.trans hd
    exact Option.some.inj this
  subst hcc
  simp only at hres
  have hinc : toInt32 ((t : Int) + 1) = (t : Int) + 1 :=
    toInt32_of_range _ (by omega) (by omega)
  rw [hinc] at hres
  rw [hres]
  simp only
  have hrd := readBlock_in_range (t : Int)
    { fileName := path, totalNumPages := (t : Int) + 1, curPagePos := 0,
      mgmtInfo := some ⟨path, c1.length + PAGE_SIZE⟩ }
    ⟨path, c1.length + PAGE_SIZE⟩ buf (c1 ++ List.replicate PAGE_SIZE 0)
    (d.store path (c1 ++ List.replicate PAGE_SIZE 0)) (t + 1) rfl (store_same _ _ _)
    (by rw [List.length_append, List.length_replicate, hc, PAGE_SIZE_eq]; omega)
    (by push_cast; rfl) (by omega) (by omega) (by omega) hbuf
  have hpage : ((c1 ++ List.replicate PAGE_SIZE (0 : Byte)).drop
      (PAGE_SIZE * (t : Int).toNat)).take PAGE_SIZE = List.replicate PAGE_SIZE 0 := by
    rw [Int.toNat_ofNat, List.drop_left' hc, List.take_replicate, Nat.min_self]
  rw [hpage] at hrd
  have hsub : (t : Int) + 1 - 1 = t := by omega
  have hlast := readLastBlock_eq
    { fileName := path, totalNumPages := (t : Int) + 1, curPagePos := 0,
      mgmtInfo := some ⟨path, c1.length + PAGE_SIZE⟩ }
    buf (d.store path (c1 ++ List.replicate PAGE_SIZE 0)) (by simp only; omega)
    (by simp only; omega)
  simp only [hsub] at hlast
  refine ⟨_, _, rfl, rfl, rfl, rfl, store_same _ _ _, ?_, ?_, ?_, ?_⟩
  · simp only [hsub]; exact hrd.1
  · simp only [hsub]; exact hrd.2.2
  · rw [hlast]; exact hrd.1
  · rw [hlast]; exact hrd.2.2

/-- C4, amended, at a concrete input: the one-page file `f`. -/
theorem appendEmptyBlock_post_witness :
    ∃ h h1, (openPageFile "f" blankHandle okEnv demoDisk).fHandle = some h ∧
      (appendEmptyBlock (openPageFile "f" blankHandle okEnv demoDisk).fHandle okEnv
        (openPageFile "f" blankHandle okEnv demoDisk).disk).fHandle = some h1 ∧
      h.totalNumPages = (1 : Nat) ∧ h1.totalNumPages = h.totalNumPages + 1 ∧
      (appendEmptyBlock (openPageFile "f" blankHandle okEnv demoDisk).fHandle okEnv
        (openPageFile "f" blankHandle okEnv demoDisk).disk).disk "f"
          = some (zeroPage ++ List.replicate PAGE_SIZE 0) ∧
      (readBlock (h1.totalNumPages - 1) (some h1) sevenPage
        (appendEmptyBlock (openPageFile "f" blankHandle okEnv demoDisk).fHandle okEnv
          (openPageFile "f" blankHandle okEnv demoDisk).disk).disk).rc = RC_OK ∧
      (readBlock (h1.totalNumPages - 1) (some h1) sevenPage
        (appendEmptyBlock (openPageFile "f" blankHandle okEnv demoDisk).fHandle okEnv
          (openPageFile "f" blankHandle okEnv demoDisk).disk).disk).memPage
          = List.replicate PAGE_SIZE 0 ∧
      (readLastBlock (some h1) sevenPage
        (appendEmptyBlock (openPageFile "f" blankHandle okEnv demoDisk).fHandle okEnv
          (openPageFile "f" blankHandle okEnv demoDisk).disk).disk).rc = RC_OK ∧
      (readLastBlock (some h1) sevenPage
        (appendEmptyBlock (openPageFile "f" blankHandle okEnv demoDisk).fHandle okEnv
          (openPageFile "f" blankHandle okEnv demoDisk).disk).disk).memPage
          = List.replicate PAGE_SIZE 0 :=
  appendEmptyBlock_post "f" blankHandle okEnv okEnv demoDisk zeroPage sevenPage 1
    (store_same _ _ _) (by rw [zeroPage_length, Nat.mul_one]) (by decide)
    (by rw [openPageFile_ok_of "f" blankHandle okEnv demoDisk zeroPage rfl (store_same _ _ _)])
    (by
      rw [openPageFile_ok_of "f" blankHandle okEnv demoDisk zeroPage rfl (store_same _ _ _)]
      rw [appendEmptyBlock_ok_of _ ⟨"f", 0⟩ zeroPage okEnv demoDisk rfl (store_same _ _ _) rfl
        (by decide)])
    sevenPage_length


/-! ## `ensureCapacity` -/

/-- The loop of `ensureCapacity` when the operating system lets every
allocation and write succeed: all `k` pages are appended. -/
theorem appendLoop_ok_of (envs : Nat → OsEnv)
    (henv : ∀ j, (envs j).callocOk = true ∧ PAGE_SIZE ≤ (envs j).fwriteCount) (k : Nat) :
    ∀ (i : Nat) (h : SM_FileHandle) (file : FILE) (c : List Byte) (d : Disk),
      h.mgmtInfo = some file → d file.path = some c →
      -2147483648 ≤ h.totalNumPages → h.totalNumPages + (k : Int) < 2147483648 →
      ∃ h1 file1, (appendLoop k i (some h) envs d).rc = RC_OK ∧
        (appendLoop k i (some h) envs d).fHandle = some h1 ∧
        h1.totalNumPages = h.totalNumPages + (k : Int) ∧
        h1.curPagePos = h.curPagePos ∧
        h1.mgmtInfo = some file1 ∧ file1.path = file.path ∧
        (appendLoop k i (some h) envs d).disk file.path
          = some (c ++ List.replicate (PAGE_SIZE * k) 0) := by
  induction k with
  | zero =>
    intro i h file c d hm hd _ _
    exact ⟨h, file, rfl, rfl, by simp, rfl, hm, rfl, by simpa [appendLoop] using hd⟩
  | succ k ih =>
    intro i h file c d hm hd hlo hhi
    have hstep := appendEmptyBlock_ok_of h file c (envs i) d hm hd (henv i).1 (henv i).2
    have hinc : toInt32 (h.totalNumPages + 1) = h.totalNumPages + 1 :=
      toInt32_of_range _ (by omega) (by omega)
    rw [hinc] at hstep
    obtain ⟨h1, file1, hrc, hfh, htot, hcur, hm1, hp1, hdisk⟩ := ih (i + 1)
      { h with
        totalNumPages := h.totalNumPages + 1,
        mgmtInfo := some ⟨file.path, c.length + PAGE_SIZE⟩ }
      ⟨file.path, c.length + PAGE_SIZE⟩ (c ++ List.replicate PAGE_SIZE 0)
      (d.store file.path (c ++ List.replicate PAGE_SIZE 0)) rfl (store_same _ _ _)
      (by simp only; omega) (by simp only; push_cast at hhi; omega)
    have hunfold : appendLoop (k + 1) i (some h) envs d =
        appendLoop k (i + 1)
          (some { h with
            totalNumPages := h.totalNumPages + 1,
            mgmtInfo := some ⟨file.path, c.length + PAGE_SIZE⟩ })
          envs (d.store file.path (c ++ List.replicate PAGE_SIZE 0)) := by
      simp [appendLoop, hstep]
    rw [hunfold]
    refine ⟨h1, file1, hrc, hfh, ?_, hcur, hm1, hp1, ?_⟩
    · rw [htot]; push_cast; omega
    · have hd2 : (appendLoop k (i + 1)
          (some { h with
            totalNumPages := h.totalNumPages + 1,
            mgmtInfo := some ⟨file.path, c.length + PAGE_SIZE⟩ })
          envs (d.store file.path (c ++ List.replicate PAGE_SIZE 0))).disk file.path
          = some (c ++ List.replicate PAGE_SIZE 0 ++ List.replicate (PAGE_SIZE * k) 0) := hdisk
      rw [hd2, List.append_assoc, List.append_replicate_replicate, Nat.mul_succ,
        Nat.add_comm]

/-- C5: on an open handle with `totalNumPages = t` over a file of `t` full
pages, for every `int` `n`, when the operating system lets every allocation
and write succeed, `ensureCapacity(n, h)` returns `RC_OK`; afterwards
`totalNumPages = max(t, n)`, `curPagePos` is unchanged, the file holds
`max(t, n)` pages of which the first `t` are the old content and the rest are
zero bytes; and when `t >= n` the handle and the disk are exactly as before. -/
theorem ensureCapacity_post (n : Int) (h : SM_FileHandle) (file : FILE)
    (envs : Nat → OsEnv) (d : Disk) (c : List Byte) (t : Nat)
    (hm : h.mgmtInfo = some file) (hd : d file.path = some c)
    (hc : c.length = PAGE_SIZE * t) (ht : h.totalNumPages = (t : Int))
    (hn0 : -2147483648 ≤ n) (hn1 : n < 2147483648)
    (henv : ∀ j, (envs j).callocOk = true ∧ PAGE_SIZE ≤ (envs j).fwriteCount) :
    (ensureCapacity n (some h) envs d).rc = RC_OK ∧
    (∃ h1 c1, (ensureCapacity n (some h) envs d).fHandle = some h1 ∧
      h1.totalNumPages = max (t : Int) n ∧ h1.curPagePos = h.curPagePos ∧
      (ensureCapacity n (some h) envs d).disk file.path = some c1 ∧
      c1.length = PAGE_SIZE * (max (t : Int) n).toNat ∧
      c1.take (PAGE_SIZE * t) = c ∧
      c1.drop (PAGE_SIZE * t)
        = List.replicate (PAGE_SIZE * ((max (t : Int) n).toNat - t)) 0) ∧
    (n ≤ (t : Int) → ensureCapacity n (some h) envs d = ⟨RC_OK, some h, d⟩) := by
  by_cases hle : n ≤ (t : Int)
  · have hres : ensureCapacity n (some h) envs d = ⟨RC_OK, some h, d⟩ := by
      have hge : h.totalNumPages ≥ n := by omega
      simp [ensureCapacity, hm, hge]
    have hmax : max (t : Int) n = t := max_eq_left hle
    rw [hres, hmax]
    refine ⟨rfl, ⟨h, c, rfl, ht, rfl, hd, ?_, ?_, ?_⟩, fun _ => rfl⟩
    · rw [hc, Int.toNat_ofNat]
    · exact List.take_of_length_le (le_of_eq hc)
    · rw [Int.toNat_ofNat, Nat.sub_self, Nat.mul_zero, List.replicate_zero]
      exact List.drop_eq_nil_of_le (le_of_eq hc)
  · have hlt : (t : Int) < n := by omega
    have hmax : max (t : Int) n = n := max_eq_right (le_of_lt hlt)
    have hadd : toInt32 (n - h.totalNumPages) = n - (t : Int) := by
      rw [ht]
      exact toInt32_of_range _ (by omega) (by omega)
    have hres : ensureCapacity n (some h) envs d
        = appendLoop (n - (t : Int)).toNat 0 (some h) envs d := by
      have hge : ¬ h.totalNumPages ≥ n := by omega
      simp [ensureCapacity, hm, hge, hadd]
    obtain ⟨h1, file1, hrc, hfh, htot, hcur, _, _, hdisk⟩ :=
      appendLoop_ok_of envs henv (n - (t : Int)).toNat 0 h file c d hm hd (by omega)
        (by rw [ht]; omega)
    rw [hres, hmax]
    refine ⟨hrc, ⟨h1, _, hfh, ?_, hcur, hdisk, ?_, ?_, ?_⟩, fun hcontra => absurd hcontra hle⟩
    · rw [htot, ht]; omega
    · rw [List.length_append, List.length_replicate, hc, PAGE_SIZE_eq]; omega
    · exact List.take_left' hc
    · rw [List.drop_left' hc]
      congr 1
      rw [PAGE_SIZE_eq]; omega


/-- C5 at a concrete input: the one-page file `f` is grown to five pages. -/
theorem ensureCapacity_post_witness :
    (ensureCapacity 5 (some demoHandle) (fun _ => okEnv) demoDisk).rc = RC_OK ∧
    (∃ h1 c1, (ensureCapacity 5 (some demoHandle) (fun _ => okEnv) demoDisk).fHandle = some h1 ∧
      h1.totalNumPages = max ((1 : Nat) : Int) 5 ∧ h1.curPagePos = demoHandle.curPagePos ∧
      (ensureCapacity 5 (some demoHandle) (fun _ => okEnv) demoDisk).disk demoFile.path
        = some c1 ∧
      c1.length = PAGE_SIZE * (max ((1 : Nat) : Int) 5).toNat ∧
      c1.take (PAGE_SIZE * 1) = zeroPage ∧
      c1.drop (PAGE_SIZE * 1)
        = List.replicate (PAGE_SIZE * ((max ((1 : Nat) : Int) 5).toNat - 1)) 0) ∧
    ((5 : Int) ≤ ((1 : Nat) : Int) →
      ensureCapacity 5 (some demoHandle) (fun _ => okEnv) demoDisk
        = ⟨RC_OK, some demoHandle, demoDisk⟩) :=
  ensureCapacity_post 5 demoHandle demoFile (fun _ => okEnv) demoDisk zeroPage 1 rfl
    (store_same _ _ _) (by rw [zeroPage_length, Nat.mul_one]) rfl (by decide) (by decide)
    (fun _ => ⟨rfl, le_of_eq rfl⟩)

/-- A loop of at least one iteration that returns `RC_OK` leaves an open
handle whose page count is an `int` congruent to the old count plus the
number of iterations. -/
theorem appendLoop_ok_inv (envs : Nat → OsEnv) (k : Nat) :
    ∀ (i : Nat) (h : SM_FileHandle) (d : Disk),
      (appendLoop (k + 1) i (some h) envs d).rc = RC_OK →
      ∃ h1 file1 m, (appendLoop (k + 1) i (some h) envs d).fHandle = some h1 ∧
        h1.mgmtInfo = some file1 ∧
        -2147483648 ≤ h1.totalNumPages ∧ h1.totalNumPages < 2147483648 ∧
        h1.totalNumPages = h.totalNumPages + ((k + 1 : Nat) : Int) + m * 4294967296 := by
  induction k with
  | zero =>
    intro i h d hrc
    by_cases hstep : (appendEmptyBlock (some h) (envs i) d).rc = RC_OK
    · obtain ⟨h2, file, c, hh, _, _, hres⟩ := appendEmptyBlock_ok_inv _ _ _ hstep
      have hh2 := (Option.some.inj hh).symm
      subst hh2
      have hunfold : appendLoop (0 + 1) i (some h2) envs d
          = appendEmptyBlock (some h2) (envs i) d := by
        simp [appendLoop, hres]
      rw [hunfold, hres]
      obtain ⟨m, hm⟩ := toInt32_congr (h2.totalNumPages + 1)
      have hrange := toInt32_range (h2.totalNumPages + 1)
      exact ⟨_, _, m, rfl, rfl, hrange.1, hrange.2, by simp only; rw [hm]; push_cast; omega⟩
    · have hunfold : appendLoop (0 + 1) i (some h) envs d
          = appendEmptyBlock (some h) (envs i) d := by
        simp [appendLoop, hstep]
      rw [hunfold] at hrc
      exact absurd hrc hstep
  | succ k ih =>
    intro i h d hrc
    by_cases hstep : (appendEmptyBlock (some h) (envs i) d).rc = RC_OK
    · obtain ⟨h2, file, c, hh, _, _, hres⟩ := appendEmptyBlock_ok_inv _ _ _ hstep
      have hh2 := (Option.some.inj hh).symm
      subst hh2
      have hunfold : appendLoop (k + 1 + 1) i (some h2) envs d
          = appendLoop (k + 1) (i + 1)
              (some { h2 with
                totalNumPages := toInt32 (h2.totalNumPages + 1),
                mgmtInfo := some ⟨file.path, c.length + PAGE_SIZE⟩ })
              envs (d.store file.path (c ++ List.replicate PAGE_SIZE 0)) := by
        rw [appendLoop]
        simp [hres]
      rw [hunfold] at hrc ⊢
      obtain ⟨h1, file1, m, hfh, hm1, hlo, hhi, htot⟩ := ih _ _ _ hrc
      obtain ⟨m2, hm2⟩ := toInt32_congr (h2.totalNumPages + 1)
      refine ⟨h1, file1, m + m2, hfh, hm1, hlo, hhi, ?_⟩
      rw [htot]
      simp only
      rw [hm2]
      push_cast
      ring
    · have hunfold : appendLoop (k + 1 + 1) i (some h) envs d
          = appendEmptyBlock (some h) (envs i) d := by
        rw [appendLoop]
        simp [hstep]
      rw [hunfold] at hrc
      exact absurd hrc hstep

/-- C6: when `ensureCapacity(n, h)` returns `RC_OK`, a second
`ensureCapacity(n, h)` returns `RC_OK` and leaves the handle (so
`totalNumPages` and `curPagePos`) and the disk exactly as the first call left
them, whatever the operating system would let the second call do. -/
theorem ensureCapacity_idempotent (n : Int) (fHandle : Option SM_FileHandle)
    (envs1 envs2 : Nat → OsEnv) (d : Disk)
    (hn0 : -2147483648 ≤ n) (hn1 : n < 2147483648)
    (hfirst : (ensureCapacity n fHandle envs1 d).rc = RC_OK) :
    (ensureCapacity n (ensureCapacity n fHandle envs1 d).fHandle envs2
      (ensureCapacity n fHandle envs1 d).disk).rc = RC_OK ∧
    (ensureCapacity n (ensureCapacity n fHandle envs1 d).fHandle envs2
      (ensureCapacity n fHandle envs1 d).disk).fHandle
        = (ensureCapacity n fHandle envs1 d).fHandle ∧
    (ensureCapacity n (ensureCapacity n fHandle envs1 d).fHandle envs2
      (ensureCapacity n fHandle envs1 d).disk).disk
        = (ensureCapacity n fHandle envs1 d).disk := by
  cases fHandle with
  | none => simp [ensureCapacity] at hfirst
  | some h =>
    cases hm : h.mgmtInfo with
    | none => simp [ensureCapacity, hm] at hfirst
    | some file =>
      by_cases hge : h.totalNumPages ≥ n
      · have hres : ensureCapacity n (some h) envs1 d = ⟨RC_OK, some h, d⟩ := by
          simp [ensureCapacity, hm, hge]
        rw [hres]
        simp [ensureCapacity, hm, hge]
      · have hres : ensureCapacity n (some h) envs1 d
            = appendLoop (toInt32 (n - h.totalNumPages)).toNat 0 (some h) envs1 d := by
          simp [ensureCapacity, hm, hge]
        cases hk : (toInt32 (n - h.totalNumPages)).toNat with
        | zero =>
          rw [hres, hk]
          simp [appendLoop, ensureCapacity, hm, hge, hk]
        | succ k =>
          rw [hres, hk] at hfirst ⊢
          obtain ⟨h1, file1, m, hfh, hm1, hlo, hhi, htot⟩ :=
            appendLoop_ok_inv envs1 k 0 h d hfirst
          obtain ⟨m2, hm2⟩ := toInt32_congr (n - h.totalNumPages)
          have hn : h1.totalNumPages = n := by
            push_cast at htot
            omega
          have hge1 : h1.totalNumPages ≥ n := by omega
          rw [hfh]
          simp [ensureCapacity, hm1, hge1]

/-- The growth succeeds on an open handle over a file of `t` full pages when
the operating system lets every allocation and write succeed. -/
theorem ensureCapacity_ok_of (n : Int) (h : SM_FileHandle) (file : FILE)
    (envs : Nat → OsEnv) (d : Disk) (c : List Byte) (t : Nat)
    (hm : h.mgmtInfo = some file) (hd : d file.path = some c)
    (ht : h.totalNumPages = (t : Int)) (hn1 : n < 2147483648)
    (henv : ∀ j, (envs j).callocOk = true ∧ PAGE_SIZE ≤ (envs j).fwriteCount) :
    (ensureCapacity n (some h) envs d).rc = RC_OK := by
  by_cases hge : h.totalNumPages ≥ n
  · simp [ensureCapacity, hm, hge]
  · have hadd : toInt32 (n - h.totalNumPages) = n - (t : Int) := by
      rw [ht]
      exact toInt32_of_range _ (by omega) (by omega)
    obtain ⟨h1, file1, hrc, _⟩ :=
      appendLoop_ok_of envs henv (n - (t : Int)).toNat 0 h file c d hm hd (by omega)
        (by rw [ht]; omega)
    simpa [ensureCapacity, hm, hge, hadd] using hrc

/-- C6 at a concrete input: the one-page file `f` is grown to five pages, then
`ensureCapacity(5)` is called again under an operating system that would cut
every write short. -/
theorem ensureCapacity_idempotent_witness :
    (ensureCapacity 5 (ensureCapacity 5 (some demoHandle) (fun _ => okEnv) demoDisk).fHandle
      (fun _ => shortEnv)
      (ensureCapacity 5 (some demoHandle) (fun _ => okEnv) demoDisk).disk).rc = RC_OK ∧
    (ensureCapacity 5 (ensureCapacity 5 (some demoHandle) (fun _ => okEnv) demoDisk).fHandle
      (fun _ => shortEnv)
      (ensureCapacity 5 (some demoHandle) (fun _ => okEnv) demoDisk).disk).fHandle
        = (ensureCapacity 5 (some demoHandle) (fun _ => okEnv) demoDisk).fHandle ∧
    (ensureCapacity 5 (ensureCapacity 5 (some demoHandle) (fun _ => okEnv) demoDisk).fHandle
      (fun _ => shortEnv)
      (ensureCapacity 5 (some demoHandle) (fun _ => okEnv) demoDisk).disk).disk
        = (ensureCapacity 5 (some demoHandle) (fun _ => okEnv) demoDisk).disk :=
  ensureCapacity_idempotent 5 (some demoHandle) (fun _ => okEnv) (fun _ => shortEnv) demoDisk
    (by decide) (by decide)
    (ensureCapacity_ok_of 5 demoHandle demoFile (fun _ => okEnv) demoDisk zeroPage 1 rfl
      (store_same _ _ _) rfl (by decide) (fun _ => ⟨rfl, le_of_eq rfl⟩))


/-! ## Closed handles and refused writes -/

/-- A `closePageFile` that returns `RC_OK` leaves a handle whose backing
resource is `NULL`, and the disk as it was. -/
theorem closePageFile_ok_inv (fHandle : Option SM_FileHandle) (e : OsEnv) (d : Disk)
    (hclose : (closePageFile fHandle e d).rc = RC_OK) :
    ∃ h, fHandle = some h ∧
      closePageFile fHandle e d = ⟨RC_OK, some { h with mgmtInfo := none }, d⟩ := by
  unfold closePageFile at hclose ⊢
  cases fHandle with
  | none => simp at hclose
  | some h =>
    cases hm : h.mgmtInfo with
    | none => simp [hm] at hclose
    | some file =>
      by_cases hc : e.fcloseOk = false
      · simp [hm, hc] at hclose
      · exact ⟨h, rfl, by simp [hm, hc]⟩

/-- C7: after `closePageFile(h)` has returned `RC_OK`, `readBlock(i, h, buf)`
and `writeBlock(i, h, buf)` return `RC_FILE_HANDLE_NOT_INIT` for every index
`i`, and so does a second `closePageFile(h)`; each of these calls leaves the
handle (so `totalNumPages` and `curPagePos`), the buffer and the disk as they
were. -/
theorem closed_handle_rejected (fHandle : Option SM_FileHandle) (e e1 : OsEnv) (d : Disk)
    (i : Int) (buf : List Byte) (hclose : (closePageFile fHandle e d).rc = RC_OK) :
    readBlock i (closePageFile fHandle e d).fHandle buf (closePageFile fHandle e d).disk
      = ⟨RC_FILE_HANDLE_NOT_INIT, (closePageFile fHandle e d).fHandle, buf,
          (closePageFile fHandle e d).disk⟩ ∧
    writeBlock i (closePageFile fHandle e d).fHandle buf e1 (closePageFile fHandle e d).disk
      = ⟨RC_FILE_HANDLE_NOT_INIT, (closePageFile fHandle e d).fHandle, buf,
          (closePageFile fHandle e d).disk⟩ ∧
    closePageFile (closePageFile fHandle e d).fHandle e1 (closePageFile fHandle e d).disk
      = ⟨RC_FILE_HANDLE_NOT_INIT, (closePageFile fHandle e d).fHandle,
          (closePageFile fHandle e d).disk⟩ := by
  obtain ⟨h, _, hres⟩ := closePageFile_ok_inv fHandle e d hclose
  rw [hres]
  simp [readBlock, writeBlock, closePageFile]

/-- C7 at a concrete input: the handle on the one-page file `f` is closed,
then page 0 is asked for. -/
theorem closed_handle_rejected_witness :
    readBlock 0 (closePageFile (some demoHandle) okEnv demoDisk).fHandle zeroPage
        (closePageFile (some demoHandle) okEnv demoDisk).disk
      = ⟨RC_FILE_HANDLE_NOT_INIT, (closePageFile (some demoHandle) okEnv demoDisk).fHandle,
          zeroPage, (closePageFile (some demoHandle) okEnv demoDisk).disk⟩ ∧
    writeBlock 0 (closePageFile (some demoHandle) okEnv demoDisk).fHandle zeroPage okEnv
        (closePageFile (some demoHandle) okEnv demoDisk).disk
      = ⟨RC_FILE_HANDLE_NOT_INIT, (closePageFile (some demoHandle) okEnv demoDisk).fHandle,
          zeroPage, (closePageFile (some demoHandle) okEnv demoDisk).disk⟩ ∧
    closePageFile (closePageFile (some demoHandle) okEnv demoDisk).fHandle okEnv
        (closePageFile (some demoHandle) okEnv demoDisk).disk
      = ⟨RC_FILE_HANDLE_NOT_INIT, (closePageFile (some demoHandle) okEnv demoDisk).fHandle,
          (closePageFile (some demoHandle) okEnv demoDisk).disk⟩ :=
  closed_handle_rejected (some demoHandle) okEnv okEnv demoDisk 0 zeroPage (by decide)

/-- C8: on an open handle, an index `i < 0` or `i >= totalNumPages` makes
`writeBlock` return `RC_WRITE_FAILED`, which is not
`RC_READ_NON_EXISTING_PAGE`, and leaves the handle (so `totalNumPages` and
`curPagePos`), the buffer and the disk as they were. -/
theorem writeBlock_out_of_range (i : Int) (h : SM_FileHandle) (file : FILE)
    (buf : List Byte) (e : OsEnv) (d : Disk) (hm : h.mgmtInfo = some file)
    (hr : i < 0 ∨ i ≥ h.totalNumPages) :
    writeBlock i (some h) buf e d = ⟨RC_WRITE_FAILED, some h, buf, d⟩ ∧
    (writeBlock i (some h) buf e d).rc ≠ RC_READ_NON_EXISTING_PAGE := by
  have hres : writeBlock i (some h) buf e d = ⟨RC_WRITE_FAILED, some h, buf, d⟩ := by
    simp [writeBlock, hm, hr]
  rw [hres]
  exact ⟨rfl, fun hcontra => RC.noConfusion hcontra⟩

/-- C8 at a concrete input: page 1 of the one-page file `f`. -/
theorem writeBlock_out_of_range_witness :
    writeBlock 1 (some demoHandle) sevenPage okEnv demoDisk
      = ⟨RC_WRITE_FAILED, some demoHandle, sevenPage, demoDisk⟩ ∧
    (writeBlock 1 (some demoHandle) sevenPage okEnv demoDisk).rc ≠ RC_READ_NON_EXISTING_PAGE :=
  writeBlock_out_of_range 1 demoHandle demoFile sevenPage okEnv demoDisk rfl
    (Or.inr (by decide))

/-! ## The error kind of `appendEmptyBlock` -/

/-- C9 as stated fails: on a `NULL` handle and on a closed handle
`appendEmptyBlock` returns `RC_FILE_HANDLE_NOT_INIT`, not `RC_WRITE_FAILED`. -/
theorem appendEmptyBlock_invalid_handle_code :
    (appendEmptyBlock none okEnv demoDisk).rc = RC_FILE_HANDLE_NOT_INIT ∧
    (appendEmptyBlock none okEnv demoDisk).rc ≠ RC_WRITE_FAILED ∧
    blankHandle.mgmtInfo = none ∧
    (appendEmptyBlock (some blankHandle) okEnv demoDisk).rc = RC_FILE_HANDLE_NOT_INIT ∧
    (appendEmptyBlock (some blankHandle) okEnv demoDisk).rc ≠ RC_WRITE_FAILED := by
  decide

/-- C9, amended: on a handle that is `NULL` or closed `appendEmptyBlock` fails
with `RC_FILE_HANDLE_NOT_INIT`; on an open handle on which the page write is
short it fails with `RC_WRITE_FAILED`. -/
theorem appendEmptyBlock_error_kind (fHandle : Option SM_FileHandle) (e : OsEnv) (d : Disk) :
    ((fHandle = none ∨ ∃ h, fHandle = some h ∧ h.mgmtInfo = none) →
      (appendEmptyBlock fHandle e d).rc = RC_FILE_HANDLE_NOT_INIT) ∧
    ((∃ h file, fHandle = some h ∧ h.mgmtInfo = some file) → e.fwriteCount < PAGE_SIZE →
      (appendEmptyBlock fHandle e d).rc = RC_WRITE_FAILED) := by
  constructor
  · rintro (rfl | ⟨h, rfl, hm⟩)
    · rfl
    · simp [appendEmptyBlock, hm]
  · rintro ⟨h, file, rfl, hm⟩ hshort
    have hl := fwriteData_short (List.replicate PAGE_SIZE 0) e hshort
    have hne : (0 : Nat) ≠ PAGE_SIZE := by decide
    unfold appendEmptyBlock
    simp only [hm]
    by_cases hcal : e.callocOk = false
    · simp [hcal]
    · cases hd : d file.path with
      | none => simp [hcal, fwriteResult, fseekEnd, hd, hne]
      | some c => simp [hcal, fwriteResult, fseekEnd, hd, hl]

/-- C9, amended, at concrete inputs: a `NULL` handle, and the open handle on
`f` under an operating system that cuts the write short. -/
theorem appendEmptyBlock_error_kind_witness :
    (appendEmptyBlock none okEnv demoDisk).rc = RC_FILE_HANDLE_NOT_INIT ∧
    (appendEmptyBlock (some demoHandle) shortEnv demoDisk).rc = RC_WRITE_FAILED :=
  ⟨(appendEmptyBlock_error_kind none okEnv demoDisk).1 (Or.inl rfl),
   (appendEmptyBlock_error_kind (some demoHandle) shortEnv demoDisk).2
      ⟨demoHandle, demoFile, rfl, rfl⟩ (by decide)⟩


/-! ## A failed operation leaves the bookkeeping alone -/

theorem readBlock_fail_counters (i : Int) (fHandle : Option SM_FileHandle)
    (buf : List Byte) (d : Disk) (hf : (readBlock i fHandle buf d).rc ≠ RC_OK) :
    counters (readBlock i fHandle buf d).fHandle = counters fHandle := by
  cases fHandle with
  | none => rfl
  | some h =>
    cases hm : h.mgmtInfo with
    | none => simp [readBlock, hm]
    | some file =>
      by_cases hr : i < 0 ∨ i ≥ h.totalNumPages
      · simp [readBlock, hm, hr]
      · by_cases ho : toInt32 (i * (PAGE_SIZE : Int)) < 0
        · simp [readBlock, hm, hr, fseekSet, ho]
        · by_cases hl : (freadData PAGE_SIZE
              ⟨file.path, (toInt32 (i * (PAGE_SIZE : Int))).toNat⟩ d).length = PAGE_SIZE
          · exact absurd (by simp [readBlock, hm, hr, fseekSet, ho, hl]) hf
          · simp [readBlock, hm, hr, fseekSet, ho, hl, counters]

theorem writeBlock_fail_counters (i : Int) (fHandle : Option SM_FileHandle)
    (buf : List Byte) (e : OsEnv) (d : Disk)
    (hf : (writeBlock i fHandle buf e d).rc ≠ RC_OK) :
    counters (writeBlock i fHandle buf e d).fHandle = counters fHandle := by
  cases fHandle with
  | none => rfl
  | some h =>
    cases hm : h.mgmtInfo with
    | none => simp [writeBlock, hm]
    | some file =>
      by_cases hr : i < 0 ∨ i ≥ h.totalNumPages
      · simp [writeBlock, hm, hr]
      · by_cases ho : toInt32 (i * (PAGE_SIZE : Int)) < 0
        · simp [writeBlock, hm, hr, fseekSet, ho]
        · by_cases hl : fwriteResult (fwriteData buf PAGE_SIZE e)
              ⟨file.path, (toInt32 (i * (PAGE_SIZE : Int))).toNat⟩ d = PAGE_SIZE
          · exact absurd (by simp [writeBlock, hm, hr, fseekSet, ho, hl]) hf
          · simp [writeBlock, hm, hr, fseekSet, ho, hl, counters]

theorem appendEmptyBlock_fail_counters (fHandle : Option SM_FileHandle) (e : OsEnv)
    (d : Disk) (hf : (appendEmptyBlock fHandle e d).rc ≠ RC_OK) :
    counters (appendEmptyBlock fHandle e d).fHandle = counters fHandle := by
  cases fHandle with
  | none => rfl
  | some h =>
    cases hm : h.mgmtInfo with
    | none => simp [appendEmptyBlock, hm]
    | some file =>
      by_cases hcal : e.callocOk = false
      · simp [appendEmptyBlock, hm, hcal]
      · by_cases hl : fwriteResult (fwriteData (List.replicate PAGE_SIZE 0) PAGE_SIZE e)
            (fseekEnd file d) d = PAGE_SIZE
        · exact absurd (by simp [appendEmptyBlock, hm, hcal, hl]) hf
        · simp [appendEmptyBlock, hm, hcal, hl, counters]

/-- C10: for `openPageFile`, `closePageFile`, `readBlock`, `writeBlock`,
`writeCurrentBlock`, the five relative reads and `appendEmptyBlock`, on every
handle and with every argument: when the operation returns a code other than
`RC_OK`, `totalNumPages` and `curPagePos` are what they were before the
call. -/
theorem failure_keeps_counters (fHandle : Option SM_FileHandle) (h0 : SM_FileHandle)
    (path : String) (i : Int) (buf : List Byte) (e : OsEnv) (d : Disk) :
    ((openPageFile path h0 e d).rc ≠ RC_OK →
      counters (openPageFile path h0 e d).fHandle = counters (some h0)) ∧
    ((closePageFile fHandle e d).rc ≠ RC_OK →
      counters (closePageFile fHandle e d).fHandle = counters fHandle) ∧
    ((readBlock i fHandle buf d).rc ≠ RC_OK →
      counters (readBlock i fHandle buf d).fHandle = counters fHandle) ∧
    ((writeBlock i fHandle buf e d).rc ≠ RC_OK →
      counters (writeBlock i fHandle buf e d).fHandle = counters fHandle) ∧
    ((writeCurrentBlock fHandle buf e d).rc ≠ RC_OK →
      counters (writeCurrentBlock fHandle buf e d).fHandle = counters fHandle) ∧
    ((readFirstBlock fHandle buf d).rc ≠ RC_OK →
      counters (readFirstBlock fHandle buf d).fHandle = counters fHandle) ∧
    ((readPreviousBlock fHandle buf d).rc ≠ RC_OK →
      counters (readPreviousBlock fHandle buf d).fHandle = counters fHandle) ∧
    ((readCurrentBlock fHandle buf d).rc ≠ RC_OK →
      counters (readCurrentBlock fHandle buf d).fHandle = counters fHandle) ∧
    ((readNextBlock fHandle buf d).rc ≠ RC_OK →
      counters (readNextBlock fHandle buf d).fHandle = counters fHandle) ∧
    ((readLastBlock fHandle buf d).rc ≠ RC_OK →
      counters (readLastBlock fHandle buf d).fHandle = counters fHandle) ∧
    ((appendEmptyBlock fHandle e d).rc ≠ RC_OK →
      counters (appendEmptyBlock fHandle e d).fHandle = counters fHandle) := by
  refine ⟨?_, ?_, readBlock_fail_counters i fHandle buf d,
    writeBlock_fail_counters i fHandle buf e d, ?_, readBlock_fail_counters 0 fHandle buf d,
    ?_, ?_, ?_, ?_, appendEmptyBlock_fail_counters fHandle e d⟩
  · intro hf
    unfold openPageFile at hf ⊢
    split
    · rfl
    · exfalso; simp_all
  · intro hf
    cases fHandle with
    | none => rfl
    | some h =>
      cases hm : h.mgmtInfo with
      | none => simp [closePageFile, hm]
      | some file =>
        by_cases hc : e.fcloseOk = false
        · simp [closePageFile, hm, hc]
        · exact absurd (by simp [closePageFile, hm, hc]) hf
  · intro hf
    cases fHandle with
    | none => rfl
    | some h => exact writeBlock_fail_counters h.curPagePos (some h) buf e d hf
  · intro hf
    cases fHandle with
    | none => rfl
    | some h =>
      unfold readPreviousBlock at hf ⊢
      simp only at hf ⊢
      split
      · rfl
      · rename_i hlt
        simp only [hlt, if_false] at hf
        exact readBlock_fail_counters _ (some h) buf d hf
  · intro hf
    cases fHandle with
    | none => rfl
    | some h => exact readBlock_fail_counters h.curPagePos (some h) buf d hf
  · intro hf
    cases fHandle with
    | none => rfl
    | some h =>
      unfold readNextBlock at hf ⊢
      simp only at hf ⊢
      split
      · rfl
      · rename_i hlt
        simp only [hlt, if_false] at hf
        exact readBlock_fail_counters _ (some h) buf d hf
  · intro hf
    cases fHandle with
    | none => rfl
    | some h =>
      unfold readLastBlock at hf ⊢
      simp only at hf ⊢
      split
      · rfl
      · rename_i hlt
        simp only [hlt, if_false] at hf
        exact readBlock_fail_counters _ (some h) buf d hf

/-- C10 at a concrete input: `readBlock(7)` on the one-page file `f` fails and
the handle still says one page, position 0. -/
theorem failure_keeps_counters_witness :
    (readBlock 7 (some demoHandle) zeroPage demoDisk).rc ≠ RC_OK ∧
    counters (readBlock 7 (some demoHandle) zeroPage demoDisk).fHandle = some (1, 0) :=
  ⟨by decide,
   (failure_keeps_counters (some demoHandle) blankHandle "f" 7 zeroPage okEnv
      demoDisk).2.2.1 (by decide)⟩


/-! ## `ensureCapacity` when an append fails -/

/-- The loop only looks at what the operating system decides in its own
iterations. -/
theorem appendLoop_congr (envs1 envs2 : Nat → OsEnv) (k : Nat) :
    ∀ (i : Nat) (fHandle : Option SM_FileHandle) (d : Disk),
      (∀ j, i ≤ j → j < i + k → envs1 j = envs2 j) →
      appendLoop k i fHandle envs1 d = appendLoop k i fHandle envs2 d := by
  induction k with
  | zero => intro i fHandle d _; rfl
  | succ k ih =>
    intro i fHandle d henv
    have hi : envs1 i = envs2 i := henv i (le_refl i) (by omega)
    rw [appendLoop, appendLoop, hi]
    by_cases hstep : (appendEmptyBlock fHandle (envs2 i) d).rc = RC_OK
    · simp only [hstep, ne_eq, not_true_eq_false, if_false]
      exact ih (i + 1) _ _ (fun j h1 h2 => henv j (by omega) (by omega))
    · simp only [hstep, ne_eq, not_false_eq_true, if_true]

/-- A loop of `a + b` iterations whose first `a` iterations succeed goes on
with the remaining `b` iterations from the state the first `a` left. -/
theorem appendLoop_split (envs : Nat → OsEnv) (a b : Nat) :
    ∀ (i : Nat) (fHandle : Option SM_FileHandle) (d : Disk),
      (appendLoop a i fHandle envs d).rc = RC_OK →
      appendLoop (a + b) i fHandle envs d =
        appendLoop b (i + a) (appendLoop a i fHandle envs d).fHandle envs
          (appendLoop a i fHandle envs d).disk := by
  induction a with
  | zero =>
    intro i fHandle d _
    simp [appendLoop]
  | succ a ih =>
    intro i fHandle d hrc
    have hadd : a + 1 + b = (a + b) + 1 := by omega
    rw [hadd, appendLoop]
    rw [appendLoop] at hrc ⊢
    by_cases hstep : (appendEmptyBlock fHandle (envs i) d).rc = RC_OK
    · simp only [hstep, ne_eq, not_true_eq_false, if_false] at hrc ⊢
      have hidx : i + 1 + a = i + (a + 1) := by omega
      rw [ih (i + 1) _ _ hrc, hidx]
    · simp only [hstep, ne_eq, not_false_eq_true, if_true] at hrc

/-- A loop that returns `RC_OK` from a handle whose page count cannot wrap
has added exactly its number of iterations to the page count. -/
theorem appendLoop_ok_total (envs : Nat → OsEnv) (k i : Nat) (h : SM_FileHandle) (d : Disk)
    (hlo : -2147483648 ≤ h.totalNumPages) (hhi : h.totalNumPages + (k : Int) < 2147483648)
    (hrc : (appendLoop k i (some h) envs d).rc = RC_OK) :
    ∃ h1, (appendLoop k i (some h) envs d).fHandle = some h1 ∧
      h1.totalNumPages = h.totalNumPages + (k : Int) := by
  cases k with
  | zero => exact ⟨h, rfl, by simp⟩
  | succ k =>
    obtain ⟨h1, _, m, hfh, _, h1lo, h1hi, htot⟩ := appendLoop_ok_inv envs k i h d hrc
    refine ⟨h1, hfh, ?_⟩
    push_cast at htot hhi ⊢
    omega

/-- On an open handle a short page write makes `appendEmptyBlock` return
`RC_WRITE_FAILED`. -/
theorem appendEmptyBlock_short (h : SM_FileHandle) (file : FILE) (e : OsEnv) (d : Disk)
    (hm : h.mgmtInfo = some file) (hshort : e.fwriteCount < PAGE_SIZE) :
    (appendEmptyBlock (some h) e d).rc = RC_WRITE_FAILED := by
  have hl := fwriteData_short (List.replicate PAGE_SIZE 0) e hshort
  have hne : (0 : Nat) ≠ PAGE_SIZE := by decide
  unfold appendEmptyBlock
  simp only [hm]
  by_cases hcal : e.callocOk = false
  · simp [hcal]
  · cases hd : d file.path with
    | none => simp [hcal, fwriteResult, fseekEnd, hd, hne]
    | some c => simp [hcal, fwriteResult, fseekEnd, hd, hl]

/-- C11: on an open handle with `0 <= totalNumPages = t < n`, when the first
`k` appends of the loop succeed (`k < n - t`) and the next append fails with
the code `e`, `ensureCapacity(n, h)` returns what that failed append returned:
the code is exactly `e`, nothing is appended after it, and
`totalNumPages = t + k`. -/
theorem ensureCapacity_partial_failure (n : Int) (h : SM_FileHandle) (file : FILE)
    (envs : Nat → OsEnv) (d : Disk) (k : Nat) (e : RC)
    (hm : h.mgmtInfo = some file) (h0 : 0 ≤ h.totalNumPages) (hn1 : n < 2147483648)
    (hk : (k : Int) < n - h.totalNumPages)
    (hfirst : (appendLoop k 0 (some h) envs d).rc = RC_OK)
    (hfail : (appendEmptyBlock (appendLoop k 0 (some h) envs d).fHandle (envs k)
      (appendLoop k 0 (some h) envs d).disk).rc = e)
    (he : e ≠ RC_OK) :
    ensureCapacity n (some h) envs d =
      appendEmptyBlock (appendLoop k 0 (some h) envs d).fHandle (envs k)
        (appendLoop k 0 (some h) envs d).disk ∧
    (ensureCapacity n (some h) envs d).rc = e ∧
    ∃ h1, (ensureCapacity n (some h) envs d).fHandle = some h1 ∧
      h1.totalNumPages = h.totalNumPages + (k : Int) := by
  have hge : ¬ h.totalNumPages ≥ n := by omega
  have hadd : toInt32 (n - h.totalNumPages) = n - h.totalNumPages :=
    toInt32_of_range _ (by omega) (by omega)
  obtain ⟨m, hm2⟩ : ∃ m : Nat, (n - h.totalNumPages).toNat = k + (m + 1) :=
    ⟨(n - h.totalNumPages).toNat - k - 1, by omega⟩
  have hres : ensureCapacity n (some h) envs d
      = appendLoop (k + (m + 1)) 0 (some h) envs d := by
    simp [ensureCapacity, hm, hge, hadd, hm2]
  have hne : (appendEmptyBlock (appendLoop k 0 (some h) envs d).fHandle (envs k)
      (appendLoop k 0 (some h) envs d).disk).rc ≠ RC_OK := by
    rw [hfail]; exact he
  have hstop : ensureCapacity n (some h) envs d =
      appendEmptyBlock (appendLoop k 0 (some h) envs d).fHandle (envs k)
        (appendLoop k 0 (some h) envs d).disk := by
    rw [hres, appendLoop_split envs k (m + 1) 0 (some h) d hfirst, Nat.zero_add, appendLoop]
    simp only [hne, ne_eq, not_false_eq_true, if_true]
  obtain ⟨hk1, hfh, htot⟩ := appendLoop_ok_total envs k 0 h d (by omega) (by omega) hfirst
  have hcnt := appendEmptyBlock_fail_counters _ (envs k) _ hne
  refine ⟨hstop, by rw [hstop]; exact hfail, ?_⟩
  rw [hstop]
  cases hr : (appendEmptyBlock (appendLoop k 0 (some h) envs d).fHandle (envs k)
      (appendLoop k 0 (some h) envs d).disk).fHandle with
  | none => rw [hr, hfh] at hcnt; simp [counters] at hcnt
  | some h1 =>
    rw [hr, hfh] at hcnt
    simp only [counters, Option.map_some', Option.some.injEq, Prod.mk.injEq] at hcnt
    exact ⟨h1, rfl, by rw [hcnt.1, htot]⟩


/-- On the one-page file `f`, under `failAfterTwo`, two appends succeed and
leave an open handle. -/
theorem demo_two_appends :
    ∃ h1 file1, (appendLoop 2 0 (some demoHandle) failAfterTwo demoDisk).rc = RC_OK ∧
      (appendLoop 2 0 (some demoHandle) failAfterTwo demoDisk).fHandle = some h1 ∧
      h1.mgmtInfo = some file1 := by
  have hcongr := appendLoop_congr failAfterTwo (fun _ => okEnv) 2 0 (some demoHandle) demoDisk
    (fun j _ hj => by
      have hj2 : j < 2 := by omega
      simp [failAfterTwo, hj2])
  obtain ⟨h1, file1, hrc, hfh, _, _, hm1, _, _⟩ :=
    appendLoop_ok_of (fun _ => okEnv) (fun _ => ⟨rfl, le_of_eq rfl⟩) 2 0 demoHandle demoFile
      zeroPage demoDisk rfl (store_same _ _ _) (by decide) (by decide)
  rw [hcongr]
  exact ⟨h1, file1, hrc, hfh, hm1⟩

/-- C11 at a concrete input: the one-page file `f` is to be grown to five
pages, two appends succeed and the third write is cut short. -/
theorem ensureCapacity_partial_failure_witness :
    ensureCapacity 5 (some demoHandle) failAfterTwo demoDisk =
      appendEmptyBlock (appendLoop 2 0 (some demoHandle) failAfterTwo demoDisk).fHandle
        (failAfterTwo 2) (appendLoop 2 0 (some demoHandle) failAfterTwo demoDisk).disk ∧
    (ensureCapacity 5 (some demoHandle) failAfterTwo demoDisk).rc = RC_WRITE_FAILED ∧
    ∃ h1, (ensureCapacity 5 (some demoHandle) failAfterTwo demoDisk).fHandle = some h1 ∧
      h1.totalNumPages = demoHandle.totalNumPages + ((2 : Nat) : Int) := by
  obtain ⟨h1, file1, hrc, hfh, hm1⟩ := demo_two_appends
  exact ensureCapacity_partial_failure 5 demoHandle demoFile failAfterTwo demoDisk 2
    RC_WRITE_FAILED rfl (by decide) (by decide) (by decide) hrc
    (by rw [hfh]; exact appendEmptyBlock_short h1 file1 _ _ hm1 (by decide)) (by decide)


/-! ## Relative navigation -/

/-- What `readNextBlock` does when the next index is a page of the file and
its byte offset fits a 32-bit `int`. -/
theorem readNextBlock_ok_of (h : SM_FileHandle) (file : FILE) (buf c : List Byte)
    (d : Disk) (t : Nat) (hm : h.mgmtInfo = some file) (hd : d file.path = some c)
    (hc : c.length = PAGE_SIZE * t) (ht : h.totalNumPages = (t : Int))
    (h0 : 0 ≤ h.curPagePos + 1) (h1 : h.curPagePos + 1 < (t : Int))
    (hs : h.curPagePos + 1 < 524288) (hbuf : buf.length = PAGE_SIZE) :
    readNextBlock (some h) buf d =
      ⟨RC_OK,
        some { h with
          curPagePos := h.curPagePos + 1,
          mgmtInfo := some ⟨file.path,
            (toInt32 ((h.curPagePos + 1) * (PAGE_SIZE : Int))).toNat + PAGE_SIZE⟩ },
        (c.drop (PAGE_SIZE * (h.curPagePos + 1).toNat)).take PAGE_SIZE, d⟩ := by
  have hnext : toInt32 (h.curPagePos + 1) = h.curPagePos + 1 :=
    toInt32_of_range _ (by omega) (by omega)
  have hge : ¬ h.curPagePos + 1 ≥ h.totalNumPages := by omega
  have hoff := offset_small (h.curPagePos + 1) h0 hs
  have hnat : (toInt32 ((h.curPagePos + 1) * (PAGE_SIZE : Int))).toNat
      = PAGE_SIZE * (h.curPagePos + 1).toNat := by
    rw [hoff, PAGE_SIZE_eq]
    omega
  have hlen : ((c.drop (PAGE_SIZE * (h.curPagePos + 1).toNat)).take PAGE_SIZE).length
      = PAGE_SIZE := by
    rw [List.length_take, List.length_drop, hc, PAGE_SIZE_eq]
    omega
  have hrd := readBlock_ok_of_data (h.curPagePos + 1) h file buf d c _ hm hd h0 (by omega)
    (by omega) (by rw [hnat]) hlen
  rw [fillBuffer_full _ _ (by omega)] at hrd
  simp only [readNextBlock, hnext, hge, if_false]
  exact hrd

/-- On an open handle `readNextBlock` refuses to step whenever the next index
is not a page index, and changes nothing. -/
theorem readNextBlock_refuses (h : SM_FileHandle) (file : FILE) (buf : List Byte) (d : Disk)
    (hm : h.mgmtInfo = some file)
    (hp0 : -2147483648 ≤ h.curPagePos) (hp1 : h.curPagePos < 2147483648)
    (hout : ¬ (0 ≤ h.curPagePos + 1 ∧ h.curPagePos + 1 < h.totalNumPages)) :
    readNextBlock (some h) buf d = ⟨RC_READ_NON_EXISTING_PAGE, some h, buf, d⟩ := by
  by_cases hge : toInt32 (h.curPagePos + 1) ≥ h.totalNumPages
  · simp [readNextBlock, hge]
  · have hneg : toInt32 (h.curPagePos + 1) < 0 := by
      unfold toInt32 at hge ⊢
      omega
    simp only [readNextBlock, hge, if_false]
    exact readBlock_out_of_range _ h file buf d hm (Or.inl hneg)

/-- What `readPreviousBlock` does when the previous index is a page of the
file and its byte offset fits a 32-bit `int`. -/
theorem readPreviousBlock_ok_of (h : SM_FileHandle) (file : FILE) (buf c : List Byte)
    (d : Disk) (t : Nat) (hm : h.mgmtInfo = some file) (hd : d file.path = some c)
    (hc : c.length = PAGE_SIZE * t) (ht : h.totalNumPages = (t : Int))
    (h0 : 0 ≤ h.curPagePos - 1) (h1 : h.curPagePos - 1 < (t : Int))
    (hs : h.curPagePos - 1 < 524288) (hbuf : buf.length = PAGE_SIZE) :
    readPreviousBlock (some h) buf d =
      ⟨RC_OK,
        some { h with
          curPagePos := h.curPagePos - 1,
          mgmtInfo := some ⟨file.path,
            (toInt32 ((h.curPagePos - 1) * (PAGE_SIZE : Int))).toNat + PAGE_SIZE⟩ },
        (c.drop (PAGE_SIZE * (h.curPagePos - 1).toNat)).take PAGE_SIZE, d⟩ := by
  have hprev : toInt32 (h.curPagePos - 1) = h.curPagePos - 1 :=
    toInt32_of_range _ (by omega) (by omega)
  have hlt : ¬ h.curPagePos - 1 < 0 := by omega
  have hoff := offset_small (h.curPagePos - 1) h0 hs
  have hnat : (toInt32 ((h.curPagePos - 1) * (PAGE_SIZE : Int))).toNat
      = PAGE_SIZE * (h.curPagePos - 1).toNat := by
    rw [hoff, PAGE_SIZE_eq]
    omega
  have hlen : ((c.drop (PAGE_SIZE * (h.curPagePos - 1).toNat)).take PAGE_SIZE).length
      = PAGE_SIZE := by
    rw [List.length_take, List.length_drop, hc, PAGE_SIZE_eq]
    omega
  have hrd := readBlock_ok_of_data (h.curPagePos - 1) h file buf d c _ hm hd h0 (by omega)
    (by omega) (by rw [hnat]) hlen
  rw [fillBuffer_full _ _ (by omega)] at hrd
  simp only [readPreviousBlock, hprev, hlt, if_false]
  exact hrd

/-- On an open handle `readPreviousBlock` refuses to step whenever the
previous index is not a page index, and changes nothing. -/
theorem readPreviousBlock_refuses (h : SM_FileHandle) (file : FILE) (buf : List Byte)
    (d : Disk) (hm : h.mgmtInfo = some file)
    (hp0 : -2147483648 ≤ h.curPagePos) (hp1 : h.curPagePos < 2147483648)
    (ht1 : h.totalNumPages < 2147483648)
    (hout : ¬ (0 ≤ h.curPagePos - 1 ∧ h.curPagePos - 1 < h.totalNumPages)) :
    readPreviousBlock (some h) buf d = ⟨RC_READ_NON_EXISTING_PAGE, some h, buf, d⟩ := by
  by_cases hlt : toInt32 (h.curPagePos - 1) < 0
  · simp [readPreviousBlock, hlt]
  · have hge : toInt32 (h.curPagePos - 1) ≥ h.totalNumPages := by
      unfold toInt32 at hlt ⊢
      omega
    simp only [readPreviousBlock, hlt, if_false]
    exact readBlock_out_of_range _ h file buf d hm (Or.inr hge)

/-- The relative reads at large indices.  On the file `big` of 524289 full pages
with current position 524287 the next index 524288 is a page index, and
`readNextBlock` returns `RC_READ_NON_EXISTING_PAGE` and leaves the position.
On the file `huge` of 1048577 full pages with current position 1048576 the
previous index 1048575 is a page index, and `readPreviousBlock` returns
`RC_READ_NON_EXISTING_PAGE` and leaves the position.  In both the `int`
product of the index and `PAGE_SIZE` wraps to a negative offset. -/
theorem relative_reads_large_index_fail :
    bigDisk bigFile.path = some (List.replicate (PAGE_SIZE * 524289) 0) ∧
    (0 ≤ bigHandleAt.curPagePos + 1 ∧
      bigHandleAt.curPagePos + 1 < bigHandleAt.totalNumPages) ∧
    readNextBlock (some bigHandleAt) zeroPage bigDisk
      = ⟨RC_READ_NON_EXISTING_PAGE, some bigHandleAt, zeroPage, bigDisk⟩ ∧
    hugeDisk hugeFile.path = some (List.replicate (PAGE_SIZE * 1048577) 0) ∧
    (0 ≤ hugeHandleAt.curPagePos - 1 ∧
      hugeHandleAt.curPagePos - 1 < hugeHandleAt.totalNumPages) ∧
    readPreviousBlock (some hugeHandleAt) zeroPage hugeDisk
      = ⟨RC_READ_NON_EXISTING_PAGE, some hugeHandleAt, zeroPage, hugeDisk⟩ := by
  have hn : toInt32 524288 = 524288 := by decide
  have hno : toInt32 (524288 * (PAGE_SIZE : Int)) = -2147483648 := by decide
  have hp : toInt32 1048575 = 1048575 := by decide
  have hpo : toInt32 (1048575 * (PAGE_SIZE : Int)) = -4096 := by decide
  refine ⟨store_same _ _ _, by decide, ?_, store_same _ _ _, by decide, ?_⟩
  · simp [readNextBlock, readBlock, bigHandleAt, hn, fseekSet, hno]
  · simp [readPreviousBlock, readBlock, hugeHandleAt, hp, fseekSet, hpo]


/-! ## Forward iteration -/

/-- A loop of appends that returns `RC_OK` on an open handle over an existing
file, the page count not wrapping: the count has grown by the number of
iterations, the position is unchanged, the handle is still open on the same
file, and the file has as many zero pages more. -/
theorem appendLoop_ok_state (envs : Nat → OsEnv) (k : Nat) :
    ∀ (i : Nat) (h : SM_FileHandle) (file : FILE) (c : List Byte) (d : Disk),
      h.mgmtInfo = some file → d file.path = some c →
      -2147483648 ≤ h.totalNumPages → h.totalNumPages + (k : Int) < 2147483648 →
      (appendLoop k i (some h) envs d).rc = RC_OK →
      ∃ h1 file1, (appendLoop k i (some h) envs d).fHandle = some h1 ∧
        h1.totalNumPages = h.totalNumPages + (k : Int) ∧
        h1.curPagePos = h.curPagePos ∧
        h1.mgmtInfo = some file1 ∧ file1.path = file.path ∧
        (appendLoop k i (some h) envs d).disk file.path
          = some (c ++ List.replicate (PAGE_SIZE * k) 0) := by
  induction k with
  | zero =>
    intro i h file c d hm hd _ _ _
    exact ⟨h, file, rfl, by simp, rfl, hm, rfl, by simpa [appendLoop] using hd⟩
  | succ k ih =>
    intro i h file c d hm hd hlo hhi hrc
    by_cases hstep : (appendEmptyBlock (some h) (envs i) d).rc = RC_OK
    · obtain ⟨h2, file2, c2, hh, hm2, hd2, hres⟩ := appendEmptyBlock_ok_inv _ _ _ hstep
      have hh2 := (Option.some.inj hh).symm
      subst hh2
      have hfile : file2 = file := Option.some.inj (hm2.symm.trans hm)
      subst hfile
      have hcc : c2 = c := Option.some.inj (hd2.symm.trans hd)
      subst hcc
      have hinc : toInt32 (h2.totalNumPages + 1) = h2.totalNumPages + 1 :=
        toInt32_of_range _ (by omega) (by omega)
      rw [hinc] at hres
      have hunfold : appendLoop (k + 1) i (some h2) envs d =
          appendLoop k (i + 1)
            (some { h2 with
              totalNumPages := h2.totalNumPages + 1,
              mgmtInfo := some ⟨file2.path, c2.length + PAGE_SIZE⟩ })
            envs (d.store file2.path (c2 ++ List.replicate PAGE_SIZE 0)) := by
        rw [appendLoop]
        simp [hres]
      rw [hunfold] at hrc ⊢
      obtain ⟨h1, file1, hfh, htot, hcur, hm1, hp1, hdisk⟩ := ih (i + 1)
        { h2 with
          totalNumPages := h2.totalNumPages + 1,
          mgmtInfo := some ⟨file2.path, c2.length + PAGE_SIZE⟩ }
        ⟨file2.path, c2.length + PAGE_SIZE⟩ (c2 ++ List.replicate PAGE_SIZE 0)
        (d.store file2.path (c2 ++ List.replicate PAGE_SIZE 0)) rfl (store_same _ _ _)
        (by simp only; omega) (by simp only; push_cast at hhi; omega) hrc
      refine ⟨h1, file1, hfh, ?_, hcur, hm1, hp1, ?_⟩
      · rw [htot]; push_cast; omega
      · have hd3 : (appendLoop k (i + 1)
            (some { h2 with
              totalNumPages := h2.totalNumPages + 1,
              mgmtInfo := some ⟨file2.path, c2.length + PAGE_SIZE⟩ })
            envs (d.store file2.path (c2 ++ List.replicate PAGE_SIZE 0))).disk file2.path
            = some (c2 ++ List.replicate PAGE_SIZE 0 ++ List.replicate (PAGE_SIZE * k) 0) :=
          hdisk
        rw [hd3, List.append_assoc, List.append_replicate_replicate, Nat.mul_succ,
          Nat.add_comm]
    · rw [appendLoop] at hrc
      simp only [hstep, ne_eq, not_false_eq_true, if_true] at hrc

/-- As many `readNextBlock` calls as there are pages after the current one
(all with offsets that fit a 32-bit `int`) return `RC_OK` and step the
position by one each. -/
theorem readNextLoop_ok_of (c : List Byte) (d : Disk) (t : Nat) (path : String)
    (hd : d path = some c) (hc : c.length = PAGE_SIZE * t) (k : Nat) :
    ∀ (h : SM_FileHandle) (file : FILE) (buf : List Byte),
      h.mgmtInfo = some file → file.path = path → h.totalNumPages = (t : Int) →
      -1 ≤ h.curPagePos → h.curPagePos + (k : Int) < (t : Int) →
      h.curPagePos + (k : Int) < 524288 → buf.length = PAGE_SIZE →
      ∃ h1 file1 buf1, readNextLoop k (some h) buf d = ⟨RC_OK, some h1, buf1, d⟩ ∧
        h1.curPagePos = h.curPagePos + (k : Int) ∧ h1.totalNumPages = (t : Int) ∧
        h1.mgmtInfo = some file1 ∧ file1.path = path ∧ buf1.length = PAGE_SIZE := by
  induction k with
  | zero =>
    intro h file buf hm hp ht _ _ _ hbuf
    exact ⟨h, file, buf, rfl, by simp, ht, hm, hp, hbuf⟩
  | succ k ih =>
    intro h file buf hm hp ht hlo hhi hs hbuf
    push_cast at hhi hs
    have hstep := readNextBlock_ok_of h file buf c d t hm (by rw [hp]; exact hd) hc ht
      (by omega) (by omega) (by omega) hbuf
    have hlen : ((c.drop (PAGE_SIZE * (h.curPagePos + 1).toNat)).take PAGE_SIZE).length
        = PAGE_SIZE := by
      rw [List.length_take, List.length_drop, hc, PAGE_SIZE_eq]
      omega
    obtain ⟨h1, file1, buf1, hloop, hcur, htot, hm1, hp1, hb1⟩ := ih
      { h with
        curPagePos := h.curPagePos + 1,
        mgmtInfo := some ⟨file.path,
          (toInt32 ((h.curPagePos + 1) * (PAGE_SIZE : Int))).toNat + PAGE_SIZE⟩ }
      ⟨file.path, (toInt32 ((h.curPagePos + 1) * (PAGE_SIZE : Int))).toNat + PAGE_SIZE⟩
      ((c.drop (PAGE_SIZE * (h.curPagePos + 1).toNat)).take PAGE_SIZE) rfl hp ht
      (by simp only; omega) (by simp only; omega) (by simp only; omega) hlen
    refine ⟨h1, file1, buf1, ?_, ?_, htot, hm1, hp1, hb1⟩
    · rw [readNextLoop]
      simp only [hstep, ne_eq, not_true_eq_false, if_false]
      exact hloop
    · rw [hcur]; push_cast; omega

/-- A loop of `a + b` reads whose first `a` reads succeed goes on with the
remaining `b` reads from the state the first `a` left. -/
theorem readNextLoop_split (a b : Nat) :
    ∀ (fHandle : Option SM_FileHandle) (buf : List Byte) (d : Disk),
      (readNextLoop a fHandle buf d).rc = RC_OK →
      readNextLoop (a + b) fHandle buf d =
        readNextLoop b (readNextLoop a fHandle buf d).fHandle
          (readNextLoop a fHandle buf d).memPage (readNextLoop a fHandle buf d).disk := by
  induction a with
  | zero =>
    intro fHandle buf d _
    simp [readNextLoop]
  | succ a ih =>
    intro fHandle buf d hrc
    have hadd : a + 1 + b = (a + b) + 1 := by omega
    rw [hadd, readNextLoop]
    rw [readNextLoop] at hrc ⊢
    by_cases hstep : (readNextBlock fHandle buf d).rc = RC_OK
    · simp only [hstep, ne_eq, not_true_eq_false, if_false] at hrc ⊢
      exact ih _ _ _ hrc
    · simp only [hstep, ne_eq, not_false_eq_true, if_true] at hrc


/-- One more `readNextBlock` after a loop of reads that returned `RC_OK`. -/
theorem readNextLoop_succ (a : Nat) (fHandle : Option SM_FileHandle) (buf : List Byte)
    (d : Disk) (hrc : (readNextLoop a fHandle buf d).rc = RC_OK)
    (hfail : (readNextBlock (readNextLoop a fHandle buf d).fHandle
      (readNextLoop a fHandle buf d).memPage (readNextLoop a fHandle buf d).disk).rc ≠ RC_OK) :
    readNextLoop (a + 1) fHandle buf d =
      readNextBlock (readNextLoop a fHandle buf d).fHandle
        (readNextLoop a fHandle buf d).memPage (readNextLoop a fHandle buf d).disk := by
  rw [readNextLoop_split a 1 fHandle buf d hrc, readNextLoop]
  simp only [hfail, ne_eq, not_false_eq_true, if_true]

/-- C13, amended: for every `m < 524288`, on a handle obtained by
`createPageFile`, `openPageFile` and `m` successful `appendEmptyBlock` calls,
`totalNumPages = m + 1` and `curPagePos = 0`, the first `m` consecutive
`readNextBlock` calls all return `RC_OK` and visit the positions `1, ..., m`
in order, and the next one returns `RC_READ_NON_EXISTING_PAGE`. -/
theorem forward_iteration_small (path : String) (e1 e2 : OsEnv) (d : Disk)
    (h0 : SM_FileHandle) (envs : Nat → OsEnv) (m : Nat) (buf : List Byte)
    (hc : (createPageFile path e1 d).1 = RC_OK)
    (ho : (openPageFile path h0 e2 (createPageFile path e1 d).2).rc = RC_OK)
    (ha : (appendLoop m 0 (openPageFile path h0 e2 (createPageFile path e1 d).2).fHandle envs
      (openPageFile path h0 e2 (createPageFile path e1 d).2).disk).rc = RC_OK)
    (hm : m < 524288) (hbuf : buf.length = PAGE_SIZE) :
    ∃ h, (appendLoop m 0 (openPageFile path h0 e2 (createPageFile path e1 d).2).fHandle envs
        (openPageFile path h0 e2 (createPageFile path e1 d).2).disk).fHandle = some h ∧
      h.totalNumPages = (m : Int) + 1 ∧ h.curPagePos = 0 ∧
      (∀ j, j ≤ m →
        (readNextLoop j (some h) buf
          (appendLoop m 0 (openPageFile path h0 e2 (createPageFile path e1 d).2).fHandle envs
            (openPageFile path h0 e2 (createPageFile path e1 d).2).disk).disk).rc = RC_OK ∧
        getBlockPos (readNextLoop j (some h) buf
          (appendLoop m 0 (openPageFile path h0 e2 (createPageFile path e1 d).2).fHandle envs
            (openPageFile path h0 e2 (createPageFile path e1 d).2).disk).disk).fHandle
          = (j : Int)) ∧
      (readNextLoop (m + 1) (some h) buf
        (appendLoop m 0 (openPageFile path h0 e2 (createPageFile path e1 d).2).fHandle envs
          (openPageFile path h0 e2 (createPageFile path e1 d).2).disk).disk).rc
        = RC_READ_NON_EXISTING_PAGE := by
  have hd := createPageFile_ok_inv path e1 d hc
  have hfo := (openPageFile_ok_inv path h0 e2 _ ho).1
  have hopen := openPageFile_ok_of path h0 e2 _ _ hfo hd
  have hone : toInt32 (((List.replicate PAGE_SIZE (0 : Byte)).length : Int) / (PAGE_SIZE : Int))
      = 1 := by
    rw [List.length_replicate]
    decide
  rw [hone] at hopen
  rw [hopen] at ha ⊢
  obtain ⟨h1, file1, hfh, htot, hcur, hm1, hp1, hdisk⟩ :=
    appendLoop_ok_state envs m 0 _ ⟨path, 0⟩ _ _ rfl hd (by simp only; omega)
      (by simp only; omega) ha
  simp only at htot hcur hp1 hdisk
  have hlen : (List.replicate PAGE_SIZE (0 : Byte) ++ List.replicate (PAGE_SIZE * m) 0).length
      = PAGE_SIZE * (m + 1) := by
    rw [List.length_append, List.length_replicate, List.length_replicate, PAGE_SIZE_eq]
    omega
  have hloop : ∀ j, j ≤ m → ∃ hj filej bufj,
      readNextLoop j (some h1) buf
        (appendLoop m 0
          (some { fileName := path, totalNumPages := 1, curPagePos := 0,
                  mgmtInfo := some { path := path, pos := 0 } })
          envs (createPageFile path e1 d).2).disk
        = ⟨RC_OK, some hj, bufj,
            (appendLoop m 0
              (some { fileName := path, totalNumPages := 1, curPagePos := 0,
                      mgmtInfo := some { path := path, pos := 0 } })
              envs (createPageFile path e1 d).2).disk⟩ ∧
      hj.curPagePos = h1.curPagePos + (j : Int) ∧ hj.totalNumPages = ((m + 1 : Nat) : Int) ∧
      hj.mgmtInfo = some filej ∧ filej.path = path ∧ bufj.length = PAGE_SIZE := by
    intro j hj
    exact readNextLoop_ok_of _ _ (m + 1) path hdisk hlen j h1 file1 buf hm1 hp1
      (by rw [htot]; push_cast; omega) (by omega) (by rw [hcur]; push_cast; omega)
      (by rw [hcur]; omega) hbuf
  refine ⟨h1, hfh, by rw [htot]; omega, hcur, ?_, ?_⟩
  · intro j hj
    obtain ⟨hj1, _, _, heq, hjc, _⟩ := hloop j hj
    rw [heq]
    exact ⟨rfl, by simp only [getBlockPos]; rw [hjc, hcur]; omega⟩
  · obtain ⟨hj1, filej, bufj, heq, hjc, hjt, hjm, _, _⟩ := hloop m (le_refl m)
    have hstop := readNextBlock_refuses hj1 filej bufj
      (appendLoop m 0
        (some { fileName := path, totalNumPages := 1, curPagePos := 0,
                mgmtInfo := some { path := path, pos := 0 } })
        envs (createPageFile path e1 d).2).disk hjm
      (by rw [hjc, hcur]; omega) (by rw [hjc, hcur]; omega)
      (by rw [hjc, hcur, hjt]; push_cast; omega)
    have hrc : (readNextLoop m (some h1) buf
        (appendLoop m 0
          (some { fileName := path, totalNumPages := 1, curPagePos := 0,
                  mgmtInfo := some { path := path, pos := 0 } })
          envs (createPageFile path e1 d).2).disk).rc = RC_OK := by
      rw [heq]
    rw [readNextLoop_succ m _ _ _ hrc (by rw [heq]; simp only; rw [hstop]; exact fun hx => RC.noConfusion hx), heq]
    simp only
    rw [hstop]


/-- From position 524287 the step to page 524288 is refused on an open
handle that has such a page: the `int` product `524288 * PAGE_SIZE` wraps to
a negative offset. -/
theorem readNextBlock_wraps (h : SM_FileHandle) (file : FILE) (buf : List Byte) (d : Disk)
    (hm : h.mgmtInfo = some file) (hcur : h.curPagePos = 524287)
    (ht : 524288 < h.totalNumPages) :
    readNextBlock (some h) buf d = ⟨RC_READ_NON_EXISTING_PAGE, some h, buf, d⟩ := by
  have hn : toInt32 ((524287 : Int) + 1) = 524288 := by decide
  have hno : toInt32 (524288 * (PAGE_SIZE : Int)) = -2147483648 := by decide
  have hge : ¬ (524288 : Int) ≥ h.totalNumPages := by omega
  have hr : ¬ ((524288 : Int) < 0 ∨ (524288 : Int) ≥ h.totalNumPages) := by omega
  simp only [readNextBlock, hcur, hn, hge, if_false, readBlock, hm, hr, hno, fseekSet]
  simp

/-- The forward iteration on a file of 524289 pages, for every path: all calls
up to position 524287 return `RC_OK`, the step to page 524288 is refused. -/
theorem forward_iteration_at_limit (path : String) (d0 : Disk) :
    (createPageFile path okEnv d0).1 = RC_OK ∧
    (openPageFile path blankHandle okEnv (createPageFile path okEnv d0).2).rc = RC_OK ∧
    (appendLoop 524288 0
      (openPageFile path blankHandle okEnv (createPageFile path okEnv d0).2).fHandle
      (fun _ => okEnv)
      (openPageFile path blankHandle okEnv (createPageFile path okEnv d0).2).disk).rc = RC_OK ∧
    counters (appendLoop 524288 0
      (openPageFile path blankHandle okEnv (createPageFile path okEnv d0).2).fHandle
      (fun _ => okEnv)
      (openPageFile path blankHandle okEnv (createPageFile path okEnv d0).2).disk).fHandle = some (524289, 0) ∧
    (readNextLoop 524287 (appendLoop 524288 0
      (openPageFile path blankHandle okEnv (createPageFile path okEnv d0).2).fHandle
      (fun _ => okEnv)
      (openPageFile path blankHandle okEnv (createPageFile path okEnv d0).2).disk).fHandle zeroPage
      (appendLoop 524288 0
      (openPageFile path blankHandle okEnv (createPageFile path okEnv d0).2).fHandle
      (fun _ => okEnv)
      (openPageFile path blankHandle okEnv (createPageFile path okEnv d0).2).disk).disk).rc = RC_OK ∧
    getBlockPos (readNextLoop 524287 (appendLoop 524288 0
      (openPageFile path blankHandle okEnv (createPageFile path okEnv d0).2).fHandle
      (fun _ => okEnv)
      (openPageFile path blankHandle okEnv (createPageFile path okEnv d0).2).disk).fHandle zeroPage
      (appendLoop 524288 0
      (openPageFile path blankHandle okEnv (createPageFile path okEnv d0).2).fHandle
      (fun _ => okEnv)
      (openPageFile path blankHandle okEnv (createPageFile path okEnv d0).2).disk).disk).fHandle = 524287 ∧
    (readNextLoop 524288 (appendLoop 524288 0
      (openPageFile path blankHandle okEnv (createPageFile path okEnv d0).2).fHandle
      (fun _ => okEnv)
      (openPageFile path blankHandle okEnv (createPageFile path okEnv d0).2).disk).fHandle zeroPage
      (appendLoop 524288 0
      (openPageFile path blankHandle okEnv (createPageFile path okEnv d0).2).fHandle
      (fun _ => okEnv)
      (openPageFile path blankHandle okEnv (createPageFile path okEnv d0).2).disk).disk).rc = RC_READ_NON_EXISTING_PAGE := by
  have hcreate := createPageFile_ok_of path okEnv d0 rfl rfl (by decide)
  have hd := createPageFile_ok_inv path okEnv d0 hcreate
  have hopen := openPageFile_ok_of path blankHandle okEnv _ _ rfl hd
  have hone : toInt32 (((List.replicate PAGE_SIZE (0 : Byte)).length : Int) / (PAGE_SIZE : Int))
      = 1 := by
    rw [List.length_replicate]
    decide
  rw [hone] at hopen
  obtain ⟨h1, file1, hrc, hfh, htot, hcur, hm1, hp1, hdisk⟩ :=
    appendLoop_ok_of (fun _ => okEnv) (fun _ => ⟨rfl, le_of_eq rfl⟩) 524288 0
      { fileName := path, totalNumPages := 1, curPagePos := 0,
        mgmtInfo := some { path := path, pos := 0 } }
      ⟨path, 0⟩ _ _ rfl hd (by simp only; omega) (by simp only; omega)
  simp only at htot hcur hp1 hdisk
  have hlen : (List.replicate PAGE_SIZE (0 : Byte)
      ++ List.replicate (PAGE_SIZE * 524288) 0).length = PAGE_SIZE * 524289 := by
    rw [List.length_append, List.length_replicate, List.length_replicate, PAGE_SIZE_eq]
  obtain ⟨hj, filej, bufj, heq, hjc, hjt, hjm, _, _⟩ :=
    readNextLoop_ok_of _ _ 524289 path hdisk hlen 524287 h1 file1 zeroPage hm1 hp1
      (by rw [htot]; decide) (by rw [hcur]; decide) (by rw [hcur]; decide)
      (by rw [hcur]; decide) zeroPage_length
  have hstop := readNextBlock_wraps hj filej bufj
    (appendLoop 524288 0
      (some { fileName := path, totalNumPages := 1, curPagePos := 0,
              mgmtInfo := some { path := path, pos := 0 } })
      (fun _ => okEnv) (createPageFile path okEnv d0).2).disk hjm
    (by rw [hjc, hcur]; decide) (by rw [hjt]; decide)
  have hsplit : (524288 : Nat) = 524287 + 1 := rfl
  rw [hopen]
  simp only
  rw [hfh]
  refine ⟨hcreate, trivial, hrc, ?_, ?_, ?_, ?_⟩
  · simp only [counters, Option.map_some', htot, hcur]
    decide
  · rw [heq]
  · rw [heq]
    simp only [getBlockPos]
    rw [hjc, hcur]
    decide
  · have hrc2 : (readNextLoop 524287 (some h1) zeroPage
        (appendLoop 524288 0
          (some { fileName := path, totalNumPages := 1, curPagePos := 0,
                  mgmtInfo := some { path := path, pos := 0 } })
          (fun _ => okEnv) (createPageFile path okEnv d0).2).disk).rc = RC_OK := by
      rw [heq]
    rw [hsplit, readNextLoop_succ 524287 _ _ _ hrc2
      (by rw [heq]; simp only; rw [hstop]; exact fun hx => RC.noConfusion hx), heq]
    simp only
    rw [hstop]

/-- The forward iteration at `m = 524288`: the file `f` is created
and opened and 524288 pages are appended, every call returning `RC_OK`; the
handle says 524289 pages at position 0; the first 524287 `readNextBlock`
calls return `RC_OK` and reach position 524287; the 524288th call, one of the
`m` calls that should succeed, returns `RC_READ_NON_EXISTING_PAGE`. -/
theorem forward_iteration_large_fails :
    (createPageFile "f" okEnv emptyDisk).1 = RC_OK ∧
    (openPageFile "f" blankHandle okEnv (createPageFile "f" okEnv emptyDisk).2).rc = RC_OK ∧
    (freshAfterAppends 524288).rc = RC_OK ∧
    counters (freshAfterAppends 524288).fHandle = some (524289, 0) ∧
    (readNextLoop 524287 (freshAfterAppends 524288).fHandle zeroPage
      (freshAfterAppends 524288).disk).rc = RC_OK ∧
    getBlockPos (readNextLoop 524287 (freshAfterAppends 524288).fHandle zeroPage
      (freshAfterAppends 524288).disk).fHandle = 524287 ∧
    (readNextLoop 524288 (freshAfterAppends 524288).fHandle zeroPage
      (freshAfterAppends 524288).disk).rc = RC_READ_NON_EXISTING_PAGE := by
  unfold freshAfterAppends
  exact forward_iteration_at_limit "f" emptyDisk


/-! ## The convenience reads -/

/-- C14 as stated fails: the handle that was opened on the empty file `e` and
closed again is not `NULL` and has `totalNumPages = 0`; on it `readLastBlock`
returns `RC_READ_NON_EXISTING_PAGE` while `readBlock(totalNumPages - 1)`
returns `RC_FILE_HANDLE_NOT_INIT`. -/
theorem readLastBlock_closed_empty_differs :
    (closePageFile (openPageFile "e" blankHandle okEnv emptyFileDisk).fHandle okEnv
      (openPageFile "e" blankHandle okEnv emptyFileDisk).disk).fHandle
      = some closedEmptyHandle ∧
    closedEmptyHandle.totalNumPages = 0 ∧
    (readLastBlock (some closedEmptyHandle) zeroPage emptyFileDisk).rc
      = RC_READ_NON_EXISTING_PAGE ∧
    (readBlock (closedEmptyHandle.totalNumPages - 1) (some closedEmptyHandle) zeroPage
      emptyFileDisk).rc = RC_FILE_HANDLE_NOT_INIT ∧
    (readLastBlock (some closedEmptyHandle) zeroPage emptyFileDisk).rc
      ≠ (readBlock (closedEmptyHandle.totalNumPages - 1) (some closedEmptyHandle) zeroPage
          emptyFileDisk).rc := by
  have hopen := openPageFile_ok_of "e" blankHandle okEnv emptyFileDisk [] rfl
    (store_same _ _ _)
  have hz : toInt32 ((([] : List Byte).length : Int) / (PAGE_SIZE : Int)) = 0 := by decide
  rw [hz] at hopen
  rw [hopen]
  refine ⟨?_, rfl, by decide, by decide, by decide⟩
  simp [closePageFile, okEnv, closedEmptyHandle]

/-- C14, amended: for every handle that is not `NULL`, in any state with
`0 <= totalNumPages`, and every buffer, `readFirstBlock` and
`readCurrentBlock` have the very outcome (code, handle, buffer, disk) of
`readBlock(0)` and `readBlock(curPagePos)`; `readLastBlock` has the very
outcome of `readBlock(totalNumPages - 1)` when the handle is open or
`totalNumPages >= 1`; on a closed handle with `totalNumPages = 0` it returns
`RC_READ_NON_EXISTING_PAGE` and changes nothing. -/
theorem convenience_reads_eq (h : SM_FileHandle) (buf : List Byte) (d : Disk)
    (h0 : 0 ≤ h.totalNumPages) (h1 : h.totalNumPages < 2147483648) :
    readFirstBlock (some h) buf d = readBlock 0 (some h) buf d ∧
    readCurrentBlock (some h) buf d = readBlock h.curPagePos (some h) buf d ∧
    ((h.mgmtInfo ≠ none ∨ 0 < h.totalNumPages) →
      readLastBlock (some h) buf d = readBlock (h.totalNumPages - 1) (some h) buf d) ∧
    (h.mgmtInfo = none → h.totalNumPages = 0 →
      readLastBlock (some h) buf d = ⟨RC_READ_NON_EXISTING_PAGE, some h, buf, d⟩) := by
  refine ⟨rfl, rfl, ?_, ?_⟩
  · intro hcase
    by_cases hpos : 0 < h.totalNumPages
    · exact readLastBlock_eq h buf d hpos (by omega)
    · have hzero : h.totalNumPages = 0 := by omega
      have hopen : h.mgmtInfo ≠ none := by
        cases hcase with
        | inl ho => exact ho
        | inr hp => exact absurd hp hpos
      obtain ⟨file, hm⟩ := Option.ne_none_iff_exists'.mp hopen
      have hl : ¬ 0 ≤ toInt32 (-1) := by decide
      rw [readBlock_out_of_range _ h file buf d hm (Or.inl (by omega))]
      simp [readLastBlock, hzero, hl]
  · intro _ hzero
    have hl : ¬ 0 ≤ toInt32 (-1) := by decide
    simp [readLastBlock, hzero, hl]

/-- C14, amended, at concrete inputs: the open handle on the one-page file
`f`, and the closed handle on the empty file `e`. -/
theorem convenience_reads_eq_witness :
    readFirstBlock (some demoHandle) sevenPage demoDisk
      = readBlock 0 (some demoHandle) sevenPage demoDisk ∧
    readCurrentBlock (some demoHandle) sevenPage demoDisk
      = readBlock demoHandle.curPagePos (some demoHandle) sevenPage demoDisk ∧
    readLastBlock (some demoHandle) sevenPage demoDisk
      = readBlock (demoHandle.totalNumPages - 1) (some demoHandle) sevenPage demoDisk ∧
    readLastBlock (some closedEmptyHandle) sevenPage emptyFileDisk
      = ⟨RC_READ_NON_EXISTING_PAGE, some closedEmptyHandle, sevenPage, emptyFileDisk⟩ :=
  ⟨(convenience_reads_eq demoHandle sevenPage demoDisk (by decide) (by decide)).1,
   (convenience_reads_eq demoHandle sevenPage demoDisk (by decide) (by decide)).2.1,
   (convenience_reads_eq demoHandle sevenPage demoDisk (by decide) (by decide)).2.2.1
      (Or.inr (by decide)),
   (convenience_reads_eq closedEmptyHandle sevenPage emptyFileDisk (by decide)
      (by decide)).2.2.2 rfl rfl⟩


/-! ## The flush of `writeBlock` -/

/-- C17, amended: on an open handle over an existing file, for an index in
range whose seek succeeded, when the `PAGE_SIZE` bytes are written but the
flush fails, `writeBlock(i, h, buf)` returns `RC_OK` and sets `curPagePos` to
`i`: the result of `fflush` is not looked at. -/
theorem writeBlock_flush_failure (i : Int) (h : SM_FileHandle) (file : FILE)
    (buf c : List Byte) (e : OsEnv) (d : Disk)
    (hm : h.mgmtInfo = some file) (hd : d file.path = some c)
    (h0 : 0 ≤ i) (h1 : i < h.totalNumPages) (ho : 0 ≤ toInt32 (i * (PAGE_SIZE : Int)))
    (hbuf : PAGE_SIZE ≤ buf.length) (he : PAGE_SIZE ≤ e.fwriteCount)
    (hflush : e.fflushOk = false) :
    e.fflushOk = false ∧
    (writeBlock i (some h) buf e d).rc = RC_OK ∧
    getBlockPos (writeBlock i (some h) buf e d).fHandle = i := by
  have hrc := writeBlock_ok_of i h file buf c e d hm hd h0 h1 ho hbuf he
  obtain ⟨h2, _, _, _, _, _, _, _, _, _, hres⟩ := writeBlock_ok_inv i (some h) buf e d hrc
  rw [hres]
  exact ⟨hflush, rfl, rfl⟩

/-- C17 as stated fails: on the two-page file `f` at position 0, page 1 is
written under an operating system whose `fflush` fails; `writeBlock` returns
`RC_OK`, not `RC_WRITE_FAILED`, and the position has moved from 0 to 1. -/
theorem writeBlock_flush_failure_unreported :
    noFlushEnv.fflushOk = false ∧
    getBlockPos (some twoPageHandle) = 0 ∧
    (writeBlock 1 (some twoPageHandle) sevenPage noFlushEnv twoPageDisk).rc = RC_OK ∧
    (writeBlock 1 (some twoPageHandle) sevenPage noFlushEnv twoPageDisk).rc
      ≠ RC_WRITE_FAILED ∧
    getBlockPos (writeBlock 1 (some twoPageHandle) sevenPage noFlushEnv twoPageDisk).fHandle
      = 1 := by
  have hrc := writeBlock_ok_of 1 twoPageHandle demoFile sevenPage (zeroPage ++ zeroPage)
    noFlushEnv twoPageDisk rfl (store_same _ _ _) (by decide) (by decide) (by decide)
    (le_of_eq sevenPage_length.symm) (by decide)
  obtain ⟨h2, _, _, _, _, _, _, _, _, _, hres⟩ :=
    writeBlock_ok_inv 1 (some twoPageHandle) sevenPage noFlushEnv twoPageDisk hrc
  rw [hres]
  exact ⟨rfl, rfl, rfl, fun hx => RC.noConfusion hx, rfl⟩

/-- C17, amended, at a concrete input: page 1 of the two-page file `f`, the
flush failing. -/
theorem writeBlock_flush_failure_witness :
    noFlushEnv.fflushOk = false ∧
    (writeBlock 1 (some twoPageHandle) sevenPage noFlushEnv twoPageDisk).rc = RC_OK ∧
    getBlockPos (writeBlock 1 (some twoPageHandle) sevenPage noFlushEnv twoPageDisk).fHandle
      = 1 :=
  writeBlock_flush_failure 1 twoPageHandle demoFile sevenPage (zeroPage ++ zeroPage)
    noFlushEnv twoPageDisk rfl (store_same _ _ _) (by decide) (by decide) (by decide)
    (le_of_eq sevenPage_length.symm) (by decide) rfl

/-! ## The byte offset of a page -/

/-- C18, evaluated at failing inputs.  Index 524288 passes the range check of
the handle on `big` (524289 pages) and the `int` product `524288 * PAGE_SIZE`
is -2147483648, not 2147483648.  Index 1048576 passes the range check of the
handle on `huge` (1048577 pages), the `int` product `1048576 * PAGE_SIZE` is
0, not 4294967296, and `readBlock(1048576)` returns `RC_OK` with the stream
left at byte `PAGE_SIZE`: it has read the bytes of page 0. -/
theorem page_offset_wraps :
    (0 ≤ (524288 : Int) ∧ (524288 : Int) < bigHandle.totalNumPages) ∧
    toInt32 (524288 * (PAGE_SIZE : Int)) = -2147483648 ∧
    toInt32 (524288 * (PAGE_SIZE : Int)) ≠ 524288 * 4096 ∧
    (0 ≤ (1048576 : Int) ∧ (1048576 : Int) < hugeHandle.totalNumPages) ∧
    toInt32 (1048576 * (PAGE_SIZE : Int)) = 0 ∧
    toInt32 (1048576 * (PAGE_SIZE : Int)) ≠ 1048576 * 4096 ∧
    readBlock 1048576 (some hugeHandle) zeroPage hugeDisk =
      ⟨RC_OK,
        some { hugeHandle with
          curPagePos := 1048576, mgmtInfo := some ⟨hugeFile.path, 0 + PAGE_SIZE⟩ },
        zeroPage, hugeDisk⟩ := by
  have ho : toInt32 (1048576 * (PAGE_SIZE : Int)) = 0 := by decide
  have hdata : ((List.replicate (PAGE_SIZE * 1048577) (0 : Byte)).drop
      (toInt32 (1048576 * (PAGE_SIZE : Int))).toNat).take PAGE_SIZE = zeroPage := by
    have hmin : min PAGE_SIZE (PAGE_SIZE * 1048577) = PAGE_SIZE := by decide
    rw [ho, Int.toNat_zero, List.drop_zero, List.take_replicate, hmin]
    rfl
  have hrd := readBlock_ok_of_data 1048576 hugeHandle hugeFile zeroPage hugeDisk
    (List.replicate (PAGE_SIZE * 1048577) 0) zeroPage rfl (store_same _ _ _) (by decide)
    (by decide) (by decide) hdata zeroPage_length
  rw [ho, Int.toNat_zero, fillBuffer_full _ _ (le_refl _)] at hrd
  exact ⟨by decide, by decide, by decide, by decide, by decide, by decide, hrd⟩


/-! ## What a write changes -/

theorem sevenPage_ne_zeroPage : sevenPage ≠ zeroPage := by
  intro hcontra
  have hh := congrArg List.head? hcontra
  have hp : PAGE_SIZE = (PAGE_SIZE - 1) + 1 := by decide
  unfold sevenPage zeroPage at hh
  rw [hp, List.replicate_succ, List.replicate_succ] at hh
  simp at hh

theorem overwrite_length (c data : List Byte) (pos : Nat)
    (hfit : pos + data.length ≤ c.length) : (overwrite c pos data).length = c.length := by
  unfold overwrite
  simp only [List.length_append, List.length_take, List.length_replicate, List.length_drop]
  omega

/-- C19, evaluated at a failing input: on the file `huge` of 1048577 zero
pages, index 1048576 is in range and `writeBlock(1048576)` of a page of
sevens returns `RC_OK`; afterwards the file has its old length, the bytes of
page 1048576 are still zero, and page 0, which read as zeros before, reads as
sevens: the write went to offset 0. -/
theorem writeBlock_large_index_hits_page_zero :
    hugeDisk hugeFile.path = some (List.replicate (PAGE_SIZE * 1048577) 0) ∧
    (0 ≤ (1048576 : Int) ∧ (1048576 : Int) < hugeHandle.totalNumPages) ∧
    (writeBlock 1048576 (some hugeHandle) sevenPage okEnv hugeDisk).rc = RC_OK ∧
    (∃ c1, (writeBlock 1048576 (some hugeHandle) sevenPage okEnv hugeDisk).disk hugeFile.path
        = some c1 ∧
      c1.length = PAGE_SIZE * 1048577 ∧
      (c1.drop (PAGE_SIZE * 1048576)).take PAGE_SIZE = zeroPage ∧
      c1.take PAGE_SIZE = sevenPage) ∧
    (readBlock 0 (some hugeHandle) zeroPage hugeDisk).memPage = zeroPage ∧
    (readBlock 0 (writeBlock 1048576 (some hugeHandle) sevenPage okEnv hugeDisk).fHandle
      zeroPage (writeBlock 1048576 (some hugeHandle) sevenPage okEnv hugeDisk).disk).memPage
      = sevenPage ∧
    sevenPage ≠ zeroPage := by
  have ho : toInt32 (1048576 * (PAGE_SIZE : Int)) = 0 := by decide
  have hz : toInt32 (0 * (PAGE_SIZE : Int)) = 0 := by decide
  have hrc := writeBlock_ok_of 1048576 hugeHandle hugeFile sevenPage
    (List.replicate (PAGE_SIZE * 1048577) 0) okEnv hugeDisk rfl (store_same _ _ _)
    (by decide) (by decide) (by decide) (le_of_eq sevenPage_length.symm) (by decide)
  obtain ⟨h2, file2, c2, hh, hm2, hd2, _, _, _, _, hres⟩ :=
    writeBlock_ok_inv 1048576 (some hugeHandle) sevenPage okEnv hugeDisk hrc
  have hh2 := (Option.some.inj hh).symm
  subst hh2
  have hfile : file2 = hugeFile := Option.some.inj hm2.symm
  subst hfile
  have hcc : c2 = List.replicate (PAGE_SIZE * 1048577) 0 :=
    Option.some.inj (hd2.symm.trans (store_same _ _ _))
  subst hcc
  have hdat : fwriteData sevenPage PAGE_SIZE okEnv = sevenPage := by
    rw [fwriteData_of_ok sevenPage okEnv (by decide),
      List.take_of_length_le (le_of_eq sevenPage_length)]
  rw [ho, Int.toNat_zero, hdat] at hres
  have hover : overwrite (List.replicate (PAGE_SIZE * 1048577) (0 : Byte)) 0 sevenPage
      = sevenPage ++ List.replicate (PAGE_SIZE * 1048576) 0 := by
    have hn : PAGE_SIZE * 1048577 - (0 + PAGE_SIZE) = PAGE_SIZE * 1048576 := by decide
    unfold overwrite
    rw [List.take_zero, Nat.zero_sub, List.replicate_zero, List.nil_append, List.nil_append,
      sevenPage_length, List.drop_replicate, hn]
  have hbefore : ((List.replicate (PAGE_SIZE * 1048577) (0 : Byte)).drop
      (toInt32 (0 * (PAGE_SIZE : Int))).toNat).take PAGE_SIZE = zeroPage := by
    have hmin : min PAGE_SIZE (PAGE_SIZE * 1048577) = PAGE_SIZE := by decide
    rw [hz, Int.toNat_zero, List.drop_zero, List.take_replicate, hmin]
    rfl
  have hrd0 := readBlock_ok_of_data 0 hugeHandle hugeFile zeroPage hugeDisk
    (List.replicate (PAGE_SIZE * 1048577) 0) zeroPage rfl (store_same _ _ _) (by decide)
    (by decide) (by decide) hbefore zeroPage_length
  have hafter : ((sevenPage ++ List.replicate (PAGE_SIZE * 1048576) (0 : Byte)).drop
      (toInt32 (0 * (PAGE_SIZE : Int))).toNat).take PAGE_SIZE = sevenPage := by
    rw [hz, Int.toNat_zero, List.drop_zero, List.take_left' sevenPage_length]
  rw [hres, hover]
  have hrd1 := readBlock_ok_of_data 0
    { hugeHandle with curPagePos := 1048576, mgmtInfo := some ⟨hugeFile.path, 0 + PAGE_SIZE⟩ }
    ⟨hugeFile.path, 0 + PAGE_SIZE⟩ zeroPage
    (hugeDisk.store hugeFile.path (sevenPage ++ List.replicate (PAGE_SIZE * 1048576) 0))
    (sevenPage ++ List.replicate (PAGE_SIZE * 1048576) 0) sevenPage rfl (store_same _ _ _)
    (by decide) (by decide) (by decide) hafter sevenPage_length
  refine ⟨store_same _ _ _, by decide, rfl,
    ⟨sevenPage ++ List.replicate (PAGE_SIZE * 1048576) 0,
      store_same hugeDisk hugeFile.path _, ?_, ?_, ?_⟩, ?_, ?_, sevenPage_ne_zeroPage⟩
  · rw [List.length_append, List.length_replicate, sevenPage_length, PAGE_SIZE_eq]
  · have hsplit : PAGE_SIZE * 1048576 = sevenPage.length + PAGE_SIZE * 1048575 := by
      rw [sevenPage_length, PAGE_SIZE_eq]
    have hn : PAGE_SIZE * 1048576 - PAGE_SIZE * 1048575 = PAGE_SIZE := by decide
    have hmin : min PAGE_SIZE PAGE_SIZE = PAGE_SIZE := Nat.min_self _
    nth_rewrite 1 [hsplit]
    rw [List.drop_append, List.drop_replicate, hn, List.take_replicate, hmin]
    rfl
  · exact List.take_left' sevenPage_length
  · rw [hrd0]
    exact fillBuffer_full _ _ (le_refl _)
  · simp only [hrd1]
    exact fillBuffer_full _ _ (by rw [zeroPage_length, sevenPage_length])


/-! ## `writeCurrentBlock` -/

/-- A read at the index of a write that returned `RC_OK` returns `RC_OK` and
the written page, and keeps the position at that index. -/
theorem readBlock_after_writeBlock (i : Int) (fHandle : Option SM_FileHandle)
    (buf buf2 : List Byte) (e : OsEnv) (d : Disk)
    (hbuf : buf.length = PAGE_SIZE) (hbuf2 : buf2.length = PAGE_SIZE)
    (hw : (writeBlock i fHandle buf e d).rc = RC_OK) :
    getBlockPos (writeBlock i fHandle buf e d).fHandle = i ∧
    (readBlock i (writeBlock i fHandle buf e d).fHandle buf2
        (writeBlock i fHandle buf e d).disk).rc = RC_OK ∧
    (readBlock i (writeBlock i fHandle buf e d).fHandle buf2
        (writeBlock i fHandle buf e d).disk).memPage = buf := by
  obtain ⟨h, file, c, rfl, hm, hd, h0, h1, ho, hl, heq⟩ :=
    writeBlock_ok_inv i fHandle buf e d hw
  have hdat : fwriteData buf PAGE_SIZE e = buf := by
    rw [fwriteData_full buf e hl, List.take_of_length_le (le_of_eq hbuf)]
  rw [heq, hdat]
  have hrd := readBlock_ok_of_data i
    { h with
      curPagePos := i,
      mgmtInfo := some ⟨file.path, (toInt32 (i * (PAGE_SIZE : Int))).toNat + PAGE_SIZE⟩ }
    ⟨file.path, (toInt32 (i * (PAGE_SIZE : Int))).toNat + PAGE_SIZE⟩ buf2
    (d.store file.path (overwrite c (toInt32 (i * (PAGE_SIZE : Int))).toNat buf))
    (overwrite c (toInt32 (i * (PAGE_SIZE : Int))).toNat buf) buf rfl (store_same _ _ _)
    h0 h1 ho (by rw [← hbuf]; exact drop_take_overwrite _ _ _) hbuf
  simp only [hrd]
  exact ⟨rfl, trivial, fillBuffer_full _ _ (by omega)⟩

/-- C20: on a handle that is not `NULL`, `writeCurrentBlock(h, buf)` has the
very outcome (code, handle, buffer, disk) of `writeBlock(curPagePos, h, buf)`;
when it returns `RC_OK` for a page-sized buffer, `curPagePos` is what it was
and the `readCurrentBlock` that follows returns `RC_OK` and the bytes of
`buf`. -/
theorem writeCurrentBlock_spec (h : SM_FileHandle) (buf buf2 : List Byte) (e : OsEnv)
    (d : Disk) :
    writeCurrentBlock (some h) buf e d = writeBlock h.curPagePos (some h) buf e d ∧
    ((writeCurrentBlock (some h) buf e d).rc = RC_OK →
      buf.length = PAGE_SIZE → buf2.length = PAGE_SIZE →
      getBlockPos (writeCurrentBlock (some h) buf e d).fHandle = h.curPagePos ∧
      (readCurrentBlock (writeCurrentBlock (some h) buf e d).fHandle buf2
        (writeCurrentBlock (some h) buf e d).disk).rc = RC_OK ∧
      (readCurrentBlock (writeCurrentBlock (some h) buf e d).fHandle buf2
        (writeCurrentBlock (some h) buf e d).disk).memPage = buf) := by
  have hdef : writeCurrentBlock (some h) buf e d = writeBlock h.curPagePos (some h) buf e d :=
    rfl
  refine ⟨hdef, ?_⟩
  rw [hdef]
  intro hw hbuf hbuf2
  obtain ⟨hpos, hrc, hpage⟩ :=
    readBlock_after_writeBlock h.curPagePos (some h) buf buf2 e d hbuf hbuf2 hw
  obtain ⟨h2, _, _, _, _, _, _, _, _, _, hres⟩ :=
    writeBlock_ok_inv h.curPagePos (some h) buf e d hw
  have hcur : readCurrentBlock (writeBlock h.curPagePos (some h) buf e d).fHandle buf2
      (writeBlock h.curPagePos (some h) buf e d).disk
      = readBlock h.curPagePos (writeBlock h.curPagePos (some h) buf e d).fHandle buf2
          (writeBlock h.curPagePos (some h) buf e d).disk := by
    rw [hres]
    rfl
  rw [hcur]
  exact ⟨hpos, hrc, hpage⟩

/-- C20 at a concrete input: the current page 0 of the one-page file `f` is
overwritten with sevens and read back. -/
theorem writeCurrentBlock_spec_witness :
    writeCurrentBlock (some demoHandle) sevenPage okEnv demoDisk
      = writeBlock demoHandle.curPagePos (some demoHandle) sevenPage okEnv demoDisk ∧
    getBlockPos (writeCurrentBlock (some demoHandle) sevenPage okEnv demoDisk).fHandle
      = demoHandle.curPagePos ∧
    (readCurrentBlock (writeCurrentBlock (some demoHandle) sevenPage okEnv demoDisk).fHandle
      zeroPage (writeCurrentBlock (some demoHandle) sevenPage okEnv demoDisk).disk).rc
      = RC_OK ∧
    (readCurrentBlock (writeCurrentBlock (some demoHandle) sevenPage okEnv demoDisk).fHandle
      zeroPage (writeCurrentBlock (some demoHandle) sevenPage okEnv demoDisk).disk).memPage
      = sevenPage :=
  ⟨(writeCurrentBlock_spec demoHandle sevenPage zeroPage okEnv demoDisk).1,
   (writeCurrentBlock_spec demoHandle sevenPage zeroPage okEnv demoDisk).2
      (writeBlock_ok_of 0 demoHandle demoFile sevenPage zeroPage okEnv demoDisk rfl
        (store_same _ _ _) (by decide) (by decide) (by decide)
        (le_of_eq sevenPage_length.symm) (by decide))
      sevenPage_length zeroPage_length⟩


/-! ## The bookkeeping along a sequence of calls -/

theorem posInv_congr (fHandle fHandle1 : Option SM_FileHandle)
    (hc : counters fHandle1 = counters fHandle) (hp : PosInv fHandle) : PosInv fHandle1 := by
  obtain ⟨h, rfl, h0, h1⟩ := hp
  cases fHandle1 with
  | none => simp [counters] at hc
  | some h2 =>
    simp only [counters, Option.map_some', Option.some.injEq, Prod.mk.injEq] at hc
    exact ⟨h2, rfl, by omega, by omega⟩

theorem pageCount_congr (fHandle fHandle1 : Option SM_FileHandle)
    (hc : counters fHandle1 = counters fHandle) : pageCount fHandle1 = pageCount fHandle := by
  cases fHandle with
  | none =>
    cases fHandle1 with
    | none => rfl
    | some h2 => simp [counters] at hc
  | some h =>
    cases fHandle1 with
    | none => simp [counters] at hc
    | some h2 =>
      simp only [counters, Option.map_some', Option.some.injEq, Prod.mk.injEq] at hc
      simp only [pageCount]
      exact hc.1

/-- A `readBlock` that returns `RC_OK` leaves the position at its index, which
is a page index, and the page count as it was. -/
theorem readBlock_ok_counters (i : Int) (fHandle : Option SM_FileHandle) (buf : List Byte)
    (d : Disk) (hrc : (readBlock i fHandle buf d).rc = RC_OK) :
    ∃ h h1, fHandle = some h ∧ (readBlock i fHandle buf d).fHandle = some h1 ∧
      h1.curPagePos = i ∧ h1.totalNumPages = h.totalNumPages ∧
      0 ≤ i ∧ i < h.totalNumPages := by
  cases fHandle with
  | none => simp [readBlock] at hrc
  | some h =>
    cases hm : h.mgmtInfo with
    | none => simp [readBlock, hm] at hrc
    | some file =>
      by_cases hr : i < 0 ∨ i ≥ h.totalNumPages
      · simp [readBlock, hm, hr] at hrc
      · by_cases ho : toInt32 (i * (PAGE_SIZE : Int)) < 0
        · simp [readBlock, hm, hr, fseekSet, ho] at hrc
        · by_cases hl : (freadData PAGE_SIZE
              ⟨file.path, (toInt32 (i * (PAGE_SIZE : Int))).toNat⟩ d).length = PAGE_SIZE
          · have hres : readBlock i (some h) buf d =
                ⟨RC_OK,
                  some { h with
                    curPagePos := i,
                    mgmtInfo := some (advance
                      ⟨file.path, (toInt32 (i * (PAGE_SIZE : Int))).toNat⟩ PAGE_SIZE) },
                  fillBuffer buf (freadData PAGE_SIZE
                    ⟨file.path, (toInt32 (i * (PAGE_SIZE : Int))).toNat⟩ d), d⟩ := by
              simp [readBlock, hm, hr, fseekSet, ho, hl]
            rw [hres]
            exact ⟨h, _, rfl, rfl, rfl, rfl, by omega, by omega⟩
          · simp [readBlock, hm, hr, fseekSet, ho, hl] at hrc

/-- A `writeBlock` that returns `RC_OK` leaves the position at its index,
which is a page index, and the page count as it was. -/
theorem writeBlock_ok_counters (i : Int) (fHandle : Option SM_FileHandle) (buf : List Byte)
    (e : OsEnv) (d : Disk) (hrc : (writeBlock i fHandle buf e d).rc = RC_OK) :
    ∃ h h1, fHandle = some h ∧ (writeBlock i fHandle buf e d).fHandle = some h1 ∧
      h1.curPagePos = i ∧ h1.totalNumPages = h.totalNumPages ∧
      0 ≤ i ∧ i < h.totalNumPages := by
  obtain ⟨h, file, c, hh, _, _, h0, h1, _, _, hres⟩ := writeBlock_ok_inv i fHandle buf e d hrc
  rw [hres]
  exact ⟨h, _, hh, rfl, rfl, rfl, h0, h1⟩

/-- Whatever its code, a `readBlock` establishes or keeps the position
invariant and keeps the page count. -/
theorem readBlock_pos (i : Int) (fHandle : Option SM_FileHandle) (buf : List Byte)
    (d : Disk) :
    ((readBlock i fHandle buf d).rc = RC_OK → PosInv (readBlock i fHandle buf d).fHandle) ∧
    (PosInv fHandle → PosInv (readBlock i fHandle buf d).fHandle) ∧
    pageCount (readBlock i fHandle buf d).fHandle = pageCount fHandle := by
  by_cases hrc : (readBlock i fHandle buf d).rc = RC_OK
  · obtain ⟨h, h1, hh, hfh, hcur, htot, h0, hlt⟩ := readBlock_ok_counters i fHandle buf d hrc
    have hp : PosInv (readBlock i fHandle buf d).fHandle :=
      ⟨h1, hfh, by omega, by omega⟩
    refine ⟨fun _ => hp, fun _ => hp, ?_⟩
    rw [hfh, hh]
    exact htot
  · have hc := readBlock_fail_counters i fHandle buf d hrc
    exact ⟨fun hx => absurd hx hrc, posInv_congr _ _ hc, pageCount_congr _ _ hc⟩

/-- Whatever its code, a `writeBlock` establishes or keeps the position
invariant and keeps the page count. -/
theorem writeBlock_pos (i : Int) (fHandle : Option SM_FileHandle) (buf : List Byte)
    (e : OsEnv) (d : Disk) :
    ((writeBlock i fHandle buf e d).rc = RC_OK →
      PosInv (writeBlock i fHandle buf e d).fHandle) ∧
    (PosInv fHandle → PosInv (writeBlock i fHandle buf e d).fHandle) ∧
    pageCount (writeBlock i fHandle buf e d).fHandle = pageCount fHandle := by
  by_cases hrc : (writeBlock i fHandle buf e d).rc = RC_OK
  · obtain ⟨h, h1, hh, hfh, hcur, htot, h0, hlt⟩ :=
      writeBlock_ok_counters i fHandle buf e d hrc
    have hp : PosInv (writeBlock i fHandle buf e d).fHandle :=
      ⟨h1, hfh, by omega, by omega⟩
    refine ⟨fun _ => hp, fun _ => hp, ?_⟩
    rw [hfh, hh]
    exact htot
  · have hc := writeBlock_fail_counters i fHandle buf e d hrc
    exact ⟨fun hx => absurd hx hrc, posInv_congr _ _ hc, pageCount_congr _ _ hc⟩

/-- A page outcome that refuses without touching the handle. -/
theorem refusal_pos (code : RC) (hne : code ≠ RC_OK) (fHandle : Option SM_FileHandle)
    (buf : List Byte) (d : Disk) :
    ((PageOutcome.mk code fHandle buf d).rc = RC_OK →
      PosInv (PageOutcome.mk code fHandle buf d).fHandle) ∧
    (PosInv fHandle → PosInv (PageOutcome.mk code fHandle buf d).fHandle) ∧
    pageCount (PageOutcome.mk code fHandle buf d).fHandle = pageCount fHandle :=
  ⟨fun hx => absurd hx hne, fun hp => hp, rfl⟩

/-- Every positioned call establishes the position invariant when it returns
`RC_OK`, keeps it whatever it returns, and keeps the page count. -/
theorem positioned_call_pos (op : Op) (hpos : op.positioned)
    (fHandle : Option SM_FileHandle) (d : Disk) :
    ((op.call fHandle d).rc = RC_OK → PosInv (op.call fHandle d).fHandle) ∧
    (PosInv fHandle → PosInv (op.call fHandle d).fHandle) ∧
    pageCount (op.call fHandle d).fHandle = pageCount fHandle := by
  have hne1 : RC_FILE_HANDLE_NOT_INIT ≠ RC_OK := fun hx => RC.noConfusion hx
  have hne2 : RC_READ_NON_EXISTING_PAGE ≠ RC_OK := fun hx => RC.noConfusion hx
  cases op with
  | readBlock i buf => exact readBlock_pos i fHandle buf d
  | readFirstBlock buf => exact readBlock_pos 0 fHandle buf d
  | readPreviousBlock buf =>
    cases fHandle with
    | none => exact refusal_pos _ hne1 none buf d
    | some h =>
      by_cases hlt : toInt32 (h.curPagePos - 1) < 0
      · have hres : readPreviousBlock (some h) buf d
            = ⟨RC_READ_NON_EXISTING_PAGE, some h, buf, d⟩ := by
          simp [readPreviousBlock, hlt]
        have key := refusal_pos RC_READ_NON_EXISTING_PAGE hne2 (some h) buf d
        rw [← hres] at key
        exact key
      · have hres : readPreviousBlock (some h) buf d
            = readBlock (toInt32 (h.curPagePos - 1)) (some h) buf d := by
          simp [readPreviousBlock, hlt]
        have key := readBlock_pos (toInt32 (h.curPagePos - 1)) (some h) buf d
        rw [← hres] at key
        exact key
  | readCurrentBlock buf =>
    cases fHandle with
    | none => exact refusal_pos _ hne1 none buf d
    | some h => exact readBlock_pos h.curPagePos (some h) buf d
  | readNextBlock buf =>
    cases fHandle with
    | none => exact refusal_pos _ hne1 none buf d
    | some h =>
      by_cases hge : toInt32 (h.curPagePos + 1) ≥ h.totalNumPages
      · have hres : readNextBlock (some h) buf d
            = ⟨RC_READ_NON_EXISTING_PAGE, some h, buf, d⟩ := by
          simp [readNextBlock, hge]
        have key := refusal_pos RC_READ_NON_EXISTING_PAGE hne2 (some h) buf d
        rw [← hres] at key
        exact key
      · have hres : readNextBlock (some h) buf d
            = readBlock (toInt32 (h.curPagePos + 1)) (some h) buf d := by
          simp [readNextBlock, hge]
        have key := readBlock_pos (toInt32 (h.curPagePos + 1)) (some h) buf d
        rw [← hres] at key
        exact key
  | readLastBlock buf =>
    cases fHandle with
    | none => exact refusal_pos _ hne1 none buf d
    | some h =>
      by_cases hlt : toInt32 (h.totalNumPages - 1) < 0
      · have hres : readLastBlock (some h) buf d
            = ⟨RC_READ_NON_EXISTING_PAGE, some h, buf, d⟩ := by
          simp [readLastBlock, hlt]
        have key := refusal_pos RC_READ_NON_EXISTING_PAGE hne2 (some h) buf d
        rw [← hres] at key
        exact key
      · have hres : readLastBlock (some h) buf d
            = readBlock (toInt32 (h.totalNumPages - 1)) (some h) buf d := by
          simp [readLastBlock, hlt]
        have key := readBlock_pos (toInt32 (h.totalNumPages - 1)) (some h) buf d
        rw [← hres] at key
        exact key
  | writeBlock i buf e => exact writeBlock_pos i fHandle buf e d
  | writeCurrentBlock buf e =>
    cases fHandle with
    | none => exact refusal_pos _ hne1 none buf d
    | some h => exact writeBlock_pos h.curPagePos (some h) buf e d
  | appendEmptyBlock e => exact absurd hpos (by simp [Op.positioned])
  | ensureCapacity n envs => exact absurd hpos (by simp [Op.positioned])
  | closePageFile e => exact absurd hpos (by simp [Op.positioned])


theorem pageBound_cons (op : Op) (ops : List Op) (t : Int) :
    pageBound (op :: ops) t = pageBound ops (pageBound [op] t) := by
  cases op <;> rfl

theorem pageBound_mono (ops : List Op) :
    ∀ (t t1 : Int), t ≤ t1 → pageBound ops t ≤ pageBound ops t1 := by
  induction ops with
  | nil => intro t t1 h; exact h
  | cons op ops ih =>
    intro t t1 h
    cases op <;> simp only [pageBound] <;> apply ih <;> omega

theorem pageBound_ge (ops : List Op) : ∀ (t : Int), t ≤ pageBound ops t := by
  induction ops with
  | nil => intro t; exact le_refl t
  | cons op ops ih =>
    intro t
    cases op <;> simp only [pageBound]
    all_goals first
      | exact ih t
      | exact le_trans (by omega) (ih _)

/-- An `appendEmptyBlock` on a handle whose page count cannot wrap keeps the
position invariant and adds at most one page. -/
theorem appendEmptyBlock_pos (fHandle : Option SM_FileHandle) (e : OsEnv) (d : Disk)
    (hp : PosInv fHandle) (hb : pageCount fHandle + 1 < 2147483648) :
    PosInv (appendEmptyBlock fHandle e d).fHandle ∧
    pageCount fHandle ≤ pageCount (appendEmptyBlock fHandle e d).fHandle ∧
    pageCount (appendEmptyBlock fHandle e d).fHandle ≤ pageCount fHandle + 1 := by
  by_cases hrc : (appendEmptyBlock fHandle e d).rc = RC_OK
  · obtain ⟨h, file, c, hh, _, _, hres⟩ := appendEmptyBlock_ok_inv fHandle e d hrc
    obtain ⟨h2, hh2, h0, h1⟩ := hp
    have heq : h2 = h := Option.some.inj (hh2.symm.trans hh)
    subst heq
    rw [hh] at hb
    simp only [pageCount] at hb
    have hinc : toInt32 (h2.totalNumPages + 1) = h2.totalNumPages + 1 :=
      toInt32_of_range _ (by omega) (by omega)
    rw [hres, hinc, hh]
    simp only [pageCount]
    exact ⟨⟨_, rfl, h0, by simp only; omega⟩, by omega, by omega⟩
  · have hc := appendEmptyBlock_fail_counters fHandle e d hrc
    have hpc := pageCount_congr _ _ hc
    exact ⟨posInv_congr _ _ hc hp, by omega, by omega⟩

/-- The loop of `ensureCapacity` on a handle whose page count cannot wrap
keeps the position invariant and adds at most its number of iterations. -/
theorem appendLoop_pos (envs : Nat → OsEnv) (k : Nat) :
    ∀ (i : Nat) (fHandle : Option SM_FileHandle) (d : Disk),
      PosInv fHandle → pageCount fHandle + (k : Int) < 2147483648 →
      PosInv (appendLoop k i fHandle envs d).fHandle ∧
      pageCount fHandle ≤ pageCount (appendLoop k i fHandle envs d).fHandle ∧
      pageCount (appendLoop k i fHandle envs d).fHandle ≤ pageCount fHandle + (k : Int) := by
  induction k with
  | zero =>
    intro i fHandle d hp _
    exact ⟨hp, le_refl _, by simp [appendLoop]⟩
  | succ k ih =>
    intro i fHandle d hp hb
    push_cast at hb
    obtain ⟨hp1, hlo, hhi⟩ := appendEmptyBlock_pos fHandle (envs i) d hp (by omega)
    rw [appendLoop]
    by_cases hstep : (appendEmptyBlock fHandle (envs i) d).rc = RC_OK
    · simp only [hstep, ne_eq, not_true_eq_false, if_false]
      obtain ⟨hp2, hlo2, hhi2⟩ := ih (i + 1) _ (appendEmptyBlock fHandle (envs i) d).disk hp1
        (by omega)
      exact ⟨hp2, by omega, by push_cast; omega⟩
    · simp only [hstep, ne_eq, not_false_eq_true, if_true]
      exact ⟨hp1, hlo, by push_cast; omega⟩

/-- `ensureCapacity(n)` keeps the position invariant, never takes pages away
and leaves at most `max(totalNumPages, n)` pages. -/
theorem ensureCapacity_pos (n : Int) (fHandle : Option SM_FileHandle) (envs : Nat → OsEnv)
    (d : Disk) (hp : PosInv fHandle) (hn1 : n < 2147483648) :
    PosInv (ensureCapacity n fHandle envs d).fHandle ∧
    pageCount fHandle ≤ pageCount (ensureCapacity n fHandle envs d).fHandle ∧
    pageCount (ensureCapacity n fHandle envs d).fHandle ≤ max (pageCount fHandle) n := by
  obtain ⟨h, rfl, h0, h1⟩ := hp
  have hpinv : PosInv (some h) := ⟨h, rfl, h0, h1⟩
  cases hm : h.mgmtInfo with
  | none =>
    have hres : ensureCapacity n (some h) envs d = ⟨RC_FILE_HANDLE_NOT_INIT, some h, d⟩ := by
      simp [ensureCapacity, hm]
    rw [hres]
    exact ⟨hpinv, le_refl _, le_max_left _ _⟩
  | some file =>
    by_cases hge : h.totalNumPages ≥ n
    · have hres : ensureCapacity n (some h) envs d = ⟨RC_OK, some h, d⟩ := by
        simp [ensureCapacity, hm, hge]
      rw [hres]
      exact ⟨hpinv, le_refl _, le_max_left _ _⟩
    · have hadd : toInt32 (n - h.totalNumPages) = n - h.totalNumPages :=
        toInt32_of_range _ (by omega) (by omega)
      have hres : ensureCapacity n (some h) envs d
          = appendLoop (n - h.totalNumPages).toNat 0 (some h) envs d := by
        simp [ensureCapacity, hm, hge, hadd]
      obtain ⟨hp2, hlo2, hhi2⟩ := appendLoop_pos envs (n - h.totalNumPages).toNat 0 (some h) d
        hpinv (by simp only [pageCount]; omega)
      rw [hres]
      simp only [pageCount] at hlo2 hhi2 ⊢
      exact ⟨hp2, hlo2, by rw [max_eq_right (by omega)]; omega⟩

theorem closePageFile_counters (fHandle : Option SM_FileHandle) (e : OsEnv) (d : Disk) :
    counters (closePageFile fHandle e d).fHandle = counters fHandle := by
  cases fHandle with
  | none => rfl
  | some h =>
    cases hm : h.mgmtInfo with
    | none => simp [closePageFile, hm]
    | some file =>
      by_cases hc : e.fcloseOk = false
      · simp [closePageFile, hm, hc]
      · simp [closePageFile, hm, hc, counters]

/-- One call of any kind keeps the position invariant when the page count
cannot wrap, never takes pages away and stays within the page bound. -/
theorem call_pos (op : Op) (fHandle : Option SM_FileHandle) (d : Disk)
    (hp : PosInv fHandle) (ht : op.typed)
    (hb : pageBound [op] (pageCount fHandle) < 2147483648) :
    PosInv (op.call fHandle d).fHandle ∧
    pageCount fHandle ≤ pageCount (op.call fHandle d).fHandle ∧
    pageCount (op.call fHandle d).fHandle ≤ pageBound [op] (pageCount fHandle) := by
  by_cases hpos : op.positioned
  · obtain ⟨_, hkeep, hcount⟩ := positioned_call_pos op hpos fHandle d
    have hbound : pageBound [op] (pageCount fHandle) = pageCount fHandle := by
      cases op <;> first | rfl | exact absurd hpos (by simp [Op.positioned])
    rw [hbound, hcount]
    exact ⟨hkeep hp, le_refl _, le_refl _⟩
  · cases op with
    | appendEmptyBlock e =>
      exact appendEmptyBlock_pos fHandle e d hp hb
    | ensureCapacity n envs =>
      exact ensureCapacity_pos n fHandle envs d hp ht.2
    | closePageFile e =>
      have hc := closePageFile_counters fHandle e d
      have hpc := pageCount_congr _ _ hc
      refine ⟨posInv_congr _ _ hc hp, ?_, ?_⟩
      · exact le_of_eq hpc.symm
      · exact le_of_eq hpc
    | _ => exact absurd (by simp [Op.positioned]) hpos

/-- A sequence of calls whose appends and capacity requests cannot take the
page count beyond the largest `int` keeps the position invariant and never
takes pages away. -/
theorem run_pos (ops : List Op) :
    ∀ (s : Outcome), PosInv s.fHandle → (∀ o ∈ ops, o.typed) →
      pageBound ops (pageCount s.fHandle) < 2147483648 →
      PosInv (run ops s).fHandle ∧ pageCount s.fHandle ≤ pageCount (run ops s).fHandle := by
  induction ops with
  | nil => intro s hp _ _; exact ⟨hp, le_refl _⟩
  | cons op ops ih =>
    intro s hp ht hb
    rw [pageBound_cons] at hb
    have hb1 : pageBound [op] (pageCount s.fHandle) < 2147483648 :=
      lt_of_le_of_lt (pageBound_ge ops _) hb
    obtain ⟨hp1, hlo, hhi⟩ := call_pos op s.fHandle s.disk hp
      (ht op (List.mem_cons_self _ _)) hb1
    obtain ⟨hp2, hlo2⟩ := ih (op.call s.fHandle s.disk) hp1
      (fun o ho => ht o (List.mem_cons_of_mem _ ho))
      (lt_of_le_of_lt (pageBound_mono ops _ _ hhi) hb)
    exact ⟨hp2, le_trans hlo hlo2⟩


/-! ## The position invariant -/

/-- C16 as stated fails: the handle on the file `max` of 2147483647 pages
reads page 0 with `RC_OK`, after which `0 <= curPagePos <= totalNumPages - 1`
holds; the `appendEmptyBlock` that follows returns `RC_OK` and leaves
`totalNumPages = -2147483648`: the page count has decreased and the position
0 is above `totalNumPages - 1`. -/
theorem position_invariant_breaks_at_int_max :
    (readBlock 0 (some maxHandle) zeroPage maxDisk).rc = RC_OK ∧
    PosInv (readBlock 0 (some maxHandle) zeroPage maxDisk).fHandle ∧
    pageCount (readBlock 0 (some maxHandle) zeroPage maxDisk).fHandle = 2147483647 ∧
    (appendEmptyBlock (readBlock 0 (some maxHandle) zeroPage maxDisk).fHandle okEnv
      (readBlock 0 (some maxHandle) zeroPage maxDisk).disk).rc = RC_OK ∧
    counters (appendEmptyBlock (readBlock 0 (some maxHandle) zeroPage maxDisk).fHandle okEnv
      (readBlock 0 (some maxHandle) zeroPage maxDisk).disk).fHandle
      = some (-2147483648, 0) ∧
    ¬ PosInv (appendEmptyBlock (readBlock 0 (some maxHandle) zeroPage maxDisk).fHandle okEnv
      (readBlock 0 (some maxHandle) zeroPage maxDisk).disk).fHandle := by
  have hz : toInt32 (0 * (PAGE_SIZE : Int)) = 0 := by decide
  have hdata : ((List.replicate (PAGE_SIZE * 2147483647) (0 : Byte)).drop
      (toInt32 (0 * (PAGE_SIZE : Int))).toNat).take PAGE_SIZE = zeroPage := by
    have hmin : min PAGE_SIZE (PAGE_SIZE * 2147483647) = PAGE_SIZE := by decide
    rw [hz, Int.toNat_zero, List.drop_zero, List.take_replicate, hmin]
    rfl
  have hrd := readBlock_ok_of_data 0 maxHandle maxFile zeroPage maxDisk
    (List.replicate (PAGE_SIZE * 2147483647) 0) zeroPage rfl (store_same _ _ _) (by decide)
    (by decide) (by decide) hdata zeroPage_length
  have happ := appendEmptyBlock_ok_of
    { maxHandle with
      curPagePos := 0,
      mgmtInfo := some ⟨maxFile.path, (toInt32 (0 * (PAGE_SIZE : Int))).toNat + PAGE_SIZE⟩ }
    ⟨maxFile.path, (toInt32 (0 * (PAGE_SIZE : Int))).toNat + PAGE_SIZE⟩
    (List.replicate (PAGE_SIZE * 2147483647) 0) okEnv maxDisk rfl (store_same _ _ _) rfl
    (by decide)
  have hwrap : toInt32 ((2147483647 : Int) + 1) = -2147483648 := by decide
  rw [hrd]
  simp only
  rw [happ]
  refine ⟨trivial, ⟨_, rfl, by decide, by decide⟩, rfl, rfl, ?_, ?_⟩
  · simp only [counters, Option.map_some', maxHandle, hwrap]
  · rintro ⟨h, hh, h0, h1⟩
    have hh2 := (Option.some.inj hh).symm
    subst hh2
    simp only [maxHandle, hwrap] at h0 h1
    omega

/-- C16, amended: once a `readBlock` or `writeBlock`, made directly or
through a relative or current operation, has returned `RC_OK`,
`0 <= curPagePos <= totalNumPages - 1` holds, and it holds after every later
sequence of reads, writes, appends, `ensureCapacity` and `closePageFile`
calls, successful or failed, whose appends and capacity requests cannot take
the page count beyond 2147483647; along such a sequence `totalNumPages` does
not decrease. -/
theorem position_invariant (op : Op) (ops : List Op) (fHandle : Option SM_FileHandle)
    (d : Disk) (hpos : op.positioned) (hrc : (op.call fHandle d).rc = RC_OK)
    (htyped : ∀ o ∈ ops, o.typed)
    (hbound : pageBound ops (pageCount (op.call fHandle d).fHandle) < 2147483648) :
    PosInv (op.call fHandle d).fHandle ∧
    PosInv (run ops (op.call fHandle d)).fHandle ∧
    pageCount (op.call fHandle d).fHandle ≤ pageCount (run ops (op.call fHandle d)).fHandle := by
  have hp := (positioned_call_pos op hpos fHandle d).1 hrc
  obtain ⟨hp2, hmono⟩ := run_pos ops (op.call fHandle d) hp htyped hbound
  exact ⟨hp, hp2, hmono⟩

theorem toOutcome_rc (r : PageOutcome) : r.toOutcome.rc = r.rc := rfl

theorem toOutcome_fHandle (r : PageOutcome) : r.toOutcome.fHandle = r.fHandle := rfl

theorem toOutcome_disk (r : PageOutcome) : r.toOutcome.disk = r.disk := rfl

theorem call_readBlock (i : Int) (buf : List Byte) (fHandle : Option SM_FileHandle)
    (d : Disk) :
    (Op.readBlock i buf).call fHandle d = (readBlock i fHandle buf d).toOutcome := rfl

/-- C16, amended, at a concrete input: page 0 of the one-page file `f` is
read, then a page is appended, the next page is read and the handle is
closed. -/
theorem position_invariant_witness :
    PosInv ((Op.readBlock 0 zeroPage).call (some demoHandle) demoDisk).fHandle ∧
    PosInv (run [Op.appendEmptyBlock okEnv, Op.readNextBlock zeroPage, Op.closePageFile okEnv]
      ((Op.readBlock 0 zeroPage).call (some demoHandle) demoDisk)).fHandle ∧
    pageCount ((Op.readBlock 0 zeroPage).call (some demoHandle) demoDisk).fHandle
      ≤ pageCount (run
          [Op.appendEmptyBlock okEnv, Op.readNextBlock zeroPage, Op.closePageFile okEnv]
          ((Op.readBlock 0 zeroPage).call (some demoHandle) demoDisk)).fHandle := by
  have hrd := readBlock_in_range 0 demoHandle demoFile zeroPage zeroPage demoDisk 1 rfl
    (store_same _ _ _) (by rw [zeroPage_length, Nat.mul_one]) rfl (by decide) (by decide)
    (by decide) zeroPage_length
  have hcount := (readBlock_pos 0 (some demoHandle) zeroPage demoDisk).2.2
  exact position_invariant (Op.readBlock 0 zeroPage)
    [Op.appendEmptyBlock okEnv, Op.readNextBlock zeroPage, Op.closePageFile okEnv]
    (some demoHandle) demoDisk trivial (by rw [call_readBlock, toOutcome_rc]; exact hrd.1)
    (fun o ho => by
      simp only [List.mem_cons, List.mem_singleton, List.not_mem_nil, or_false] at ho
      rcases ho with rfl | rfl | rfl <;> trivial)
    (by
      rw [call_readBlock, toOutcome_fHandle, hcount]
      decide)


/-! ## The file size along a sequence of calls -/

/-- A write at the offset the code computes for a page index in range stays
inside a file of full pages, also when the `int` product has wrapped. -/
theorem offset_fits (i t : Int) (len : Nat) (h0 : 0 ≤ i) (h1 : i < t)
    (hlen : (len : Int) = 4096 * t) (ho : 0 ≤ toInt32 (i * (PAGE_SIZE : Int))) :
    (toInt32 (i * (PAGE_SIZE : Int))).toNat + PAGE_SIZE ≤ len := by
  rw [PAGE_SIZE_eq] at ho ⊢
  unfold toInt32 at ho ⊢
  omega

theorem fwriteData_nil (buf : List Byte) (e : OsEnv) (h0 : e.fwriteCount = 0) :
    fwriteData buf PAGE_SIZE e = [] := by
  simp [fwriteData, h0]

theorem fwriteDisk_nil (file : FILE) (d : Disk) : fwriteDisk [] file d = d := by
  unfold fwriteDisk
  cases d file.path <;> simp

theorem sizeInv_keep (path : String) (h h1 : SM_FileHandle) (d : Disk)
    (hs : SizeInv path (some h) d) (ht : h1.totalNumPages = h.totalNumPages)
    (hp : ∀ f1, h1.mgmtInfo = some f1 → f1.path = path) : SizeInv path (some h1) d := by
  obtain ⟨h2, c, hh, hd, hlen, _⟩ := hs
  have hh2 := (Option.some.inj hh).symm
  subst hh2
  exact ⟨h1, c, rfl, hd, by rw [ht]; exact hlen, hp⟩

/-- Whatever its code, a `readBlock` keeps the size invariant. -/
theorem readBlock_size (path : String) (i : Int) (fHandle : Option SM_FileHandle)
    (buf : List Byte) (d : Disk) (hs : SizeInv path fHandle d) :
    SizeInv path (readBlock i fHandle buf d).fHandle (readBlock i fHandle buf d).disk := by
  obtain ⟨h, c, rfl, hd, hlen, hpath⟩ := hs
  have hs : SizeInv path (some h) d := ⟨h, c, rfl, hd, hlen, hpath⟩
  cases hm : h.mgmtInfo with
  | none =>
    have hres : readBlock i (some h) buf d = ⟨RC_FILE_HANDLE_NOT_INIT, some h, buf, d⟩ := by
      simp [readBlock, hm]
    rw [hres]; exact hs
  | some file =>
    have hfp := hpath file hm
    by_cases hr : i < 0 ∨ i ≥ h.totalNumPages
    · rw [readBlock_out_of_range i h file buf d hm hr]; exact hs
    · by_cases ho : toInt32 (i * (PAGE_SIZE : Int)) < 0
      · have hres : readBlock i (some h) buf d
            = ⟨RC_READ_NON_EXISTING_PAGE, some h, buf, d⟩ := by
          simp [readBlock, hm, hr, fseekSet, ho]
        rw [hres]; exact hs
      · by_cases hl : (freadData PAGE_SIZE
            ⟨file.path, (toInt32 (i * (PAGE_SIZE : Int))).toNat⟩ d).length = PAGE_SIZE
        · have hres : readBlock i (some h) buf d =
              ⟨RC_OK,
                some { h with
                  curPagePos := i,
                  mgmtInfo := some (advance
                    ⟨file.path, (toInt32 (i * (PAGE_SIZE : Int))).toNat⟩ PAGE_SIZE) },
                fillBuffer buf (freadData PAGE_SIZE
                  ⟨file.path, (toInt32 (i * (PAGE_SIZE : Int))).toNat⟩ d), d⟩ := by
            simp [readBlock, hm, hr, fseekSet, ho, hl]
          rw [hres]
          exact sizeInv_keep path h _ d hs rfl (fun f1 hf1 => by
            have := Option.some.inj hf1
            rw [← this]; exact hfp)
        · have hres : readBlock i (some h) buf d =
              ⟨RC_READ_NON_EXISTING_PAGE,
                some { h with
                  mgmtInfo := some (advance
                    ⟨file.path, (toInt32 (i * (PAGE_SIZE : Int))).toNat⟩
                    (freadData PAGE_SIZE
                      ⟨file.path, (toInt32 (i * (PAGE_SIZE : Int))).toNat⟩ d).length) },
                fillBuffer buf (freadData PAGE_SIZE
                  ⟨file.path, (toInt32 (i * (PAGE_SIZE : Int))).toNat⟩ d), d⟩ := by
            simp [readBlock, hm, hr, fseekSet, ho, hl]
          rw [hres]
          exact sizeInv_keep path h _ d hs rfl (fun f1 hf1 => by
            have := Option.some.inj hf1
            rw [← this]; exact hfp)

/-- Whatever its code, a `writeBlock` of a page-sized buffer whose write is
atomic keeps the size invariant. -/
theorem writeBlock_size (path : String) (i : Int) (fHandle : Option SM_FileHandle)
    (buf : List Byte) (e : OsEnv) (d : Disk) (hs : SizeInv path fHandle d)
    (hbuf : buf.length = PAGE_SIZE) (ha : atomicWrite e) :
    SizeInv path (writeBlock i fHandle buf e d).fHandle (writeBlock i fHandle buf e d).disk := by
  obtain ⟨h, c, rfl, hd, hlen, hpath⟩ := hs
  have hs : SizeInv path (some h) d := ⟨h, c, rfl, hd, hlen, hpath⟩
  cases hm : h.mgmtInfo with
  | none =>
    have hres : writeBlock i (some h) buf e d = ⟨RC_FILE_HANDLE_NOT_INIT, some h, buf, d⟩ := by
      simp [writeBlock, hm]
    rw [hres]; exact hs
  | some file =>
    have hfp := hpath file hm
    by_cases hr : i < 0 ∨ i ≥ h.totalNumPages
    · have hres : writeBlock i (some h) buf e d = ⟨RC_WRITE_FAILED, some h, buf, d⟩ := by
        simp [writeBlock, hm, hr]
      rw [hres]; exact hs
    · by_cases ho : toInt32 (i * (PAGE_SIZE : Int)) < 0
      · have hres : writeBlock i (some h) buf e d = ⟨RC_WRITE_FAILED, some h, buf, d⟩ := by
          simp [writeBlock, hm, hr, fseekSet, ho]
        rw [hres]; exact hs
      · have hdf : d file.path = some c := by rw [hfp]; exact hd
        cases ha with
        | inl hzero =>
          have hdat := fwriteData_nil buf e hzero
          have hne : (0 : Nat) ≠ PAGE_SIZE := by decide
          have hres : writeBlock i (some h) buf e d =
              ⟨RC_WRITE_FAILED,
                some { h with
                  mgmtInfo := some (advance
                    ⟨file.path, (toInt32 (i * (PAGE_SIZE : Int))).toNat⟩ 0) },
                buf, d⟩ := by
            simp [writeBlock, hm, hr, fseekSet, ho, hdat, fwriteResult, hdf, fwriteDisk_nil, hne]
          rw [hres]
          exact sizeInv_keep path h _ d hs rfl (fun f1 hf1 => by
            have := Option.some.inj hf1
            rw [← this]; exact hfp)
        | inr hfull =>
          have hrc := writeBlock_ok_of i h file buf c e d hm hdf (by omega) (by omega)
            (by omega) (le_of_eq hbuf.symm) hfull
          obtain ⟨h2, file2, c2, hh, hm2, hd2, _, _, _, hl, hres⟩ :=
            writeBlock_ok_inv i (some h) buf e d hrc
          have hh2 := (Option.some.inj hh).symm
          subst hh2
          have hfile : file2 = file := Option.some.inj (hm2.symm.trans hm)
          subst hfile
          have hcc : c2 = c := Option.some.inj (hd2.symm.trans hdf)
          subst hcc
          rw [hres]
          refine ⟨_, _, rfl, by rw [← hfp]; exact store_same _ _ _, ?_, ?_⟩
          · rw [overwrite_length _ _ _ (by
              rw [hl]
              exact offset_fits i h2.totalNumPages c2.length (by omega) (by omega) hlen
                (by omega))]
            exact hlen
          · intro f1 hf1
            have := Option.some.inj hf1
            rw [← this]; exact hfp


/-- An `appendEmptyBlock` whose write is atomic, on a handle whose page count
cannot wrap, keeps the size invariant and adds at most one page. -/
theorem appendEmptyBlock_size (path : String) (fHandle : Option SM_FileHandle) (e : OsEnv)
    (d : Disk) (hs : SizeInv path fHandle d) (ha : atomicWrite e)
    (hb : pageCount fHandle + 1 < 2147483648) :
    SizeInv path (appendEmptyBlock fHandle e d).fHandle (appendEmptyBlock fHandle e d).disk ∧
    pageCount (appendEmptyBlock fHandle e d).fHandle ≤ pageCount fHandle + 1 := by
  obtain ⟨h, c, rfl, hd, hlen, hpath⟩ := hs
  have hs : SizeInv path (some h) d := ⟨h, c, rfl, hd, hlen, hpath⟩
  simp only [pageCount] at hb ⊢
  cases hm : h.mgmtInfo with
  | none =>
    have hres : appendEmptyBlock (some h) e d = ⟨RC_FILE_HANDLE_NOT_INIT, some h, d⟩ := by
      simp [appendEmptyBlock, hm]
    rw [hres]; exact ⟨hs, by simp only; omega⟩
  | some file =>
    have hfp := hpath file hm
    have hdf : d file.path = some c := by rw [hfp]; exact hd
    by_cases hcal : e.callocOk = false
    · have hres : appendEmptyBlock (some h) e d = ⟨RC_WRITE_FAILED, some h, d⟩ := by
        simp [appendEmptyBlock, hm, hcal]
      rw [hres]; exact ⟨hs, by simp only; omega⟩
    · cases ha with
      | inl hzero =>
        have hdat := fwriteData_nil (List.replicate PAGE_SIZE 0) e hzero
        have hne : (0 : Nat) ≠ PAGE_SIZE := by decide
        have hres : appendEmptyBlock (some h) e d =
            ⟨RC_WRITE_FAILED,
              some { h with mgmtInfo := some (advance (fseekEnd file d) 0) }, d⟩ := by
          simp [appendEmptyBlock, hm, hcal, hdat, fwriteResult, fseekEnd, hdf, fwriteDisk_nil,
            hne]
        rw [hres]
        refine ⟨sizeInv_keep path h _ d hs rfl (fun f1 hf1 => ?_), by simp only; omega⟩
        have := Option.some.inj hf1
        rw [← this]; exact hfp
      | inr hfull =>
        have hcal2 : e.callocOk = true := by
          cases hc : e.callocOk with
          | true => rfl
          | false => exact absurd hc hcal
        have hres := appendEmptyBlock_ok_of h file c e d hm hdf hcal2 hfull
        have h0 : 0 ≤ h.totalNumPages := by omega
        have hinc : toInt32 (h.totalNumPages + 1) = h.totalNumPages + 1 :=
          toInt32_of_range _ (by omega) (by omega)
        rw [hinc] at hres
        rw [hres]
        refine ⟨⟨_, _, rfl, by rw [← hfp]; exact store_same _ _ _, ?_, ?_⟩, by simp only; omega⟩
        · rw [List.length_append, List.length_replicate, PAGE_SIZE_eq]
          push_cast
          omega
        · intro f1 hf1
          have := Option.some.inj hf1
          rw [← this]; exact hfp

/-- The loop of `ensureCapacity` with atomic writes, on a handle whose page
count cannot wrap, keeps the size invariant and adds at most its number of
iterations. -/
theorem appendLoop_size (path : String) (envs : Nat → OsEnv)
    (ha : ∀ j, atomicWrite (envs j)) (k : Nat) :
    ∀ (i : Nat) (fHandle : Option SM_FileHandle) (d : Disk),
      SizeInv path fHandle d → pageCount fHandle + (k : Int) < 2147483648 →
      SizeInv path (appendLoop k i fHandle envs d).fHandle
        (appendLoop k i fHandle envs d).disk ∧
      pageCount (appendLoop k i fHandle envs d).fHandle ≤ pageCount fHandle + (k : Int) := by
  induction k with
  | zero =>
    intro i fHandle d hs _
    exact ⟨hs, by simp [appendLoop]⟩
  | succ k ih =>
    intro i fHandle d hs hb
    push_cast at hb
    have hnn : 0 ≤ pageCount fHandle := by
      obtain ⟨h, c, rfl, _, hlen, _⟩ := hs
      simp only [pageCount]
      omega
    obtain ⟨hs1, hhi⟩ := appendEmptyBlock_size path fHandle (envs i) d hs (ha i) (by omega)
    rw [appendLoop]
    by_cases hstep : (appendEmptyBlock fHandle (envs i) d).rc = RC_OK
    · simp only [hstep, ne_eq, not_true_eq_false, if_false]
      obtain ⟨hs2, hhi2⟩ := ih (i + 1) _ _ hs1 (by omega)
      exact ⟨hs2, by push_cast; omega⟩
    · simp only [hstep, ne_eq, not_false_eq_true, if_true]
      exact ⟨hs1, by push_cast; omega⟩

/-- `ensureCapacity(n)` with atomic writes keeps the size invariant and
leaves at most `max(totalNumPages, n)` pages. -/
theorem ensureCapacity_size (path : String) (n : Int) (fHandle : Option SM_FileHandle)
    (envs : Nat → OsEnv) (d : Disk) (hs : SizeInv path fHandle d)
    (ha : ∀ j, atomicWrite (envs j)) (hn1 : n < 2147483648) :
    SizeInv path (ensureCapacity n fHandle envs d).fHandle
      (ensureCapacity n fHandle envs d).disk ∧
    pageCount (ensureCapacity n fHandle envs d).fHandle ≤ max (pageCount fHandle) n := by
  obtain ⟨h, c, rfl, hd, hlen, hpath⟩ := hs
  have hs : SizeInv path (some h) d := ⟨h, c, rfl, hd, hlen, hpath⟩
  have h0 : 0 ≤ h.totalNumPages := by omega
  cases hm : h.mgmtInfo with
  | none =>
    have hres : ensureCapacity n (some h) envs d = ⟨RC_FILE_HANDLE_NOT_INIT, some h, d⟩ := by
      simp [ensureCapacity, hm]
    rw [hres]
    exact ⟨hs, le_max_left _ _⟩
  | some file =>
    by_cases hge : h.totalNumPages ≥ n
    · have hres : ensureCapacity n (some h) envs d = ⟨RC_OK, some h, d⟩ := by
        simp [ensureCapacity, hm, hge]
      rw [hres]
      exact ⟨hs, le_max_left _ _⟩
    · have hadd : toInt32 (n - h.totalNumPages) = n - h.totalNumPages :=
        toInt32_of_range _ (by omega) (by omega)
      have hres : ensureCapacity n (some h) envs d
          = appendLoop (n - h.totalNumPages).toNat 0 (some h) envs d := by
        simp [ensureCapacity, hm, hge, hadd]
      obtain ⟨hs2, hhi2⟩ := appendLoop_size path envs ha (n - h.totalNumPages).toNat 0
        (some h) d hs (by simp only [pageCount]; omega)
      rw [hres]
      simp only [pageCount] at hhi2 ⊢
      exact ⟨hs2, by rw [max_eq_right (by omega)]; omega⟩

/-- `closePageFile` keeps the size invariant. -/
theorem closePageFile_size (path : String) (fHandle : Option SM_FileHandle) (e : OsEnv)
    (d : Disk) (hs : SizeInv path fHandle d) :
    SizeInv path (closePageFile fHandle e d).fHandle (closePageFile fHandle e d).disk := by
  obtain ⟨h, c, rfl, hd, hlen, hpath⟩ := hs
  have hs : SizeInv path (some h) d := ⟨h, c, rfl, hd, hlen, hpath⟩
  cases hm : h.mgmtInfo with
  | none =>
    have hres : closePageFile (some h) e d = ⟨RC_FILE_HANDLE_NOT_INIT, some h, d⟩ := by
      simp [closePageFile, hm]
    rw [hres]; exact hs
  | some file =>
    by_cases hc : e.fcloseOk = false
    · have hres : closePageFile (some h) e d = ⟨RC_FILE_NOT_FOUND, some h, d⟩ := by
        simp [closePageFile, hm, hc]
      rw [hres]; exact hs
    · have hres : closePageFile (some h) e d
          = ⟨RC_OK, some { h with mgmtInfo := none }, d⟩ := by
        simp [closePageFile, hm, hc]
      rw [hres]
      exact sizeInv_keep path h _ d hs rfl (fun f1 hf1 => by simp at hf1)


/-- Every positioned call with page-sized write buffers and atomic writes
keeps the size invariant. -/
theorem positioned_call_size (path : String) (op : Op) (hpos : op.positioned)
    (fHandle : Option SM_FileHandle) (d : Disk) (hs : SizeInv path fHandle d)
    (ht : op.typed) (ha : op.atomic) :
    SizeInv path (op.call fHandle d).fHandle (op.call fHandle d).disk := by
  cases op with
  | readBlock i buf => exact readBlock_size path i fHandle buf d hs
  | readFirstBlock buf => exact readBlock_size path 0 fHandle buf d hs
  | readPreviousBlock buf =>
    obtain ⟨h, c, rfl, hd, hlen, hpath⟩ := hs
    have hs : SizeInv path (some h) d := ⟨h, c, rfl, hd, hlen, hpath⟩
    by_cases hlt : toInt32 (h.curPagePos - 1) < 0
    · have hres : readPreviousBlock (some h) buf d
          = ⟨RC_READ_NON_EXISTING_PAGE, some h, buf, d⟩ := by
        simp [readPreviousBlock, hlt]
      have key : SizeInv path (PageOutcome.mk RC_READ_NON_EXISTING_PAGE (some h) buf d).fHandle
          (PageOutcome.mk RC_READ_NON_EXISTING_PAGE (some h) buf d).disk := hs
      rw [← hres] at key
      exact key
    · have hres : readPreviousBlock (some h) buf d
          = readBlock (toInt32 (h.curPagePos - 1)) (some h) buf d := by
        simp [readPreviousBlock, hlt]
      have key := readBlock_size path (toInt32 (h.curPagePos - 1)) (some h) buf d hs
      rw [← hres] at key
      exact key
  | readCurrentBlock buf =>
    obtain ⟨h, c, rfl, hd, hlen, hpath⟩ := hs
    exact readBlock_size path h.curPagePos (some h) buf d ⟨h, c, rfl, hd, hlen, hpath⟩
  | readNextBlock buf =>
    obtain ⟨h, c, rfl, hd, hlen, hpath⟩ := hs
    have hs : SizeInv path (some h) d := ⟨h, c, rfl, hd, hlen, hpath⟩
    by_cases hge : toInt32 (h.curPagePos + 1) ≥ h.totalNumPages
    · have hres : readNextBlock (some h) buf d
          = ⟨RC_READ_NON_EXISTING_PAGE, some h, buf, d⟩ := by
        simp [readNextBlock, hge]
      have key : SizeInv path (PageOutcome.mk RC_READ_NON_EXISTING_PAGE (some h) buf d).fHandle
          (PageOutcome.mk RC_READ_NON_EXISTING_PAGE (some h) buf d).disk := hs
      rw [← hres] at key
      exact key
    · have hres : readNextBlock (some h) buf d
          = readBlock (toInt32 (h.curPagePos + 1)) (some h) buf d := by
        simp [readNextBlock, hge]
      have key := readBlock_size path (toInt32 (h.curPagePos + 1)) (some h) buf d hs
      rw [← hres] at key
      exact key
  | readLastBlock buf =>
    obtain ⟨h, c, rfl, hd, hlen, hpath⟩ := hs
    have hs : SizeInv path (some h) d := ⟨h, c, rfl, hd, hlen, hpath⟩
    by_cases hlt : toInt32 (h.totalNumPages - 1) < 0
    · have hres : readLastBlock (some h) buf d
          = ⟨RC_READ_NON_EXISTING_PAGE, some h, buf, d⟩ := by
        simp [readLastBlock, hlt]
      have key : SizeInv path (PageOutcome.mk RC_READ_NON_EXISTING_PAGE (some h) buf d).fHandle
          (PageOutcome.mk RC_READ_NON_EXISTING_PAGE (some h) buf d).disk := hs
      rw [← hres] at key
      exact key
    · have hres : readLastBlock (some h) buf d
          = readBlock (toInt32 (h.totalNumPages - 1)) (some h) buf d := by
        simp [readLastBlock, hlt]
      have key := readBlock_size path (toInt32 (h.totalNumPages - 1)) (some h) buf d hs
      rw [← hres] at key
      exact key
  | writeBlock i buf e => exact writeBlock_size path i fHandle buf e d hs ht ha
  | writeCurrentBlock buf e =>
    obtain ⟨h, c, rfl, hd, hlen, hpath⟩ := hs
    exact writeBlock_size path h.curPagePos (some h) buf e d ⟨h, c, rfl, hd, hlen, hpath⟩ ht ha
  | appendEmptyBlock e => exact absurd hpos (by simp [Op.positioned])
  | ensureCapacity n envs => exact absurd hpos (by simp [Op.positioned])
  | closePageFile e => exact absurd hpos (by simp [Op.positioned])

/-- One call of any kind, with page-sized write buffers and atomic writes,
keeps the size invariant when the page count cannot wrap, and stays within
the page bound. -/
theorem call_size (path : String) (op : Op) (fHandle : Option SM_FileHandle) (d : Disk)
    (hs : SizeInv path fHandle d) (ht : op.typed) (ha : op.atomic)
    (hb : pageBound [op] (pageCount fHandle) < 2147483648) :
    SizeInv path (op.call fHandle d).fHandle (op.call fHandle d).disk ∧
    pageCount (op.call fHandle d).fHandle ≤ pageBound [op] (pageCount fHandle) := by
  by_cases hpos : op.positioned
  · have hcount := (positioned_call_pos op hpos fHandle d).2.2
    have hbound : pageBound [op] (pageCount fHandle) = pageCount fHandle := by
      cases op <;> first | rfl | exact absurd hpos (by simp [Op.positioned])
    rw [hbound, hcount]
    exact ⟨positioned_call_size path op hpos fHandle d hs ht ha, le_refl _⟩
  · cases op with
    | appendEmptyBlock e => exact appendEmptyBlock_size path fHandle e d hs ha hb
    | ensureCapacity n envs => exact ensureCapacity_size path n fHandle envs d hs ha ht.2
    | closePageFile e =>
      have hc := closePageFile_counters fHandle e d
      exact ⟨closePageFile_size path fHandle e d hs, le_of_eq (pageCount_congr _ _ hc)⟩
    | _ => exact absurd (by simp [Op.positioned]) hpos

/-- A sequence of calls with page-sized write buffers and atomic writes,
whose appends and capacity requests cannot take the page count beyond the
largest `int`, keeps the size invariant. -/
theorem run_size (path : String) (ops : List Op) :
    ∀ (s : Outcome) (t : Int), SizeInv path s.fHandle s.disk → pageCount s.fHandle ≤ t →
      (∀ o ∈ ops, o.typed ∧ o.atomic) → pageBound ops t < 2147483648 →
      SizeInv path (run ops s).fHandle (run ops s).disk := by
  induction ops with
  | nil => intro s t hs _ _ _; exact hs
  | cons op ops ih =>
    intro s t hs hle ht hb
    rw [pageBound_cons] at hb
    have hb1 : pageBound [op] (pageCount s.fHandle) < 2147483648 :=
      lt_of_le_of_lt (le_trans (pageBound_mono [op] _ _ hle) (pageBound_ge ops _)) hb
    obtain ⟨hs1, hhi⟩ := call_size path op s.fHandle s.disk hs
      (ht op (List.mem_cons_self _ _)).1 (ht op (List.mem_cons_self _ _)).2 hb1
    exact ih (op.call s.fHandle s.disk) (pageBound [op] t) hs1
      (le_trans hhi (pageBound_mono [op] _ _ hle))
      (fun o ho => ht o (List.mem_cons_of_mem _ ho)) hb


/-! ## The file size invariant -/

/-- On every path: after `createPageFile` and `openPageFile`, an
`ensureCapacity(2147483647)` and one more `appendEmptyBlock`, all returning
`RC_OK`, leave a file of 2147483648 pages under a handle that says
-2147483648 pages. -/
theorem size_breaks_on (path : String) (d0 : Disk) :
    (createPageFile path okEnv d0).1 = RC_OK ∧
    (openPageFile path blankHandle okEnv (createPageFile path okEnv d0).2).rc = RC_OK ∧
    (run [Op.ensureCapacity 2147483647 (fun _ => okEnv)]
      (openPageFile path blankHandle okEnv (createPageFile path okEnv d0).2)).rc = RC_OK ∧
    (run [Op.ensureCapacity 2147483647 (fun _ => okEnv), Op.appendEmptyBlock okEnv]
      (openPageFile path blankHandle okEnv (createPageFile path okEnv d0).2)).rc = RC_OK ∧
    ∃ h c,
      (run [Op.ensureCapacity 2147483647 (fun _ => okEnv), Op.appendEmptyBlock okEnv]
        (openPageFile path blankHandle okEnv (createPageFile path okEnv d0).2)).fHandle
        = some h ∧
      (run [Op.ensureCapacity 2147483647 (fun _ => okEnv), Op.appendEmptyBlock okEnv]
        (openPageFile path blankHandle okEnv (createPageFile path okEnv d0).2)).disk path
        = some c ∧
      h.totalNumPages = -2147483648 ∧ c.length = 4096 * 2147483648 ∧
      (c.length : Int) ≠ 4096 * h.totalNumPages := by
  have hcreate := createPageFile_ok_of path okEnv d0 rfl rfl (by decide)
  have hd := createPageFile_ok_inv path okEnv d0 hcreate
  have hopen := openPageFile_ok_of path blankHandle okEnv _ _ rfl hd
  have hone : toInt32 (((List.replicate PAGE_SIZE (0 : Byte)).length : Int) / (PAGE_SIZE : Int))
      = 1 := by
    rw [List.length_replicate]
    decide
  rw [hone] at hopen
  have hadd : (toInt32 2147483646).toNat = 2147483646 := by decide
  have hge : ¬ ((1 : Int) ≥ 2147483647) := by decide
  have hens : ensureCapacity 2147483647
      (some { fileName := path, totalNumPages := 1, curPagePos := 0,
              mgmtInfo := some { path := path, pos := 0 } })
      (fun _ => okEnv) (createPageFile path okEnv d0).2
      = appendLoop 2147483646 0
          (some { fileName := path, totalNumPages := 1, curPagePos := 0,
                  mgmtInfo := some { path := path, pos := 0 } })
          (fun _ => okEnv) (createPageFile path okEnv d0).2 := by
    simp [ensureCapacity, hge, hadd]
  obtain ⟨h1, file1, hrc, hfh, htot, hcur, hm1, hp1, hdisk⟩ :=
    appendLoop_ok_of (fun _ => okEnv) (fun _ => ⟨rfl, le_of_eq rfl⟩) 2147483646 0
      { fileName := path, totalNumPages := 1, curPagePos := 0,
        mgmtInfo := some { path := path, pos := 0 } }
      ⟨path, 0⟩ _ _ rfl hd (by simp only; omega) (by simp only; omega)
  simp only at htot hp1 hdisk
  have happ := appendEmptyBlock_ok_of h1 file1
    (List.replicate PAGE_SIZE 0 ++ List.replicate (PAGE_SIZE * 2147483646) 0) okEnv
    (appendLoop 2147483646 0
      (some { fileName := path, totalNumPages := 1, curPagePos := 0,
              mgmtInfo := some { path := path, pos := 0 } })
      (fun _ => okEnv) (createPageFile path okEnv d0).2).disk
    hm1 (by rw [hp1]; exact hdisk) rfl (by decide)
  have hwrap : toInt32 (h1.totalNumPages + 1) = -2147483648 := by
    rw [htot]
    decide
  rw [hwrap] at happ
  rw [hopen]
  simp only [run, Op.call, hens, hfh, happ]
  refine ⟨hcreate, trivial, hrc, trivial, _,
    List.replicate PAGE_SIZE 0 ++ List.replicate (PAGE_SIZE * 2147483646) 0
      ++ List.replicate PAGE_SIZE 0, rfl, ?_, rfl, ?_, ?_⟩
  · rw [hp1]; exact store_same _ _ _
  · simp only [List.length_append, List.length_replicate, PAGE_SIZE_eq]
  · simp only [List.length_append, List.length_replicate, PAGE_SIZE_eq]
    omega

/-- C15 as stated fails: the file `f` is created and opened, grown by
`ensureCapacity(2147483647)` and by one more `appendEmptyBlock`, every call
returning `RC_OK`; the file then holds 2147483648 pages and `totalNumPages`
is -2147483648, so the byte length is not `4096 * totalNumPages`. -/
theorem file_size_breaks_at_int_max :
    (createPageFile "f" okEnv emptyDisk).1 = RC_OK ∧
    (openPageFile "f" blankHandle okEnv (createPageFile "f" okEnv emptyDisk).2).rc = RC_OK ∧
    (run [Op.ensureCapacity 2147483647 (fun _ => okEnv)]
      (openPageFile "f" blankHandle okEnv (createPageFile "f" okEnv emptyDisk).2)).rc
      = RC_OK ∧
    (run [Op.ensureCapacity 2147483647 (fun _ => okEnv), Op.appendEmptyBlock okEnv]
      (openPageFile "f" blankHandle okEnv (createPageFile "f" okEnv emptyDisk).2)).rc
      = RC_OK ∧
    ∃ h c,
      (run [Op.ensureCapacity 2147483647 (fun _ => okEnv), Op.appendEmptyBlock okEnv]
        (openPageFile "f" blankHandle okEnv (createPageFile "f" okEnv emptyDisk).2)).fHandle
        = some h ∧
      (run [Op.ensureCapacity 2147483647 (fun _ => okEnv), Op.appendEmptyBlock okEnv]
        (openPageFile "f" blankHandle okEnv (createPageFile "f" okEnv emptyDisk).2)).disk "f"
        = some c ∧
      h.totalNumPages = -2147483648 ∧ c.length = 4096 * 2147483648 ∧
      (c.length : Int) ≠ 4096 * h.totalNumPages :=
  size_breaks_on "f" emptyDisk

/-- C15, amended: for a handle obtained by `createPageFile` followed by
`openPageFile`, after every finite sequence of reads, writes, relative reads,
appends, `ensureCapacity` (and `closePageFile`) calls in which every page
write stores all `PAGE_SIZE` bytes or none and whose appends and capacity
requests cannot take the page count beyond 2147483647, the byte length of the
file is an exact multiple of 4096 and equals `4096 * totalNumPages`. -/
theorem file_size_invariant (path : String) (e1 e2 : OsEnv) (d : Disk)
    (h0 : SM_FileHandle) (ops : List Op)
    (hc : (createPageFile path e1 d).1 = RC_OK)
    (ho : (openPageFile path h0 e2 (createPageFile path e1 d).2).rc = RC_OK)
    (hops : ∀ o ∈ ops, o.typed ∧ o.atomic)
    (hbound : pageBound ops 1 < 2147483648) :
    ∃ h c,
      (run ops (openPageFile path h0 e2 (createPageFile path e1 d).2)).fHandle = some h ∧
      (run ops (openPageFile path h0 e2 (createPageFile path e1 d).2)).disk path = some c ∧
      (c.length : Int) = 4096 * h.totalNumPages ∧ c.length % 4096 = 0 := by
  have hd := createPageFile_ok_inv path e1 d hc
  have hfo := (openPageFile_ok_inv path h0 e2 _ ho).1
  have hopen := openPageFile_ok_of path h0 e2 _ _ hfo hd
  have hone : toInt32 (((List.replicate PAGE_SIZE (0 : Byte)).length : Int) / (PAGE_SIZE : Int))
      = 1 := by
    rw [List.length_replicate]
    decide
  rw [hone] at hopen
  have hinit : SizeInv path (openPageFile path h0 e2 (createPageFile path e1 d).2).fHandle
      (openPageFile path h0 e2 (createPageFile path e1 d).2).disk := by
    rw [hopen]
    refine ⟨_, _, rfl, hd, ?_, ?_⟩
    · rw [List.length_replicate, PAGE_SIZE_eq]
      rfl
    · intro file hf
      have := Option.some.inj hf
      rw [← this]
  have hcount : pageCount (openPageFile path h0 e2 (createPageFile path e1 d).2).fHandle ≤ 1 := by
    rw [hopen]
    exact le_refl _
  obtain ⟨h, c, hfh, hdc, hlen, _⟩ := run_size path ops _ 1 hinit hcount hops hbound
  exact ⟨h, c, hfh, hdc, hlen, by omega⟩


/-- C15, amended, at a concrete input: on the fresh file `f`, page 0 is
written, an append stores nothing and fails, the file is grown to four pages
and the last page is read. -/
theorem file_size_invariant_witness :
    ∃ h c,
      (run [Op.writeBlock 0 sevenPage okEnv, Op.appendEmptyBlock noWriteEnv,
            Op.ensureCapacity 4 (fun _ => okEnv), Op.readLastBlock zeroPage]
        (openPageFile "f" blankHandle okEnv (createPageFile "f" okEnv emptyDisk).2)).fHandle
        = some h ∧
      (run [Op.writeBlock 0 sevenPage okEnv, Op.appendEmptyBlock noWriteEnv,
            Op.ensureCapacity 4 (fun _ => okEnv), Op.readLastBlock zeroPage]
        (openPageFile "f" blankHandle okEnv (createPageFile "f" okEnv emptyDisk).2)).disk "f"
        = some c ∧
      (c.length : Int) = 4096 * h.totalNumPages ∧ c.length % 4096 = 0 := by
  have hcreate := createPageFile_ok_of "f" okEnv emptyDisk rfl rfl (by decide)
  have hd := createPageFile_ok_inv "f" okEnv emptyDisk hcreate
  exact file_size_invariant "f" okEnv okEnv emptyDisk blankHandle
    [Op.writeBlock 0 sevenPage okEnv, Op.appendEmptyBlock noWriteEnv,
      Op.ensureCapacity 4 (fun _ => okEnv), Op.readLastBlock zeroPage]
    hcreate
    (by rw [openPageFile_ok_of "f" blankHandle okEnv _ _ rfl hd])
    (fun o ho => by
      simp only [List.mem_cons, List.mem_singleton, List.not_mem_nil, or_false] at ho
      rcases ho with rfl | rfl | rfl | rfl
      · exact ⟨sevenPage_length, Or.inr (le_of_eq rfl)⟩
      · exact ⟨trivial, Or.inl rfl⟩
      · exact ⟨⟨by decide, by decide⟩, fun _ => Or.inr (le_of_eq rfl)⟩
      · exact ⟨trivial, trivial⟩)
    (by decide)


/-! ## The relative navigation step -/

/-- A read at an index in range finds nothing when the file ends at or before
the offset of that page: `readBlock` returns `RC_READ_NON_EXISTING_PAGE` and
leaves the position. -/
theorem readBlock_short_file (i : Int) (h : SM_FileHandle) (file : FILE) (buf c : List Byte)
    (d : Disk) (hm : h.mgmtInfo = some file) (hd : d file.path = some c)
    (h0 : 0 ≤ i) (h1 : i < h.totalNumPages) (ho : 0 ≤ toInt32 (i * (PAGE_SIZE : Int)))
    (hshort : c.length ≤ (toInt32 (i * (PAGE_SIZE : Int))).toNat) :
    (readBlock i (some h) buf d).rc = RC_READ_NON_EXISTING_PAGE ∧
    getBlockPos (readBlock i (some h) buf d).fHandle = h.curPagePos := by
  have hr : ¬ (i < 0 ∨ i ≥ h.totalNumPages) := by omega
  have hneg : ¬ toInt32 (i * (PAGE_SIZE : Int)) < 0 := by omega
  have hdata : freadData PAGE_SIZE ⟨file.path, (toInt32 (i * (PAGE_SIZE : Int))).toNat⟩ d
      = [] := by
    simp only [freadData, hd, Option.getD_some, List.drop_eq_nil_of_le hshort, List.take_nil]
  have hne : ¬ ((0 : Nat) = PAGE_SIZE) := by decide
  simp [readBlock, hm, hr, fseekSet, hneg, hdata, hne, getBlockPos]

/-- On every path: a handle that says two pages at position 0 over a file
that `createPageFile` has just written anew is refused the step to page 1. -/
theorem readNextBlock_short_on (path : String) (d0 : Disk) :
    (createPageFile path okEnv d0).1 = RC_OK ∧
    (createPageFile path okEnv d0).2 path = some (List.replicate PAGE_SIZE 0) ∧
    (readNextBlock
      (some { fileName := path, totalNumPages := 2, curPagePos := 0,
              mgmtInfo := some { path := path, pos := 0 } })
      zeroPage (createPageFile path okEnv d0).2).rc = RC_READ_NON_EXISTING_PAGE ∧
    getBlockPos (readNextBlock
      (some { fileName := path, totalNumPages := 2, curPagePos := 0,
              mgmtInfo := some { path := path, pos := 0 } })
      zeroPage (createPageFile path okEnv d0).2).fHandle = 0 := by
  have hcreate := createPageFile_ok_of path okEnv d0 rfl rfl (by decide)
  have hd := createPageFile_ok_inv path okEnv d0 hcreate
  have hn : toInt32 ((0 : Int) + 1) = 1 := by decide
  have hge : ¬ ((1 : Int) ≥ 2) := by decide
  have hnext : readNextBlock
      (some { fileName := path, totalNumPages := 2, curPagePos := 0,
              mgmtInfo := some { path := path, pos := 0 } })
      zeroPage (createPageFile path okEnv d0).2
      = readBlock 1
          (some { fileName := path, totalNumPages := 2, curPagePos := 0,
                  mgmtInfo := some { path := path, pos := 0 } })
          zeroPage (createPageFile path okEnv d0).2 := by
    simp only [readNextBlock, hn, hge, if_false]
  have hrd := readBlock_short_file 1
    { fileName := path, totalNumPages := 2, curPagePos := 0,
      mgmtInfo := some { path := path, pos := 0 } }
    ⟨path, 0⟩ zeroPage _ _ rfl hd (by decide) (by simp only; omega) (by decide)
    (by rw [List.length_replicate]; decide)
  rw [hnext]
  exact ⟨hcreate, hd, hrd.1, hrd.2⟩

/-- C12 as stated fails: the handle opened on the two-page file `f` says two
pages at position 0; `createPageFile` on the same path then leaves one page on
the disk; the next index 1 is within `[0, totalNumPages)`, and
`readNextBlock` returns `RC_READ_NON_EXISTING_PAGE` and leaves the position at
0, because the read finds no byte at offset 4096. -/
theorem readNextBlock_short_file :
    (openPageFile "f" blankHandle okEnv twoPageDisk).fHandle = some twoPageHandle ∧
    (0 ≤ twoPageHandle.curPagePos + 1 ∧
      twoPageHandle.curPagePos + 1 < twoPageHandle.totalNumPages) ∧
    (createPageFile "f" okEnv twoPageDisk).1 = RC_OK ∧
    (createPageFile "f" okEnv twoPageDisk).2 "f" = some (List.replicate PAGE_SIZE 0) ∧
    (readNextBlock (some twoPageHandle) zeroPage (createPageFile "f" okEnv twoPageDisk).2).rc
      = RC_READ_NON_EXISTING_PAGE ∧
    getBlockPos (readNextBlock (some twoPageHandle) zeroPage
      (createPageFile "f" okEnv twoPageDisk).2).fHandle = 0 := by
  have hopen := openPageFile_ok_of "f" blankHandle okEnv twoPageDisk (zeroPage ++ zeroPage) rfl
    (store_same _ _ _)
  have htwo : toInt32 (((zeroPage ++ zeroPage).length : Int) / (PAGE_SIZE : Int)) = 2 := by
    rw [List.length_append, zeroPage_length]
    decide
  rw [htwo] at hopen
  rw [hopen]
  exact ⟨rfl, by decide, readNextBlock_short_on "f" twoPageDisk⟩

/-- C12, amended: on an open handle over a file that holds `totalNumPages`
full pages, with current position `p`: `readNextBlock` returns `RC_OK` and
sets `curPagePos` to `p + 1` when `0 <= p + 1 < totalNumPages` (and
`p + 1 < 524288`, so that the offset fits a 32-bit `int`), `readPreviousBlock`
returns `RC_OK` and sets `curPagePos` to `p - 1` when
`0 <= p - 1 < totalNumPages` (and `p - 1 < 524288`); when the target index is
not within `[0, totalNumPages)` each returns `RC_READ_NON_EXISTING_PAGE` and
leaves the handle, so `curPagePos = p`, the buffer and the disk as they
were. -/
theorem relative_step (h : SM_FileHandle) (file : FILE) (buf c : List Byte) (d : Disk)
    (t : Nat) (hm : h.mgmtInfo = some file) (hd : d file.path = some c)
    (hc : c.length = PAGE_SIZE * t) (ht : h.totalNumPages = (t : Int))
    (htr : (t : Int) < 2147483648)
    (hp0 : -2147483648 ≤ h.curPagePos) (hp1 : h.curPagePos < 2147483648)
    (hbuf : buf.length = PAGE_SIZE) :
    ((0 ≤ h.curPagePos + 1 ∧ h.curPagePos + 1 < h.totalNumPages) →
      h.curPagePos + 1 < 524288 →
      (readNextBlock (some h) buf d).rc = RC_OK ∧
      getBlockPos (readNextBlock (some h) buf d).fHandle = h.curPagePos + 1) ∧
    (¬ (0 ≤ h.curPagePos + 1 ∧ h.curPagePos + 1 < h.totalNumPages) →
      readNextBlock (some h) buf d = ⟨RC_READ_NON_EXISTING_PAGE, some h, buf, d⟩) ∧
    ((0 ≤ h.curPagePos - 1 ∧ h.curPagePos - 1 < h.totalNumPages) →
      h.curPagePos - 1 < 524288 →
      (readPreviousBlock (some h) buf d).rc = RC_OK ∧
      getBlockPos (readPreviousBlock (some h) buf d).fHandle = h.curPagePos - 1) ∧
    (¬ (0 ≤ h.curPagePos - 1 ∧ h.curPagePos - 1 < h.totalNumPages) →
      readPreviousBlock (some h) buf d = ⟨RC_READ_NON_EXISTING_PAGE, some h, buf, d⟩) := by
  refine ⟨?_, ?_, ?_, ?_⟩
  · intro hin hs
    rw [readNextBlock_ok_of h file buf c d t hm hd hc ht hin.1 (by omega) hs hbuf]
    exact ⟨rfl, rfl⟩
  · intro hout
    exact readNextBlock_refuses h file buf d hm hp0 hp1 hout
  · intro hin hs
    rw [readPreviousBlock_ok_of h file buf c d t hm hd hc ht hin.1 (by omega) hs hbuf]
    exact ⟨rfl, rfl⟩
  · intro hout
    exact readPreviousBlock_refuses h file buf d hm hp0 hp1 (by omega) hout

/-- C12, amended, at a concrete input: on the two-page file `f` at position 0
the step forward succeeds and the step back is refused. -/
theorem relative_step_witness :
    ((readNextBlock (some twoPageHandle) sevenPage twoPageDisk).rc = RC_OK ∧
      getBlockPos (readNextBlock (some twoPageHandle) sevenPage twoPageDisk).fHandle
        = twoPageHandle.curPagePos + 1) ∧
    readPreviousBlock (some twoPageHandle) sevenPage twoPageDisk
      = ⟨RC_READ_NON_EXISTING_PAGE, some twoPageHandle, sevenPage, twoPageDisk⟩ :=
  ⟨(relative_step twoPageHandle demoFile sevenPage (zeroPage ++ zeroPage) twoPageDisk 2 rfl
      (store_same _ _ _) (by rw [List.length_append, zeroPage_length, PAGE_SIZE_eq]) rfl
      (by decide) (by decide) (by decide) sevenPage_length).1 (by decide) (by decide),
   (relative_step twoPageHandle demoFile sevenPage (zeroPage ++ zeroPage) twoPageDisk 2 rfl
      (store_same _ _ _) (by rw [List.length_append, zeroPage_length, PAGE_SIZE_eq]) rfl
      (by decide) (by decide) (by decide) sevenPage_length).2.2.2 (by decide)⟩


/-! ## What a write below 2 GiB leaves alone -/

/-- A write inside the file leaves every range of bytes that lies before or
behind the written range as it was. -/
theorem overwrite_other_range (c data : List Byte) (pos off n : Nat)
    (hfit : pos + data.length ≤ c.length)
    (hdis : off + n ≤ pos ∨ pos + data.length ≤ off) :
    ((overwrite c pos data).drop off).take n = (c.drop off).take n := by
  have hgap : pos - c.length = 0 := by omega
  unfold overwrite
  rw [hgap, List.replicate_zero, List.append_nil]
  cases hdis with
  | inl hbefore =>
    have hA : (c.take pos).length = pos := by
      rw [List.length_take]; omega
    rw [List.append_assoc, List.drop_append_of_le_length (by omega),
      List.take_append_of_le_length (by rw [List.length_drop]; omega), List.drop_take,
      List.take_take, Nat.min_eq_left (by omega)]
  | inr hbehind =>
    have hP : (c.take pos ++ data).length = pos + data.length := by
      rw [List.length_append, List.length_take]; omega
    have hoff : off = (c.take pos ++ data).length + (off - (pos + data.length)) := by omega
    rw [hoff, List.drop_append, List.drop_drop, ← hoff]
    congr 2
    omega

/-- The frame of `writeBlock` for files below 2 GiB: on an open handle over a
file of `t` full pages, a `writeBlock(i)` with `i < 524288` that returns
`RC_OK` keeps `totalNumPages` and the file length, puts the buffer into page
`i` and leaves every other page as it was. -/
theorem writeBlock_frame_small (i : Int) (h : SM_FileHandle) (file : FILE)
    (buf c : List Byte) (e : OsEnv) (d : Disk) (t : Nat)
    (hm : h.mgmtInfo = some file) (hd : d file.path = some c)
    (hc : c.length = PAGE_SIZE * t) (ht : h.totalNumPages = (t : Int))
    (hs : i < 524288) (hbuf : buf.length = PAGE_SIZE)
    (hw : (writeBlock i (some h) buf e d).rc = RC_OK) :
    ∃ h1 c1, (writeBlock i (some h) buf e d).fHandle = some h1 ∧
      h1.totalNumPages = h.totalNumPages ∧
      (writeBlock i (some h) buf e d).disk file.path = some c1 ∧
      c1.length = c.length ∧
      (c1.drop (PAGE_SIZE * i.toNat)).take PAGE_SIZE = buf ∧
      ∀ j : Nat, j < t → (j : Int) ≠ i →
        (c1.drop (PAGE_SIZE * j)).take PAGE_SIZE = (c.drop (PAGE_SIZE * j)).take PAGE_SIZE := by
  obtain ⟨h2, file2, c2, hh, hm2, hd2, h0, h1, _, hl, hres⟩ :=
    writeBlock_ok_inv i (some h) buf e d hw
  have hh2 := (Option.some.inj hh).symm
  subst hh2
  have hfile : file2 = file := Option.some.inj (hm2.symm.trans hm)
  subst hfile
  have hcc : c2 = c := Option.some.inj (hd2.symm.trans hd)
  subst hcc
  have hdat : fwriteData buf PAGE_SIZE e = buf := by
    rw [fwriteData_full buf e hl, List.take_of_length_le (le_of_eq hbuf)]
  have hoff := offset_small i h0 hs
  have hnat : (toInt32 (i * (PAGE_SIZE : Int))).toNat = PAGE_SIZE * i.toNat := by
    rw [hoff, PAGE_SIZE_eq]
    omega
  rw [hdat, hnat] at hres
  rw [hres]
  have hfit : PAGE_SIZE * i.toNat + buf.length ≤ c2.length := by
    rw [hbuf, hc, PAGE_SIZE_eq]
    omega
  refine ⟨_, _, rfl, rfl, store_same _ _ _, overwrite_length _ _ _ hfit, ?_, ?_⟩
  · have := drop_take_overwrite c2 (PAGE_SIZE * i.toNat) buf
    rw [hbuf] at this
    exact this
  · intro j hj hne
    apply overwrite_other_range _ _ _ _ _ hfit
    rw [hbuf, PAGE_SIZE_eq]
    omega


/-! ## The page count of a growing fresh file -/

/-- On every path: after `createPageFile` and `openPageFile`, `m` appends
under an operating system that lets every call succeed all return `RC_OK`
and leave `m + 1` pages at position 0, as long as `m + 1` is an `int`. -/
theorem fresh_appends_ok (path : String) (d0 : Disk) (m : Nat)
    (hm : (m : Int) + 1 < 2147483648) :
    (createPageFile path okEnv d0).1 = RC_OK ∧
    (openPageFile path blankHandle okEnv (createPageFile path okEnv d0).2).rc = RC_OK ∧
    (appendLoop m 0
      (openPageFile path blankHandle okEnv (createPageFile path okEnv d0).2).fHandle
      (fun _ => okEnv)
      (openPageFile path blankHandle okEnv (createPageFile path okEnv d0).2).disk).rc
      = RC_OK ∧
    ∃ h1 file1,
      (appendLoop m 0
        (openPageFile path blankHandle okEnv (createPageFile path okEnv d0).2).fHandle
        (fun _ => okEnv)
        (openPageFile path blankHandle okEnv (createPageFile path okEnv d0).2).disk).fHandle
        = some h1 ∧
      h1.totalNumPages = (m : Int) + 1 ∧ h1.curPagePos = 0 ∧
      h1.mgmtInfo = some file1 ∧
      (appendLoop m 0
        (openPageFile path blankHandle okEnv (createPageFile path okEnv d0).2).fHandle
        (fun _ => okEnv)
        (openPageFile path blankHandle okEnv (createPageFile path okEnv d0).2).disk).disk
        file1.path = some (List.replicate PAGE_SIZE 0 ++ List.replicate (PAGE_SIZE * m) 0) := by
  have hcreate := createPageFile_ok_of path okEnv d0 rfl rfl (by decide)
  have hd := createPageFile_ok_inv path okEnv d0 hcreate
  have hopen := openPageFile_ok_of path blankHandle okEnv _ _ rfl hd
  have hone : toInt32 (((List.replicate PAGE_SIZE (0 : Byte)).length : Int) / (PAGE_SIZE : Int))
      = 1 := by
    rw [List.length_replicate]
    decide
  rw [hone] at hopen
  obtain ⟨h1, file1, hrc, hfh, htot, hcur, hm1, hp1, hdisk⟩ :=
    appendLoop_ok_of (fun _ => okEnv) (fun _ => ⟨rfl, le_of_eq rfl⟩) m 0
      { fileName := path, totalNumPages := 1, curPagePos := 0,
        mgmtInfo := some { path := path, pos := 0 } }
      ⟨path, 0⟩ _ _ rfl hd (by simp only; omega) (by simp only; omega)
  simp only at htot hcur hp1 hdisk
  rw [hopen]
  exact ⟨hcreate, rfl, hrc, h1, file1, hfh, by rw [htot]; omega, hcur, hm1,
    by rw [hp1]; exact hdisk⟩

theorem appendLoop_one_ok (envs : Nat → OsEnv) (i : Nat) (fHandle : Option SM_FileHandle)
    (d : Disk) (hrc : (appendEmptyBlock fHandle (envs i) d).rc = RC_OK) :
    appendLoop 1 i fHandle envs d = appendEmptyBlock fHandle (envs i) d := by
  rw [appendLoop, appendLoop]
  simp only [hrc, ne_eq, not_true_eq_false, if_false]
  rw [← hrc]

/-- On every path: the 2147483647th append on a fresh file returns `RC_OK`
and leaves `totalNumPages = -2147483648`. -/
theorem fresh_appends_wrap (path : String) (d0 : Disk) :
    (appendLoop 2147483647 0
      (openPageFile path blankHandle okEnv (createPageFile path okEnv d0).2).fHandle
      (fun _ => okEnv)
      (openPageFile path blankHandle okEnv (createPageFile path okEnv d0).2).disk).rc
      = RC_OK ∧
    counters (appendLoop 2147483647 0
      (openPageFile path blankHandle okEnv (createPageFile path okEnv d0).2).fHandle
      (fun _ => okEnv)
      (openPageFile path blankHandle okEnv (createPageFile path okEnv d0).2).disk).fHandle
      = some (-2147483648, 0) := by
  obtain ⟨_, _, hrc, h1, file1, hfh, htot, hcur, hm1, hdisk⟩ :=
    fresh_appends_ok path d0 2147483646 (by decide)
  have hsplit : (2147483647 : Nat) = 2147483646 + 1 := rfl
  have happ := appendEmptyBlock_ok_of h1 file1 _ okEnv _ hm1 hdisk rfl (by decide)
  have hwrap : toInt32 (h1.totalNumPages + 1) = -2147483648 := by
    rw [htot]
    decide
  rw [hwrap] at happ
  rw [hsplit, appendLoop_split _ 2147483646 1 0 _ _ hrc, hfh,
    appendLoop_one_ok _ _ _ _ (by rw [happ]), happ]
  exact ⟨rfl, by simp only [counters, Option.map_some', hcur]⟩

/-- C13 as stated fails: the file `f` is created and opened and 2147483647
pages are appended, every call returning `RC_OK`; `totalNumPages` is then
-2147483648, not `m + 1 = 2147483648`. -/
theorem forward_iteration_count_wraps :
    (createPageFile "f" okEnv emptyDisk).1 = RC_OK ∧
    (openPageFile "f" blankHandle okEnv (createPageFile "f" okEnv emptyDisk).2).rc = RC_OK ∧
    (freshAfterAppends 2147483647).rc = RC_OK ∧
    counters (freshAfterAppends 2147483647).fHandle = some (-2147483648, 0) ∧
    pageCount (freshAfterAppends 2147483647).fHandle ≠ 2147483647 + 1 := by
  have h1 := fresh_appends_ok "f" emptyDisk 0 (by decide)
  have h2 := fresh_appends_wrap "f" emptyDisk
  unfold freshAfterAppends
  refine ⟨h1.1, h1.2.1, h2.1, h2.2, ?_⟩
  cases hfh : (appendLoop 2147483647 0
      (openPageFile "f" blankHandle okEnv (createPageFile "f" okEnv emptyDisk).2).fHandle
      (fun _ => okEnv)
      (openPageFile "f" blankHandle okEnv (createPageFile "f" okEnv emptyDisk).2).disk).fHandle with
  | none =>
    have hc := h2.2
    rw [hfh] at hc
    simp [counters] at hc
  | some h =>
    have hc := h2.2
    rw [hfh] at hc
    simp only [counters, Option.map_some', Option.some.injEq, Prod.mk.injEq] at hc
    simp only [pageCount]
    rw [hc.1]
    decide

/-- C13, amended, at the input of the spec's scenario, `m = 3`: the file `f`
is created and opened, three pages are appended, three `readNextBlock` calls
succeed and the fourth is refused. -/
theorem forward_iteration_small_witness :
    ∃ h, (appendLoop 3 0
        (openPageFile "f" blankHandle okEnv (createPageFile "f" okEnv emptyDisk).2).fHandle
        (fun _ => okEnv)
        (openPageFile "f" blankHandle okEnv (createPageFile "f" okEnv emptyDisk).2).disk).fHandle
        = some h ∧
      h.totalNumPages = ((3 : Nat) : Int) + 1 ∧ h.curPagePos = 0 ∧
      (∀ j, j ≤ 3 →
        (readNextLoop j (some h) zeroPage
          (appendLoop 3 0
            (openPageFile "f" blankHandle okEnv
              (createPageFile "f" okEnv emptyDisk).2).fHandle
            (fun _ => okEnv)
            (openPageFile "f" blankHandle okEnv
              (createPageFile "f" okEnv emptyDisk).2).disk).disk).rc = RC_OK ∧
        getBlockPos (readNextLoop j (some h) zeroPage
          (appendLoop 3 0
            (openPageFile "f" blankHandle okEnv
              (createPageFile "f" okEnv emptyDisk).2).fHandle
            (fun _ => okEnv)
            (openPageFile "f" blankHandle okEnv
              (createPageFile "f" okEnv emptyDisk).2).disk).disk).fHandle
          = (j : Int)) ∧
      (readNextLoop (3 + 1) (some h) zeroPage
        (appendLoop 3 0
          (openPageFile "f" blankHandle okEnv (createPageFile "f" okEnv emptyDisk).2).fHandle
          (fun _ => okEnv)
          (openPageFile "f" blankHandle okEnv
            (createPageFile "f" okEnv emptyDisk).2).disk).disk).rc
        = RC_READ_NON_EXISTING_PAGE :=
  forward_iteration_small "f" okEnv okEnv emptyDisk blankHandle (fun _ => okEnv) 3 zeroPage
    (fresh_appends_ok "f" emptyDisk 3 (by decide)).1
    (fresh_appends_ok "f" emptyDisk 3 (by decide)).2.1
    (fresh_appends_ok "f" emptyDisk 3 (by decide)).2.2.1
    (by decide) zeroPage_length

end StorageMgr
